import Mathlib

/-!
Verification development for the traffic micro-simulation engine.

This file gives a shallow embedding, in Lean 4, of the simulation core of the
repository (the traffic-light engine in src/utils/trafficLightManager.js, the
vehicle engine in src/utils/carManager.js, and the per-frame tick driver), and
proves or refutes the specification claims about it.

Modelling conventions:
* JavaScript numbers are modelled as rationals; counters as naturals;
  wall-clock timestamps (results of a Date-now call) as integers.
* Transcendental host-library functions (hypot, atan2, cos, sin, and the pi
  constant) are collected in a `MathOracle` parameter: they are pure,
  deterministic functions, and no claim below depends on their float values.
* Each call of the host random generator is modelled as an explicit rational
  input in [0,1), collected in a `RandOracle` parameter.
* The JavaScript Infinity value, where it can arise (an unresolvable distance
  or arrival time, a never-elapsing cycle duration), is modelled by an
  `Option` with `none` standing for Infinity.
* In-place object mutation is modelled by explicit state passing: a mutating
  pass over an array becomes a fold over indices where each step rebuilds the
  list, so later steps observe earlier mutations, exactly as shared object
  references do in the source.
-/

set_option maxHeartbeats 1000000

namespace TrafficSim

/-- Logical travel direction of a vehicle along a street; forward runs from
the street's from-endpoint to its to-endpoint. -/
inductive Dir where
  | forward
  | backward
deriving DecidableEq

/-- Turn classification used by the routing logic. -/
inductive Turn where
  | left
  | right
  | straight
  | uturn
deriving DecidableEq

/-- Traffic light phase state. -/
inductive LState where
  | red
  | yellow
  | green
  | waiting
deriving DecidableEq

/-- Location record (the fields the simulation engine reads). -/
structure Location where
  id : String
  x : ℚ
  y : ℚ
deriving DecidableEq

/-- Street record; directed in storage but semantically bidirectional. -/
structure Street where
  id : String
  fromId : String
  toId : String
deriving DecidableEq

/-- Vehicle record, mirroring the car objects built by createCar. -/
structure Car where
  id : String
  startLocationId : String
  destinationId : String
  currentStreetId : String
  direction : Dir
  progress : ℚ
  speed : ℚ
  maxSpeed : ℚ
  preferredSpeed : ℚ
  createdAt : ℤ
  reachedDestination : Bool
  counted : Bool
  stops : ℕ
  timeNotMoving : ℚ
  timeNotMovingStart : Option ℤ
  path : List String
  nextTurn : Option Turn
  waitingToTurnLeft : Bool
  streetsTraveled : ℕ
  totalTravelTime : ℚ
  currentStreetStartTime : Option ℤ
  turnSignalStartTime : Option ℤ
  lastStopTime : Option ℤ
  totalDistance : ℚ
  locationsVisited : ℕ
  lastSpeed : ℚ
  originalId : Option String
deriving DecidableEq

/-- Traffic light record, mirroring the objects built by createTrafficLight.
A `none` in an Option-typed field models a JavaScript null or absent field. -/
structure TLight where
  id : String
  locationId : String
  streetId : String
  state : LState
  timer : ℚ
  angle : ℚ
  lastStateChange : ℤ
  oppositeGroupId : Option String
  smartSwitchTarget : Option String
  lastSmartUpdate : Option ℤ
deriving DecidableEq

/-- Deterministic host math functions abstracted as an oracle; the claims
proved below do not depend on their values. -/
structure MathOracle where
  hypot : ℚ → ℚ → ℚ
  atan2 : ℚ → ℚ → ℚ
  cos : ℚ → ℚ
  sin : ℚ → ℚ
  pi : ℚ

/-- Truncation toward zero, the semantics of a JavaScript remainder. -/
def jsTrunc (q : ℚ) : ℤ := if 0 ≤ q then ⌊q⌋ else ⌈q⌉

/-- JavaScript remainder operator on numbers (sign follows the dividend). -/
def jsMod (a b : ℚ) : ℚ := a - b * (jsTrunc (a / b) : ℚ)

/-- Math-floor of a nonnegative number used as an array index. -/
def jsFloorNat (q : ℚ) : ℕ := (⌊q⌋).toNat

/-- Minimum of a list of numbers (spread into a Math-min call); the empty
case never arises at call sites. -/
def listMinQ : List ℚ → ℚ
  | [] => 0
  | x :: rest => rest.foldl min x

/-- Maximum of a list of numbers (spread into a Math-max call); the empty
case never arises at call sites. -/
def listMaxQ : List ℚ → ℚ
  | [] => 0
  | x :: rest => rest.foldl max x

/-- JavaScript truthiness of a nullable string (null and the empty string are
falsy). -/
def strTruthy : Option String → Bool
  | none => false
  | some s => decide (s ≠ "")

/-- String interpolation of a nullable string (null prints as the word null). -/
def jsStr : Option String → String
  | none => "null"
  | some s => s

/-! ### Traffic-light state machine (updateTrafficLight, lines 213-403) -/

/-- Cycle duration table of updateTrafficLight; `none` models the Infinity
duration under which a phase never times out. -/
def cycleDuration (isSmartControl : Bool) (s : LState) : Option ℚ :=
  if isSmartControl then
    match s with
    | .green => none
    | .yellow => some (1/2)
    | .red => none
    | .waiting => some (1/2)
  else
    match s with
    | .green => some 10
    | .yellow => some 2
    | .red => some 12
    | .waiting => some (1/2)

/-- Fallback direction grouping assigned when a light has no oppositeGroupId
(lines 221-233): within 45 degrees of vertical counts as north-south. -/
def fallbackGroupId (angle : ℚ) : String :=
  let normalizedAngle := jsMod (angle + 360) 360
  if (45 ≤ normalizedAngle ∧ normalizedAngle ≤ 135) ∨
      (225 ≤ normalizedAngle ∧ normalizedAngle ≤ 315) then "north-south"
  else "east-west"

/-- Propagation of a phase transition to the other lights of the same
oppositeGroupId at the same intersection that are still in the source state
(the three synchronization forEach blocks of updateTrafficLight). -/
def syncGroup (now : ℤ) (self : TLight) (src tgt : LState) (lights : List TLight) :
    List TLight :=
  lights.map fun o =>
    if o.locationId = self.locationId ∧ o.oppositeGroupId = self.oppositeGroupId ∧
        o.id ≠ self.id ∧ o.state = src then
      { o with state := tgt, timer := 0, lastStateChange := now }
    else o

/-- Smart-control promotion of the pending target group: red lights of the
target group move to waiting (lines 349-356). -/
def promoteTargetGroup (now : ℤ) (loc : String) (tgt : String) (lights : List TLight) :
    List TLight :=
  lights.map fun o =>
    if o.locationId = loc ∧ o.oppositeGroupId = some tgt ∧ o.state = .red then
      { o with state := .waiting, timer := 0, lastStateChange := now }
    else o

/-- Traditional-control promotion: every red light of a different
oppositeGroupId at the intersection moves to waiting (lines 368-375). -/
def promotePerpendicular (now : ℤ) (self : TLight) (lights : List TLight) :
    List TLight :=
  lights.map fun o =>
    if o.locationId = self.locationId ∧ o.oppositeGroupId ≠ self.oppositeGroupId ∧
        o.state = .red then
      { o with state := .waiting, timer := 0, lastStateChange := now }
    else o

/-- Deletion of the smartSwitchTarget marker on every light of the
intersection (line 363). -/
def clearSwitchTargets (loc : String) (lights : List TLight) : List TLight :=
  lights.map fun o =>
    if o.locationId = loc then { o with smartSwitchTarget := none } else o

/-- Timer-driven phase transition of updateTrafficLight (lines 299-400) for
the light at index i, whose current (timer-incremented, possibly
smart-updated) value is l. -/
def tlCycleStep (now : ℤ) (isSmartControl : Bool) (l : TLight) (lights : List TLight)
    (i : ℕ) : List TLight :=
  match cycleDuration isSmartControl l.state with
  | none => lights
  | some dur =>
    if l.timer ≥ dur then
      match l.state with
      | .green =>
        let lights1 := lights.set i { l with timer := 0, lastStateChange := now, state := .yellow }
        syncGroup now l .green .yellow lights1
      | .yellow =>
        let lights1 := lights.set i { l with timer := 0, lastStateChange := now, state := .red }
        let lights2 := syncGroup now l .yellow .red lights1
        if isSmartControl then
          match l.smartSwitchTarget with
          | some tgt =>
            if tgt ≠ "" then
              let lights3 := promoteTargetGroup now l.locationId tgt lights2
              let currentGroupLights := lights3.filter fun o =>
                decide (o.locationId = l.locationId ∧ o.oppositeGroupId = l.oppositeGroupId)
              if currentGroupLights.all fun o => decide (o.state = .red) then
                clearSwitchTargets l.locationId lights3
              else lights3
            else lights2
          | none => lights2
        else
          promotePerpendicular now l lights2
      | .waiting =>
        let lights1 := lights.set i { l with timer := 0, lastStateChange := now, state := .green }
        syncGroup now l .waiting .green lights1
      | .red =>
        lights.set i { l with timer := 0, lastStateChange := now }
    else lights

/-- Per-light safety correction of validateIntersectionSafety (lines
947-989): the source groups lights by intersection and mutates them; since
every correction is decided from the pre-validation states of the lights at
the same intersection, it is modelled pointwise. -/
def validateLight (lights : List TLight) (l : TLight) : TLight :=
  let intersectionLights := lights.filter fun o => decide (o.locationId = l.locationId)
  if intersectionLights.length < 4 then l
  else
    let greenLights := intersectionLights.filter fun o => decide (o.state = .green)
    let redLights := intersectionLights.filter fun o => decide (o.state = .red)
    if greenLights.length > 2 ∧ l ∈ greenLights.drop 2 then
      { l with state := .red, timer := 0 }
    else if redLights.length = intersectionLights.length ∧
        listMinQ (intersectionLights.map (·.timer)) > 3 ∧
        l.oppositeGroupId = some "north-south" then
      { l with state := .green, timer := 0 }
    else l

/-- Safety validation run after every batch update (validateIntersectionSafety). -/
def validateIntersectionSafety (lights : List TLight) : List TLight :=
  lights.map (validateLight lights)

/-! ### Vehicle geometry and collision analysis (carManager.js) -/

/-- Rendered position of a car (calculateCarPosition result). -/
structure CarPosition where
  x : ℚ
  y : ℚ
  angle : ℚ
deriving DecidableEq

/-- Curved-turn positioning (calculateCurvedTurnPosition): explicitly disabled
in the source, it always returns null before its commented-out body. -/
def calculateCurvedTurnPosition (_car : Car) (_street : Street)
    (_fromLocation _toLocation : Location) (_progress : ℚ)
    (_streets : List Street) (_locations : List Location) : Option CarPosition :=
  none

/-- Position of a car on its street with right-hand lane offset
(calculateCarPosition, lines 97-179). -/
def calculateCarPosition (M : MathOracle) (car : Car) (streets : List Street)
    (locations : List Location) : Option CarPosition :=
  match streets.find? (fun s => decide (s.id = car.currentStreetId)) with
  | none => none
  | some street =>
    match locations.find? (fun loc => decide (loc.id = street.fromId)),
          locations.find? (fun loc => decide (loc.id = street.toId)) with
    | some fromLocation, some toLocation =>
      let progress0 := car.progress
      let progress1 := if progress0 < 0 then 0 else progress0
      let progress := if progress1 > 1 then 1 else progress1
      let curveZone : ℚ := 15/100
      let isNearIntersection :=
        (car.direction = Dir.forward ∧ progress > 1 - curveZone) ∨
        (car.direction = Dir.backward ∧ progress < curveZone)
      let curved : Option CarPosition :=
        if isNearIntersection ∧ (car.nextTurn = some .left ∨ car.nextTurn = some .right) then
          calculateCurvedTurnPosition car street fromLocation toLocation progress streets locations
        else none
      match curved with
      | some p => some p
      | none =>
        let centerX := if car.direction = Dir.forward then
            fromLocation.x + (toLocation.x - fromLocation.x) * progress
          else toLocation.x + (fromLocation.x - toLocation.x) * (1 - progress)
        let centerY := if car.direction = Dir.forward then
            fromLocation.y + (toLocation.y - fromLocation.y) * progress
          else toLocation.y + (fromLocation.y - toLocation.y) * (1 - progress)
        let streetAngle := M.atan2 (toLocation.y - fromLocation.y) (toLocation.x - fromLocation.x)
        let perpAngle := if car.direction = Dir.forward then streetAngle + M.pi / 2
          else streetAngle - M.pi / 2
        let laneOffset : ℚ := 12
        let x := centerX + M.cos perpAngle * laneOffset
        let y := centerY + M.sin perpAngle * laneOffset
        let angle0 := streetAngle * 180 / M.pi
        let angle := if car.direction = Dir.backward then jsMod (angle0 + 180) 360 else angle0
        some ⟨x, y, angle⟩
    | _, _ => none

/-- Axis-aligned bounding box of a car. -/
structure Bounds where
  minX : ℚ
  maxX : ℚ
  minY : ℚ
  maxY : ℚ
deriving DecidableEq

/-- Bounding box of a rotated car rectangle (getCarBounds). -/
def getCarBounds (M : MathOracle) (position : CarPosition) (width height : ℚ) : Bounds :=
  let angleRad := position.angle * M.pi / 180
  let halfWidth := width / 2
  let halfHeight := height / 2
  let corners : List (ℚ × ℚ) :=
    [(-halfWidth, -halfHeight), (halfWidth, -halfHeight),
     (halfWidth, halfHeight), (-halfWidth, halfHeight)]
  let rotatedCorners := corners.map fun c =>
    (position.x + c.1 * M.cos angleRad - c.2 * M.sin angleRad,
     position.y + c.1 * M.sin angleRad + c.2 * M.cos angleRad)
  let xs := rotatedCorners.map Prod.fst
  let ys := rotatedCorners.map Prod.snd
  ⟨listMinQ xs, listMaxQ xs, listMinQ ys, listMaxQ ys⟩

/-- Bounding-box overlap test with safety margin (checkBoundsCollision). -/
def checkBoundsCollision (bounds1 bounds2 : Bounds) (margin : ℚ) : Bool :=
  !(decide (bounds1.maxX + margin < bounds2.minX) ||
    decide (bounds2.maxX + margin < bounds1.minX) ||
    decide (bounds1.maxY + margin < bounds2.minY) ||
    decide (bounds2.maxY + margin < bounds1.minY))

/-- Whether a car is moving toward a target point: dot product of its unit
travel vector with the unit vector toward the target exceeds one half
(isCarMovingTowardPoint). -/
def isCarMovingTowardPoint (M : MathOracle) (car : Car) (targetPoint : CarPosition)
    (streets : List Street) (locations : List Location) : Bool :=
  if car.speed < 1/100 then false
  else
    match calculateCarPosition M car streets locations with
    | none => false
    | some currentPos =>
      match streets.find? (fun s => decide (s.id = car.currentStreetId)) with
      | none => false
      | some currentStreet =>
        match locations.find? (fun loc => decide (loc.id = currentStreet.fromId)),
              locations.find? (fun loc => decide (loc.id = currentStreet.toId)) with
        | some fromLocation, some toLocation =>
          let movementVector : ℚ × ℚ :=
            if car.direction = Dir.forward then
              (toLocation.x - fromLocation.x, toLocation.y - fromLocation.y)
            else (fromLocation.x - toLocation.x, fromLocation.y - toLocation.y)
          let movementMagnitude := M.hypot movementVector.1 movementVector.2
          if movementMagnitude = 0 then false
          else
            let mv := (movementVector.1 / movementMagnitude, movementVector.2 / movementMagnitude)
            let toTargetVector := (targetPoint.x - currentPos.x, targetPoint.y - currentPos.y)
            let toTargetMagnitude := M.hypot toTargetVector.1 toTargetVector.2
            if toTargetMagnitude = 0 then false
            else
              let tv := (toTargetVector.1 / toTargetMagnitude, toTargetVector.2 / toTargetMagnitude)
              decide (mv.1 * tv.1 + mv.2 * tv.2 > 1/2)
        | _, _ => false

/-- Result of analyzeCarCollision; a `none` distance models the Infinity
returned when either position is unresolvable. -/
structure CollisionAnalysis where
  distance : Option ℚ
  isColliding : Bool
  car1MovingToward : Bool
  car2MovingToward : Bool
deriving DecidableEq

/-- Boundary-based collision analysis between two cars (analyzeCarCollision). -/
def analyzeCarCollision (M : MathOracle) (car1 car2 : Car) (streets : List Street)
    (locations : List Location) : CollisionAnalysis :=
  match calculateCarPosition M car1 streets locations,
        calculateCarPosition M car2 streets locations with
  | some pos1, some pos2 =>
    let carWidth : ℚ := 28
    let carHeight : ℚ := 14
    let safetyMargin : ℚ := 5
    let car1Bounds := getCarBounds M pos1 carWidth carHeight
    let car2Bounds := getCarBounds M pos2 carWidth carHeight
    let isColliding := checkBoundsCollision car1Bounds car2Bounds safetyMargin
    let centerDistance := M.hypot (pos2.x - pos1.x) (pos2.y - pos1.y)
    let car1MovingToward := isCarMovingTowardPoint M car1 pos2 streets locations
    let car2MovingToward := isCarMovingTowardPoint M car2 pos1 streets locations
    ⟨some centerDistance, isColliding, car1MovingToward, car2MovingToward⟩
  | _, _ => ⟨none, false, false, false⟩

/-- Center distance between two cars; `none` models the Infinity returned
when a position is unresolvable (calculateDistanceBetweenCars). -/
def calculateDistanceBetweenCars (M : MathOracle) (car1 car2 : Car)
    (streets : List Street) (locations : List Location) : Option ℚ :=
  match calculateCarPosition M car1 streets locations,
        calculateCarPosition M car2 streets locations with
  | some pos1, some pos2 => some (M.hypot (pos2.x - pos1.x) (pos2.y - pos1.y))
  | _, _ => none

/-- Closest car ahead on the same street and direction (findCarAhead). -/
def findCarAhead (car : Car) (allCars : List Car) (_streets : List Street)
    (_locations : List Location) : Option Car :=
  let carsOnSameStreet := allCars.filter fun otherCar => decide (
    otherCar.id ≠ car.id ∧ otherCar.currentStreetId = car.currentStreetId ∧
    otherCar.direction = car.direction ∧ otherCar.reachedDestination = false)
  (carsOnSameStreet.foldl (fun acc otherCar =>
    let isAhead := if car.direction = Dir.forward then otherCar.progress > car.progress
      else otherCar.progress < car.progress
    if isAhead then
      let distance := |otherCar.progress - car.progress|
      match acc with
      | none => some (otherCar, distance)
      | some prev => if distance < prev.2 then some (otherCar, distance) else some prev
    else acc) none).map Prod.fst

/-- Result entry of findCrossTrafficCar. -/
structure CrossTraffic where
  car : Car
  analysis : CollisionAnalysis
  priority : ℚ
  shouldStop : Bool
deriving DecidableEq

/-- Cross-traffic analysis at an intersection approach (findCrossTrafficCar):
scan all other cars on different streets feeding the same intersection, keep
the highest-priority imminent collision. -/
def findCrossTrafficCar (M : MathOracle) (car : Car) (allCars : List Car)
    (streets : List Street) (locations : List Location) : Option CrossTraffic :=
  match streets.find? (fun s => decide (s.id = car.currentStreetId)) with
  | none => none
  | some currentStreet =>
    let distanceToIntersection :=
      if car.direction = Dir.forward then 1 - car.progress else car.progress
    if distanceToIntersection > 1/4 then none
    else
      let intersectionLocationId :=
        if car.direction = Dir.forward then currentStreet.toId else currentStreet.fromId
      let intersectionStreets := streets.filter fun s =>
        decide (s.fromId = intersectionLocationId ∨ s.toId = intersectionLocationId)
      (allCars.foldl (fun (acc : Option CrossTraffic × ℚ) otherCar =>
        if otherCar.id = car.id ∨ otherCar.reachedDestination then acc
        else
          match streets.find? (fun s => decide (s.id = otherCar.currentStreetId)) with
          | none => acc
          | some otherStreet =>
            if ¬(intersectionStreets.any fun s => decide (s.id = otherCar.currentStreetId)) ∨
                otherCar.currentStreetId = car.currentStreetId then acc
            else
              let otherIntersectionLocationId :=
                if otherCar.direction = Dir.forward then otherStreet.toId else otherStreet.fromId
              if otherIntersectionLocationId ≠ intersectionLocationId then acc
              else
                let otherDistanceToIntersection :=
                  if otherCar.direction = Dir.forward then 1 - otherCar.progress
                  else otherCar.progress
                let collisionAnalysis := analyzeCarCollision M car otherCar streets locations
                let collisionTimeWindow : ℚ := 3/10
                let bothApproaching := distanceToIntersection < collisionTimeWindow ∧
                  otherDistanceToIntersection < collisionTimeWindow
                if bothApproaching ∧ collisionAnalysis.isColliding = true then
                  let priority0 : ℚ := 1
                  let priority1 := if collisionAnalysis.car2MovingToward then priority0 + 3 else priority0
                  let priority2 := if ¬collisionAnalysis.car1MovingToward then priority1 - 2 else priority1
                  let priority3 := if otherCar.speed > car.speed then priority2 + 1 else priority2
                  let distanceFactor := match collisionAnalysis.distance with
                    | some d => max 0 (1 - d / 100)
                    | none => 0
                  let priority := priority3 + distanceFactor
                  if priority > acc.2 then
                    (some ⟨otherCar, collisionAnalysis, priority,
                       collisionAnalysis.car1MovingToward && collisionAnalysis.car2MovingToward⟩,
                     priority)
                  else acc
                else acc) (none, 0)).1

/-- Result of detectAndResolveDeadlock (the reason and blocking-car fields,
used only for logging, are omitted). -/
structure DeadlockAnalysis where
  hasDeadlock : Bool
  shouldProceed : Bool
deriving DecidableEq

/-- Deadlock priority score of a car (calculateDeadlockPriority); the jitter
argument is the random sample of the Math-random call. -/
def calculateDeadlockPriority (car : Car) (streets : List Street)
    (_locations : List Location) (jitter : ℚ) : ℚ :=
  let p1 := car.speed * 10
  let p2 := match streets.find? (fun s => decide (s.id = car.currentStreetId)) with
    | some _ =>
      let distanceToIntersection :=
        if car.direction = Dir.forward then 1 - car.progress else car.progress
      (1 - distanceToIntersection) * 5
    | none => 0
  let p3 : ℚ := match car.nextTurn with
    | some .straight => 3
    | some .right => 2
    | some .left => 1
    | some .uturn => 0
    | none => 1
  p1 + p2 + p3 + jitter * (1/10)

/-- Scan of the nearby stopped cars for a mutually-blocking pair; the k-th
iteration consumes the jitter samples 2k and 2k+1 for the two Math-random
calls of its priority computations. -/
def deadlockScan (M : MathOracle) (jitter : ℕ → ℚ) (car : Car)
    (streets : List Street) (locations : List Location) :
    ℕ → List Car → DeadlockAnalysis
  | _, [] => ⟨false, false⟩
  | k, otherCar :: rest =>
    let collisionAnalysis := analyzeCarCollision M car otherCar streets locations
    if collisionAnalysis.isColliding then
      let carPriority := calculateDeadlockPriority car streets locations (jitter (2*k))
      let otherCarPriority := calculateDeadlockPriority otherCar streets locations (jitter (2*k+1))
      if carPriority > otherCarPriority then ⟨true, true⟩
      else if otherCarPriority > carPriority then ⟨true, false⟩
      else ⟨true, decide (car.id < otherCar.id)⟩
    else deadlockScan M jitter car streets locations (k+1) rest

/-- Deadlock detection and resolution (detectAndResolveDeadlock). -/
def detectAndResolveDeadlock (M : MathOracle) (jitter : ℕ → ℚ) (car : Car)
    (allCars : List Car) (streets : List Street) (locations : List Location) :
    DeadlockAnalysis :=
  if car.timeNotMoving < 3 then ⟨false, false⟩
  else
    let nearbyStoppedCars := allCars.filter fun otherCar =>
      decide (otherCar.id ≠ car.id ∧ otherCar.reachedDestination = false ∧
        ¬(otherCar.speed > 1/100) ∧ ¬(otherCar.timeNotMoving < 2)) &&
      (match calculateDistanceBetweenCars M car otherCar streets locations with
       | some d => decide (d < 80)
       | none => false)
    deadlockScan M jitter car streets locations 0 nearbyStoppedCars

/-- Predictive oncoming-traffic check for left turns
(checkForOncomingTrafficAdvanced). -/
def checkForOncomingTrafficAdvanced (car : Car) (allCars : List Car)
    (_streets : List Street) (_locations : List Location) : Bool :=
  let oncomingCars := allCars.filter fun otherCar => decide (
    otherCar.id ≠ car.id ∧ otherCar.currentStreetId = car.currentStreetId ∧
    otherCar.direction ≠ car.direction ∧ otherCar.reachedDestination = false)
  oncomingCars.any fun oncomingCar =>
    let distance := |oncomingCar.progress - car.progress|
    match oncomingCar.nextTurn with
    | some .straight | some .right | none =>
      let timeToIntersection :=
        distance / (if oncomingCar.speed = 0 then 1/10 else oncomingCar.speed)
      decide (timeToIntersection < 3 ∧ distance < 1/2)
    | some .left => false
    | some .uturn => decide (distance < 3/10)

/-! ### Routing (findBestNextStreet and the twin-synchronization cache) -/

/-- Routing decision: chosen street, logical direction, and turn type. -/
structure RoutingDecision where
  street : Street
  direction : Dir
  turn : Turn
deriving DecidableEq

/-- Global routingDecisions map, threaded explicitly; insertion at the front
with first-match lookup models overwriting Map set semantics. -/
abbrev RoutingCache := List (String × RoutingDecision)

/-- Lookup in the routing cache. -/
def cacheLookup (c : RoutingCache) (k : String) : Option RoutingDecision :=
  (c.find? (fun p => decide (p.1 = k))).map Prod.snd

/-- Insertion into the routing cache. -/
def cacheInsert (c : RoutingCache) (k : String) (d : RoutingDecision) : RoutingCache :=
  (k, d) :: c

/-- Normalization of an angle into the interval from minus pi to pi: closed
form of the two while loops of calculateTurnType.  The loops terminate only
for a positive pi; the host pi constant is positive, and for a nonpositive
oracle pi the input is returned unchanged. -/
def normalizeAnglePi (pi t : ℚ) : ℚ :=
  if 0 < pi then
    let t1 := if pi < t then t - 2 * pi * (⌈(t - pi) / (2 * pi)⌉ : ℚ) else t
    if t1 < -pi then t1 + 2 * pi * (⌈(-pi - t1) / (2 * pi)⌉ : ℚ) else t1
  else t

/-- Turn classification by angle between approach and exit bearings
(calculateTurnType): under 30 degrees is straight, over 150 a U-turn, else
left or right by the sign of the signed difference. -/
def calculateTurnType (M : MathOracle) (currentLocation : Location) (nextStreet : Street)
    (approachAngle : ℚ) (locations : List Location) : Turn :=
  let otherEndId := if nextStreet.fromId = currentLocation.id then nextStreet.toId
    else nextStreet.fromId
  match locations.find? (fun loc => decide (loc.id = otherEndId)) with
  | none => .straight
  | some otherEndLocation =>
    let exitAngle := M.atan2 (otherEndLocation.y - currentLocation.y)
      (otherEndLocation.x - currentLocation.x)
    let turnAngle := normalizeAnglePi M.pi (exitAngle - approachAngle)
    let turnDegrees := |turnAngle * 180 / M.pi|
    if turnDegrees < 30 then .straight
    else if turnDegrees > 150 then .uturn
    else if turnAngle > 0 then .left
    else .right

/-- The fresh (cache-miss) routing computation of findBestNextStreet: the
three scenarios over the connected-street count plus the fallbacks. -/
def computeRoutingDecision (M : MathOracle) (routeRand : ℚ)
    (currentLocationId previousStreetId : String)
    (streets : List Street) (locations : List Location) : Option RoutingDecision :=
  let allConnectedStreets := streets.filter fun s =>
    decide (s.fromId = currentLocationId ∨ s.toId = currentLocationId)
  let connectedStreets := streets.filter fun s =>
    decide ((s.fromId = currentLocationId ∨ s.toId = currentLocationId) ∧
      s.id ≠ previousStreetId)
  if allConnectedStreets.length = 1 then
        match allConnectedStreets.head? with
        | some street =>
          some ⟨street, if street.fromId = currentLocationId then .backward else .forward, .uturn⟩
        | none => none
      else if allConnectedStreets.length = 2 then
        match connectedStreets.head? with
        | some exitStreet =>
          some ⟨exitStreet, if exitStreet.fromId = currentLocationId then .forward else .backward,
            .straight⟩
        | none =>
          match allConnectedStreets.head? with
          | some street =>
            some ⟨street, if street.fromId = currentLocationId then .backward else .forward, .uturn⟩
          | none => none
      else if allConnectedStreets.length ≥ 3 then
        if connectedStreets.length > 0 then
          let randomIndex := jsFloorNat (routeRand * connectedStreets.length)
          match connectedStreets[randomIndex]? with
          | some selectedStreet =>
            let direction := if selectedStreet.fromId = currentLocationId then Dir.forward
              else Dir.backward
            let turn :=
              match locations.find? (fun loc => decide (loc.id = currentLocationId)),
                    streets.find? (fun s => decide (s.id = previousStreetId)) with
              | some currentLocation, some previousStreet =>
                let prevOtherEndId := if previousStreet.fromId = currentLocationId then
                    previousStreet.toId else previousStreet.fromId
                match locations.find? (fun loc => decide (loc.id = prevOtherEndId)) with
                | some prevOtherLocation =>
                  let approachAngle := M.atan2 (currentLocation.y - prevOtherLocation.y)
                    (currentLocation.x - prevOtherLocation.x)
                  calculateTurnType M currentLocation selectedStreet approachAngle locations
                | none => .straight
              | _, _ => .straight
            some ⟨selectedStreet, direction, turn⟩
          | none => none
        else
          match allConnectedStreets.head? with
          | some street =>
            some ⟨street, if street.fromId = currentLocationId then .backward else .forward, .uturn⟩
          | none => none
  else
    match allConnectedStreets.head? with
    | some street =>
      some ⟨street, if street.fromId = currentLocationId then .forward else .backward, .straight⟩
    | none => none

/-- Streamlined routing logic (findBestNextStreet, lines 299-407).  The
routeRand argument is the Math-random sample of the scenario-3 pick; the
routing cache is threaded in and out. -/
def findBestNextStreet (M : MathOracle) (routeRand : ℚ)
    (currentLocationId _destinationId previousStreetId : String)
    (streets : List Street) (locations : List Location)
    (carOriginalId : Option String) (cache : RoutingCache) :
    Option RoutingDecision × RoutingCache :=
  let routingKey := jsStr carOriginalId ++ "-" ++ currentLocationId ++ "-" ++ previousStreetId
  match if strTruthy carOriginalId then cacheLookup cache routingKey else none with
  | some cachedDecision => (some cachedDecision, cache)
  | none =>
    match computeRoutingDecision M routeRand currentLocationId previousStreetId
        streets locations with
    | some d =>
      if strTruthy carOriginalId then (some d, cacheInsert cache routingKey d)
      else (some d, cache)
    | none => (none, cache)

/-- New-destination generation (generateNewDestination); the four rational
arguments are the Math-random samples of its four possible random calls. -/
def generateNewDestination (randChoice randPark randReach randOther : ℚ)
    (currentLocationId : String) (locations : List Location) (streets : List Street) :
    String :=
  let reachableLocations := locations.filter fun loc =>
    decide (loc.id ≠ currentLocationId) &&
    streets.any fun street => decide (street.fromId = loc.id ∨ street.toId = loc.id)
  if reachableLocations.length = 0 then
    let otherLocations := locations.filter fun loc => decide (loc.id ≠ currentLocationId)
    if otherLocations.length > 0 then
      match otherLocations[jsFloorNat (randOther * otherLocations.length)]? with
      | some l => l.id
      | none => currentLocationId
    else currentLocationId
  else
    let parkingLots := reachableLocations.filter fun loc =>
      decide ((streets.filter fun s =>
        decide (s.fromId = loc.id ∨ s.toId = loc.id)).length = 1)
    if parkingLots.length > 0 ∧ randChoice < 7/10 then
      match parkingLots[jsFloorNat (randPark * parkingLots.length)]? with
      | some l => l.id
      | none => currentLocationId
    else
      match reachableLocations[jsFloorNat (randReach * reachableLocations.length)]? with
      | some l => l.id
      | none => currentLocationId

/-! ### Smart-control analytics (trafficLightManager.js, lines 421-941) -/

/-- Approach information of a car toward an intersection; the early
not-approaching returns of isCarApproachingIntersection are modelled as none. -/
structure Approach where
  approaching : Bool
  hasEnteredIntersection : Bool
  distanceToIntersection : ℚ
  distanceInPixels : ℚ
  locationId : String
deriving DecidableEq

/-- Approach check of a car toward the location ahead of it
(isCarApproachingIntersection). -/
def isCarApproachingIntersection (M : MathOracle) (car : Car) (streets : List Street)
    (locations : List Location) : Option Approach :=
  match streets.find? (fun s => decide (s.id = car.currentStreetId)) with
  | none => none
  | some street =>
    let approachingLocationId := if car.direction = Dir.forward then street.toId
      else street.fromId
    match locations.find? (fun loc => decide (loc.id = approachingLocationId)) with
    | none => none
    | some approachingLocation =>
      let otherEndId := if car.direction = Dir.forward then street.fromId else street.toId
      match locations.find? (fun loc => decide (loc.id = otherEndId)) with
      | none => none
      | some otherLocation =>
        let distanceToIntersection :=
          if car.direction = Dir.forward then 1 - car.progress else car.progress
        let streetLength := M.hypot (approachingLocation.x - otherLocation.x)
          (approachingLocation.y - otherLocation.y)
        let distanceInPixels := distanceToIntersection * streetLength
        let locationRadius : ℚ := 20
        some ⟨decide (distanceToIntersection < 9/10),
          decide (distanceInPixels < locationRadius),
          distanceToIntersection, distanceInPixels, approachingLocationId⟩

/-- Stopped cars determine their intended direction from position; the source
body is a stub that always answers straight
(determineIntendedDirectionFromPosition). -/
def determineIntendedDirectionFromPosition (_car : Car) (_street : Street)
    (_locations : List Location) : Turn := .straight

/-- Cars between a car and the intersection that may slow it down
(findSlowingCars), sorted by distance to the intersection. -/
def findSlowingCars (car : Car) (allCars : List Car) (_street : Street)
    (_approach : Approach) : List Car :=
  let carsOnSameStreet := allCars.filter fun otherCar => decide (
    otherCar.id ≠ car.id ∧ otherCar.currentStreetId = car.currentStreetId ∧
    otherCar.direction = car.direction ∧ otherCar.reachedDestination = false)
  let slowingCars := carsOnSameStreet.filter fun otherCar =>
    decide ((if car.direction = Dir.forward then
        otherCar.progress > car.progress ∧ otherCar.progress < 1
      else otherCar.progress < car.progress ∧ otherCar.progress > 0) ∧
      (otherCar.speed < car.speed ∨ otherCar.speed < 1/10))
  slowingCars.mergeSort fun a b =>
    decide ((if car.direction = Dir.forward then 1 - a.progress else a.progress) ≤
      (if car.direction = Dir.forward then 1 - b.progress else b.progress))

/-- Estimated arrival time of a car, accounting for slower cars ahead
(calculateEnhancedEstimatedArrivalTime); none models an Infinity result. -/
def calculateEnhancedEstimatedArrivalTime (M : MathOracle) (car : Car)
    (approach : Approach) (streets : List Street) (locations : List Location)
    (slowingCars : List Car) : Option ℚ :=
  if approach.distanceToIntersection ≤ 0 then some 0
  else
    match streets.find? (fun s => decide (s.id = car.currentStreetId)) with
    | none => none
    | some street =>
      match locations.find? (fun loc => decide (loc.id = street.fromId)),
            locations.find? (fun loc => decide (loc.id = street.toId)) with
      | some fromLocation, some toLocation =>
        let streetLength := M.hypot (toLocation.x - fromLocation.x)
          (toLocation.y - fromLocation.y)
        let distanceInPixels := approach.distanceToIntersection * streetLength
        let effectiveSpeed := max car.speed (1/10)
        let estimatedTime := distanceInPixels / (effectiveSpeed * 20)
        if slowingCars.length > 0 then
          let slowestCarSpeed := listMinQ (slowingCars.map fun c => max c.speed (5/100))
          if slowestCarSpeed < effectiveSpeed then
            let delayedSpeed := max slowestCarSpeed (5/100)
            some (distanceInPixels / (delayedSpeed * 20) + (slowingCars.length : ℚ) * (1/2))
          else some estimatedTime
        else some estimatedTime
      | _, _ => none

/-- Per-car data record built by collectApproachingCarsData; ranks start at
zero and are assigned by rankCarsByArrivalTime. -/
structure CarData where
  car : Car
  streetId : String
  speed : ℚ
  intendedDirection : Turn
  estimatedArrivalTime : Option ℚ
  distanceToIntersection : ℚ
  slowingCars : List Car
  isStopped : Bool
  timeNotMoving : ℚ
  rank : ℕ
deriving DecidableEq

/-- Data collection for the cars approaching an intersection
(collectApproachingCarsData), with the stopped-car and right-turn penalties
already added to the estimated arrival time. -/
def collectApproachingCarsData (M : MathOracle) (intersectionId : String)
    (cars : List Car) (streets : List Street) (locations : List Location)
    (intersectionLights : List TLight) : List CarData :=
  let intersectionStreets := intersectionLights.map (·.streetId)
  cars.filterMap fun car =>
    if car.reachedDestination then none
    else if ¬(intersectionStreets.contains car.currentStreetId) then none
    else
      match isCarApproachingIntersection M car streets locations with
      | none => none
      | some approach =>
        if ¬(approach.approaching = true ∧ approach.locationId = intersectionId) then none
        else
          match streets.find? (fun s => decide (s.id = car.currentStreetId)) with
          | none => none
          | some street =>
            let slowingCars := findSlowingCars car cars street approach
            let base := calculateEnhancedEstimatedArrivalTime M car approach streets
              locations slowingCars
            let withStopPenalty := if car.speed < 1/10 then base.map (· + 1) else base
            let estimatedArrivalTime := if car.nextTurn = some .right then
                withStopPenalty.map (· + 1)
              else withStopPenalty
            let intendedDirection := match car.nextTurn with
              | some t => t
              | none =>
                if car.speed < 1/10 then
                  determineIntendedDirectionFromPosition car street locations
                else .straight
            some ⟨car, car.currentStreetId, car.speed, intendedDirection,
              estimatedArrivalTime, approach.distanceToIntersection, slowingCars,
              decide (car.speed < 1/10), car.timeNotMoving, 0⟩

/-- Comparator on estimated arrival times with none as Infinity (the sort
comparator of rankCarsByArrivalTime). -/
def arrivalLE (a b : Option ℚ) : Bool :=
  match a, b with
  | some x, some y => decide (x ≤ y)
  | some _, none => true
  | none, some _ => false
  | none, none => true

/-- Strict comparison on estimated arrival times with none as Infinity (the
tie test of the ranking loop). -/
def arrivalGT (a b : Option ℚ) : Bool :=
  match a, b with
  | some x, some y => decide (x > y)
  | none, some _ => true
  | some _, none => false
  | none, none => false

/-- Rank-assignment loop over the (already sorted) tail: position i receives
rank i+1 when its arrival time strictly exceeds the previous one, else the
previous rank. -/
def assignRanksAux : List CarData → Option ℚ → ℕ → ℕ → List CarData
  | [], _, _, _ => []
  | c :: rest, prevTime, prevRank, i =>
    let rank := if arrivalGT c.estimatedArrivalTime prevTime then i + 1 else prevRank
    { c with rank := rank } ::
      assignRanksAux rest c.estimatedArrivalTime rank (i + 1)

/-- The comparator rankCarsByArrivalTime sorts with. -/
def carDataLE (a b : CarData) : Bool :=
  arrivalLE a.estimatedArrivalTime b.estimatedArrivalTime

/-- Ranking of cars ascending by estimated arrival time, ties sharing a rank
(rankCarsByArrivalTime). -/
def rankCarsByArrivalTime (approachingCarsData : List CarData) : List CarData :=
  let sortedCars := approachingCarsData.mergeSort carDataLE
  match sortedCars with
  | [] => []
  | c :: rest => { c with rank := 1 } :: assignRanksAux rest c.estimatedArrivalTime 1 1

/-- Street scores keyed by street id, in insertion order. -/
abbrev StreetScores := List (String × ℤ)

/-- Map update-or-insert, modelling assignment to an object key. -/
def scoreSet (m : StreetScores) (k : String) (v : ℤ) : StreetScores :=
  match m.find? (fun p => decide (p.1 = k)) with
  | some _ => m.map fun p => if p.1 = k then (k, v) else p
  | none => m ++ [(k, v)]

/-- Map lookup, modelling reading an object key. -/
def scoreGet (m : StreetScores) (k : String) : Option ℤ :=
  (m.find? (fun p => decide (p.1 = k))).map Prod.snd

/-- In-place addition to an existing key; the source adds to a key that was
always initialized by calculateStreetScores for every street at the
intersection, so the absent-key case (a NaN in JavaScript) never arises there
and is modelled as a no-op. -/
def scoreAdd (m : StreetScores) (k : String) (v : ℤ) : StreetScores :=
  m.map fun p => if p.1 = k then (p.1, p.2 + v) else p

/-- Street scores from car rankings: every street at the intersection starts
at zero and each car adds 100 minus its rank to its street
(calculateStreetScores). -/
def calculateStreetScores (rankedCars : List CarData)
    (intersectionLights : List TLight) : StreetScores :=
  let init := intersectionLights.foldl (fun m light => scoreSet m light.streetId 0) []
  rankedCars.foldl (fun m carData => scoreAdd m carData.streetId (100 - (carData.rank : ℤ))) init

/-- Pair scores keyed by opposite-group key, in first-occurrence order. -/
abbrev PairScores := List (String × ℤ)

/-- Coercion of a nullable group id to an object key (a null group id becomes
the literal key string null, as JavaScript object keys do). -/
def groupKey (g : Option String) : String := g.getD "null"

/-- First-occurrence deduplication of key lists (object key insertion order). -/
def firstKeys : List String → List String
  | [] => []
  | k :: rest => k :: (firstKeys rest).filter fun x => decide (x ≠ k)

/-- Combination of opposite streets' scores into per-group pair scores
(combineOppositeStreetScores). -/
def combineOppositeStreetScores (streetScores : StreetScores)
    (intersectionLights : List TLight) : PairScores :=
  let keys := firstKeys (intersectionLights.map fun l => groupKey l.oppositeGroupId)
  keys.map fun g =>
    (g, (intersectionLights.filter fun l =>
        decide (groupKey l.oppositeGroupId = g)).foldl
      (fun acc light => acc + (scoreGet streetScores light.streetId).getD 0) 0)

/-- Action of a smart traffic decision. -/
inductive DecisionAction where
  | SWITCH
  | NONE
deriving DecidableEq

/-- Smart traffic decision record. -/
structure Decision where
  action : DecisionAction
  targetGroup : Option String
  reason : String
deriving DecidableEq

/-- The highest-score fold step of makeTrafficLightDecision. -/
def scoreFoldStep (acc : ℤ × Option String) (p : String × ℤ) : ℤ × Option String :=
  if p.2 > acc.1 then (p.2, some p.1) else acc

/-- Switching decision with deadlock prevention (makeTrafficLightDecision,
lines 660-721). -/
def makeTrafficLightDecision (pairScores : PairScores)
    (intersectionLights : List TLight) : Decision :=
  let hs := pairScores.foldl scoreFoldStep (0, none)
  let highestScore := hs.1
  let highestScoringGroup := hs.2
  let currentGreenLights := intersectionLights.filter fun l => decide (l.state = LState.green)
  let currentGreenGroup : Option String := match currentGreenLights.head? with
    | some l => l.oppositeGroupId
    | none => none
  let allRed := intersectionLights.all fun l => decide (l.state = LState.red)
  let deadlockSwitch : Option Decision :=
    if allRed then
      let maxRedTime := listMaxQ (intersectionLights.map (·.timer))
      if maxRedTime > 2 then
        let targetGroup : Option String := match highestScoringGroup with
          | some g => some g
          | none => match intersectionLights.head? with
            | some l => l.oppositeGroupId
            | none => none
        if strTruthy targetGroup then
          some ⟨.SWITCH, targetGroup, "DEADLOCK_PREVENTION_ALL_RED"⟩
        else none
      else none
    else none
  match deadlockSwitch with
  | some d => d
  | none =>
    if (¬strTruthy highestScoringGroup ∨ highestScore = 0) ∧ ¬strTruthy currentGreenGroup then
      let firstGroup : Option String := match intersectionLights.head? with
        | some l => l.oppositeGroupId
        | none => none
      if strTruthy firstGroup then ⟨.SWITCH, firstGroup, "INITIALIZE_GREEN"⟩
      else if ¬strTruthy highestScoringGroup ∨ highestScore = 0 then
        ⟨.NONE, currentGreenGroup, "NO_CARS_KEEP_CURRENT"⟩
      else if currentGreenGroup = highestScoringGroup then
        ⟨.NONE, highestScoringGroup, "ALREADY_OPTIMAL"⟩
      else ⟨.SWITCH, highestScoringGroup, "SWITCH_TO_HIGHER_SCORE"⟩
    else if ¬strTruthy highestScoringGroup ∨ highestScore = 0 then
      ⟨.NONE, currentGreenGroup, "NO_CARS_KEEP_CURRENT"⟩
    else if currentGreenGroup = highestScoringGroup then
      ⟨.NONE, highestScoringGroup, "ALREADY_OPTIMAL"⟩
    else ⟨.SWITCH, highestScoringGroup, "SWITCH_TO_HIGHER_SCORE"⟩

/-- Full smart traffic analysis and decision for one intersection
(analyzeAndDecideSmartTraffic). -/
def analyzeAndDecideSmartTraffic (M : MathOracle) (intersectionId : String)
    (cars : List Car) (streets : List Street) (locations : List Location)
    (intersectionLights : List TLight) : Decision :=
  if intersectionLights.isEmpty then ⟨.NONE, none, "NO_LIGHTS"⟩
  else
    let approachingCarsData := collectApproachingCarsData M intersectionId cars streets
      locations intersectionLights
    let rankedCars := rankCarsByArrivalTime approachingCarsData
    let streetScores := calculateStreetScores rankedCars intersectionLights
    let pairScores := combineOppositeStreetScores streetScores intersectionLights
    makeTrafficLightDecision pairScores intersectionLights

/-- Application of a smart decision to the lights of an intersection
(applySmartDecision): a SWITCH records the target on every light and turns
current greens yellow; a NONE with a target refreshes the green timers. -/
def applySmartDecision (now : ℤ) (decision : Decision) (loc : String)
    (lights : List TLight) : List TLight :=
  if decision.action = .SWITCH then
    lights.map fun light =>
      if light.locationId = loc then
        if light.state = .green then
          { light with
            smartSwitchTarget := decision.targetGroup
            state := .yellow
            timer := 0
            lastStateChange := now }
        else { light with smartSwitchTarget := decision.targetGroup }
      else light
  else if decision.action = .NONE ∧ strTruthy decision.targetGroup then
    lights.map fun light =>
      if light.locationId = loc ∧ light.oppositeGroupId = decision.targetGroup ∧
          light.state = .green then
        { light with timer := 0, lastStateChange := now }
      else light
  else lights

/-- Fallback grouping stage of updateTrafficLight (lines 221-233): a light
with a null group is assigned the angle-based direction group. -/
def fallbackApply (l1 : TLight) : TLight :=
  if l1.oppositeGroupId.isNone then
    { l1 with oppositeGroupId := some (fallbackGroupId l1.angle) }
  else l1

/-- Once-per-second smart-analysis stage of updateTrafficLight (lines
246-257): mark the intersection's lights as analysed, run the smart decision
and apply it; the fired light value is re-read from the updated collection. -/
def smartGate (M : MathOracle) (now : ℤ) (isSmartControl : Bool)
    (cars : List Car) (streets : List Street) (locations : List Location)
    (l2 : TLight) (lights2 : List TLight) (i : ℕ) : TLight × List TLight :=
  if isSmartControl then
    let gate := match l2.lastSmartUpdate with
      | none => true
      | some t => decide (now - t ≥ 1000)
    if gate then
      let lightsA := lights2.map fun l =>
        if l.locationId = l2.locationId then { l with lastSmartUpdate := some now } else l
      let intersectionLights := lightsA.filter fun l =>
        decide (l.locationId = l2.locationId)
      let smartDecision := analyzeAndDecideSmartTraffic M l2.locationId cars streets
        locations intersectionLights
      let lightsB := applySmartDecision now smartDecision l2.locationId lightsA
      (lightsB[i]?.getD l2, lightsB)
    else (l2, lights2)
  else (l2, lights2)

/-- Full per-light update (updateTrafficLight, lines 213-403), acting on the
light at index i of the shared light list: timer increment, fallback
grouping, once-per-second smart analysis, then the timer-driven transition. -/
def updateTrafficLight (M : MathOracle) (now : ℤ) (deltaTime : ℚ)
    (isSmartControl : Bool) (cars : List Car) (streets : List Street)
    (locations : List Location) (allLights : List TLight) (i : ℕ) : List TLight :=
  match allLights[i]? with
  | none => allLights
  | some l0 =>
    let l1 := { l0 with timer := l0.timer + deltaTime }
    let lights1 := allLights.set i l1
    let l2 := fallbackApply l1
    let lights2 := lights1.set i l2
    let smartResult := smartGate M now isSmartControl cars streets locations l2 lights2 i
    tlCycleStep now isSmartControl smartResult.1 smartResult.2 i

/-- Batch update of all traffic lights followed by the safety validation
(updateTrafficLights, lines 1001-1008).  The source maps updateTrafficLight
over the array while passing the array itself for synchronization; since each
call mutates the shared objects, this is a fold over indices. -/
def updateTrafficLights (M : MathOracle) (now : ℤ) (lights : List TLight)
    (deltaTime : ℚ) (isSmartControl : Bool) (cars : List Car)
    (streets : List Street) (locations : List Location) : List TLight :=
  let updatedLights := (List.range lights.length).foldl
    (fun ls i => updateTrafficLight M now deltaTime isSmartControl cars streets locations ls i)
    lights
  validateIntersectionSafety updatedLights

/-! ### Vehicle per-tick update (updateCar, lines 488-920) -/

/-- Explicit samples for the random calls a single updateCar step may make. -/
structure RandOracle where
  route : ℚ
  destChoice : ℚ
  destPark : ℚ
  destReach : ℚ
  destOther : ℚ
  parkPick : ℚ
  jitter : ℕ → ℚ

/-- Default (all-zero) random samples, used to instantiate witnesses. -/
def zeroRand : RandOracle := ⟨0, 0, 0, 0, 0, 0, fun _ => 0⟩

/-- A fixed concrete math oracle used for witnesses: a Manhattan hypot, zero
angles, and axis-aligned trigonometry. -/
def simpleOracle : MathOracle :=
  ⟨fun a b => |a| + |b|, fun _ _ => 0, fun _ => 1, fun _ => 0, 3⟩

/-- Scan of the relevant lights deciding whether the car must stop for a
signal (the relevantLights.some callback of updateCar, lines 579-630); also
reports whether the left-turn-yield branch set waitingToTurnLeft.  The scan
stops at the first light demanding a stop, as the some combinator does. -/
def stopForLightScan (M : MathOracle) (car : Car) (allCars : List Car)
    (streets : List Street) (locations : List Location)
    (fromLocation toLocation : Location) : List TLight → Bool × Bool
  | [] => (false, false)
  | light :: rest =>
    let distanceToIntersection :=
      if car.direction = Dir.forward then 1 - car.progress else car.progress
    let locationRadius : ℚ := 20
    let streetLength := M.hypot (toLocation.x - fromLocation.x) (toLocation.y - fromLocation.y)
    let distanceToIntersectionPixels := distanceToIntersection * streetLength
    let hasEnteredIntersection := distanceToIntersectionPixels < locationRadius
    if hasEnteredIntersection then
      stopForLightScan M car allCars streets locations fromLocation toLocation rest
    else
      let decelerationZone : ℚ := 3/10
      let stopLineDistance := locationRadius * (8/10) / streetLength
      if light.state = .red ∧ distanceToIntersection < decelerationZone ∧
          distanceToIntersection > stopLineDistance then (true, false)
      else if light.state = .yellow ∧ distanceToIntersection < decelerationZone ∧
          distanceToIntersection > stopLineDistance * (3/2) then (true, false)
      else if light.state = .green ∧ car.nextTurn = some .left ∧
          distanceToIntersection < 2/10 ∧
          checkForOncomingTrafficAdvanced car allCars streets locations = true then
        (true, true)
      else stopForLightScan M car allCars streets locations fromLocation toLocation rest

/-- The originalId-or-id key a car passes to findBestNextStreet for twin
synchronization (an or-expression on a nullable string). -/
def carRoutingId (c : Car) : Option String :=
  some (match c.originalId with
    | some s => if s ≠ "" then s else c.id
    | none => c.id)

/-- Opposite logical direction. -/
def flipDir : Dir → Dir
  | .forward => .backward
  | .backward => .forward

/-- Travel-time increment recorded when a car finishes a street: wall-clock
seconds since the street start (a null start is replaced by the current
time, yielding a zero increment). -/
def travelTimeDelta (now : ℤ) (start : Option ℤ) : ℚ :=
  ((now - start.getD now : ℤ) : ℚ) / 1000

/-- End-of-street resolution of updateCar (lines 738-916): parking-lot
re-entry, destination renewal, routing to the next street, and the
conservative U-turn fallbacks. -/
def resolveEndOfStreet (M : MathOracle) (now : ℤ) (R : RandOracle)
    (updatedCar : Car) (currentStreet : Street) (streets : List Street)
    (locations : List Location) (cache : RoutingCache) : Car × RoutingCache :=
  let nextLocationId := if updatedCar.direction = Dir.forward then currentStreet.toId
    else currentStreet.fromId
  match locations.find? (fun loc => decide (loc.id = nextLocationId)) with
  | none => ({ updatedCar with reachedDestination := true }, cache)
  | some _nextLocation =>
    let connectedStreets := streets.filter fun s =>
      decide (s.fromId = nextLocationId ∨ s.toId = nextLocationId)
    let isParkingLot := connectedStreets.length = 1
    if isParkingLot then
      let uc := { updatedCar with locationsVisited := updatedCar.locationsVisited + 1 }
      match connectedStreets.head? with
      | none => ({ uc with reachedDestination := true }, cache)
      | some exitStreet =>
        let allParkingLots := locations.filter fun loc =>
          decide ((streets.filter fun s =>
            decide (s.fromId = loc.id ∨ s.toId = loc.id)).length = 1 ∧
            loc.id ≠ nextLocationId)
        if allParkingLots.length > 0 then
          match allParkingLots[jsFloorNat (R.parkPick * allParkingLots.length)]? with
          | none => ({ uc with reachedDestination := true }, cache)
          | some newDestination =>
            let exitDirection := if exitStreet.fromId = nextLocationId then Dir.forward
              else Dir.backward
            ({ uc with
              destinationId := newDestination.id
              startLocationId := nextLocationId
              currentStreetId := exitStreet.id
              direction := exitDirection
              progress := if exitDirection = Dir.forward then 5/100 else 95/100
              nextTurn := none
              path := uc.path ++ [nextLocationId]
              speed := max uc.speed (1/10)
              waitingToTurnLeft := false
              reachedDestination := false
              streetsTraveled := uc.streetsTraveled + 1
              totalTravelTime := uc.totalTravelTime +
                travelTimeDelta now uc.currentStreetStartTime
              currentStreetStartTime := some now }, cache)
        else ({ uc with reachedDestination := true }, cache)
    else if nextLocationId = updatedCar.destinationId then
      let newDestinationId := generateNewDestination R.destChoice R.destPark R.destReach
        R.destOther nextLocationId locations streets
      let routed := findBestNextStreet M R.route nextLocationId newDestinationId
        updatedCar.currentStreetId streets locations (carRoutingId updatedCar) cache
      match routed.1 with
      | none =>
        ({ updatedCar with
          destinationId := newDestinationId
          direction := flipDir updatedCar.direction
          progress := if updatedCar.direction = Dir.forward then 99/100 else 1/100
          nextTurn := some .uturn
          path := updatedCar.path ++ [nextLocationId]
          speed := 1/10
          waitingToTurnLeft := false
          reachedDestination := false }, routed.2)
      | some info =>
        ({ updatedCar with
          destinationId := newDestinationId
          currentStreetId := info.street.id
          direction := info.direction
          progress := if info.direction = Dir.forward then 5/100 else 95/100
          nextTurn := some info.turn
          path := updatedCar.path ++ [nextLocationId]
          speed := max updatedCar.speed (1/10)
          waitingToTurnLeft := false
          reachedDestination := false
          streetsTraveled := updatedCar.streetsTraveled + 1
          totalTravelTime := updatedCar.totalTravelTime +
            travelTimeDelta now updatedCar.currentStreetStartTime
          currentStreetStartTime := some now }, routed.2)
    else
      let routed := findBestNextStreet M R.route nextLocationId updatedCar.destinationId
        updatedCar.currentStreetId streets locations (carRoutingId updatedCar) cache
      match routed.1 with
      | none =>
        if connectedStreets.length = 0 then
          ({ updatedCar with reachedDestination := true }, routed.2)
        else
          ({ updatedCar with
            direction := flipDir updatedCar.direction
            progress := if updatedCar.direction = Dir.forward then 95/100 else 5/100
            nextTurn := some .uturn
            path := updatedCar.path ++ [nextLocationId]
            speed := 1/10
            waitingToTurnLeft := false
            reachedDestination := false }, routed.2)
      | some info =>
        ({ updatedCar with
          currentStreetId := info.street.id
          direction := info.direction
          progress := if info.direction = Dir.forward then 5/100 else 95/100
          nextTurn := some info.turn
          path := updatedCar.path ++ [nextLocationId]
          speed := max updatedCar.speed (1/10)
          waitingToTurnLeft := false
          turnSignalStartTime := none
          streetsTraveled := updatedCar.streetsTraveled + 1
          totalTravelTime := updatedCar.totalTravelTime +
            travelTimeDelta now updatedCar.currentStreetStartTime
          currentStreetStartTime := some now }, routed.2)

/-- Target-speed planning phase of updateCar (lines 500-630): car-ahead
following, cross-traffic yielding, deadlock override and the light scan.
Returns the target speed, the stop flag, the waitingToTurnLeft flag, and
whether a cross-traffic or car-ahead analysis object was present (the
conjunct of isStoppedForCollision). -/
def updateCarSpeedPlan (M : MathOracle) (R : RandOracle) (car : Car)
    (allCars : List Car) (streets : List Street) (locations : List Location)
    (trafficLights : List TLight) (currentStreet : Street)
    (fromLocation toLocation : Location) : ℚ × Bool × Bool × Bool :=
  let targetSpeed0 := if car.preferredSpeed = 0 then car.maxSpeed else car.preferredSpeed
  let carAhead := findCarAhead car allCars streets locations
  let crossTrafficAnalysis := findCrossTrafficCar M car allCars streets locations
  let carLength : ℚ := 28
  let safeFollowingDistance := carLength * 2
  let minimumDistance := carLength * (11/10)
  let afterAhead : ℚ × Bool :=
    match carAhead with
    | none => (targetSpeed0, false)
    | some ahead =>
      let collisionAnalysis := analyzeCarCollision M car ahead streets locations
      match collisionAnalysis.distance with
      | none => (targetSpeed0, false)
      | some d =>
        if d < safeFollowingDistance then
          if collisionAnalysis.car1MovingToward then
            let speedReduction := max 0 ((safeFollowingDistance - d) / safeFollowingDistance)
            let ts := min targetSpeed0 (ahead.speed * (1 - speedReduction * (1/2)))
            if d < minimumDistance then (0, true) else (ts, false)
          else (targetSpeed0, false)
        else (targetSpeed0, false)
  let afterCross : ℚ × Bool × Bool :=
    match crossTrafficAnalysis with
    | some cta =>
      if cta.shouldStop then
        if cta.analysis.car1MovingToward then (0, true, true)
        else (afterAhead.1, afterAhead.2, false)
      else (afterAhead.1, afterAhead.2, false)
    | none => (afterAhead.1, afterAhead.2, false)
  let afterDeadlock : ℚ × Bool × Bool :=
    if afterCross.2.1 ∨ car.speed < 1/100 then
      let deadlockAnalysis := detectAndResolveDeadlock M R.jitter car allCars
        streets locations
      if deadlockAnalysis.hasDeadlock ∧ deadlockAnalysis.shouldProceed then
        (targetSpeed0, false, false)
      else afterCross
    else afterCross
  let crossTrafficBlocking := afterDeadlock.2.2
  let relevantLights := trafficLights.filter fun light => decide (
    light.streetId = car.currentStreetId ∧
    ((car.direction = Dir.forward ∧ light.locationId = currentStreet.toId) ∨
     (car.direction = Dir.backward ∧ light.locationId = currentStreet.fromId)))
  let lightScan := stopForLightScan M car allCars streets locations fromLocation
    toLocation relevantLights
  let shouldStopForLight := ¬crossTrafficBlocking = true ∧ lightScan.1 = true
  let waitingToTurnLeft := if shouldStopForLight then lightScan.2 else false
  let afterLight : ℚ × Bool :=
    if shouldStopForLight then (0, true) else (afterDeadlock.1, afterDeadlock.2.1)
  (afterLight.1, afterLight.2, waitingToTurnLeft,
    crossTrafficAnalysis.isSome || carAhead.isSome)

/-- Motion-integration phase of updateCar (lines 630-737): turn-approach
slowdown, asymmetric acceleration, stop and waiting-time metrics, distance
and progress integration and the turn signal, producing the updated car
record. -/
def updateCarIntegrate (now : ℤ) (car : Car) (targetSpeedIn : ℚ)
    (shouldStop : Bool) (waitingToTurnLeft : Bool) (deltaTime : ℚ) : Car :=
  let wasMoving := car.speed > 1/10
  let acceleration : ℚ := 12/10
  let normalDeceleration : ℚ := 24/10
  let emergencyDeceleration : ℚ := 5
  let turnDeceleration : ℚ := 3
  let distanceToEndPre :=
    if car.direction = Dir.forward then 1 - car.progress else car.progress
  let approachingTurn : Bool × ℚ :=
    if (car.nextTurn = some .left ∨ car.nextTurn = some .right) ∧
        distanceToEndPre < 2/10 then
      (true, min targetSpeedIn (car.preferredSpeed * (6/10)))
    else (false, targetSpeedIn)
  let targetSpeed := approachingTurn.2
  let useEmergencyBraking := shouldStop = true ∧ car.speed > targetSpeed + 2/10
  let useApproachingTurnDeceleration := approachingTurn.1 = true ∧ ¬shouldStop = true
  let deceleration := if useEmergencyBraking then emergencyDeceleration
    else if useApproachingTurnDeceleration then turnDeceleration
    else normalDeceleration
  let newSpeed :=
    if car.speed < targetSpeed then min (car.speed + acceleration * deltaTime) targetSpeed
    else if car.speed > targetSpeed then
      max (car.speed - deceleration * deltaTime) (max 0 targetSpeed)
    else car.speed
  let isNowStopped := newSpeed < 1/10
  let stopsNext : ℕ × Option ℤ :=
    if wasMoving ∧ isNowStopped ∧ shouldStop = true then (car.stops + 1, some now)
    else (car.stops, car.lastStopTime)
  let notMovingNext : ℚ × Option ℤ :=
    if isNowStopped then
      (car.timeNotMoving + deltaTime,
       match car.timeNotMovingStart with
       | none => some now
       | some t => some t)
    else (car.timeNotMoving, none)
  let progressChange := newSpeed * deltaTime * (8/100)
  let distanceTraveled := newSpeed * deltaTime
  let newProgress := if car.direction = Dir.forward then car.progress + progressChange
    else car.progress - progressChange
  let progressFromStart := if car.direction = Dir.forward then newProgress
    else 1 - newProgress
  let turnSignalNext :=
    if progressFromStart ≥ 1/2 ∧
        (car.nextTurn = some .left ∨ car.nextTurn = some .right) then
      match car.turnSignalStartTime with
      | none => some now
      | some t => some t
    else car.turnSignalStartTime
  { car with
    waitingToTurnLeft := waitingToTurnLeft
    lastSpeed := car.speed
    speed := newSpeed
    stops := stopsNext.1
    lastStopTime := stopsNext.2
    timeNotMoving := notMovingNext.1
    timeNotMovingStart := notMovingNext.2
    totalDistance := car.totalDistance + distanceTraveled
    progress := newProgress
    turnSignalStartTime := turnSignalNext }

/-- Per-tick update of one car (updateCar, lines 488-920): target-speed
determination (car ahead, cross traffic, deadlock override, signals,
left-turn yield), asymmetric acceleration, stop and waiting-time metrics,
progress integration, and end-of-street resolution. -/
def updateCar (M : MathOracle) (now : ℤ) (R : RandOracle) (car : Car)
    (streets : List Street) (locations : List Location)
    (trafficLights : List TLight) (deltaTime : ℚ) (allCars : List Car)
    (cache : RoutingCache) : Car × RoutingCache :=
  if car.reachedDestination then (car, cache)
  else
    match streets.find? (fun s => decide (s.id = car.currentStreetId)) with
    | none => ({ car with reachedDestination := true }, cache)
    | some currentStreet =>
      match locations.find? (fun loc => decide (loc.id = currentStreet.fromId)),
            locations.find? (fun loc => decide (loc.id = currentStreet.toId)) with
      | some fromLocation, some toLocation =>
        let plan := updateCarSpeedPlan M R car allCars streets locations
          trafficLights currentStreet fromLocation toLocation
        let updatedCar := updateCarIntegrate now car plan.1 plan.2.1 plan.2.2.1
          deltaTime
        let isActuallyAtEnd := (updatedCar.progress ≥ 1 ∧ car.direction = Dir.forward) ∨
          (updatedCar.progress ≤ 0 ∧ car.direction = Dir.backward)
        let isMoving := updatedCar.speed > 1/100
        let isStoppedForCollision := plan.2.1 = true ∧ plan.2.2.2 = true
        if isActuallyAtEnd ∧ isMoving ∧ ¬isStoppedForCollision then
          resolveEndOfStreet M now R updatedCar currentStreet streets locations cache
        else (updatedCar, cache)
      | _, _ => ({ car with reachedDestination := true }, cache)

/-- Sequential update of a car list against a fixed pre-tick snapshot of all
cars (the cars.map callback of simulateTraffic), threading the routing cache
and giving each car its own random samples. -/
def simulateCars (M : MathOracle) (now : ℤ) (oracles : ℕ → RandOracle)
    (streets : List Street) (locations : List Location)
    (trafficLights : List TLight) (dt : ℚ) (allCars : List Car) :
    List Car → ℕ → RoutingCache → List Car × RoutingCache
  | [], _, cache => ([], cache)
  | car :: rest, k, cache =>
    let first := updateCar M now (oracles k) car streets locations trafficLights dt
      allCars cache
    let others := simulateCars M now oracles streets locations trafficLights dt allCars
      rest (k + 1) first.2
    (first.1 :: others.1, others.2)

/-- Traffic simulation for all cars with the capped time step
(simulateTraffic, lines 1476-1485). -/
def simulateTraffic (M : MathOracle) (now : ℤ) (oracles : ℕ → RandOracle)
    (cars : List Car) (streets : List Street) (locations : List Location)
    (trafficLights : List TLight) (deltaTime : ℚ) (cache : RoutingCache) :
    List Car × RoutingCache :=
  let cappedDeltaTime := min deltaTime (1/10)
  simulateCars M now oracles streets locations trafficLights cappedDeltaTime cars cars 0 cache

/-- One tick of the per-panel animation loop (runSimulation): the light set
is updated first, and the vehicle update then runs against the updated light
objects.  The source passes the light array captured by the loop closure, but
updateTrafficLight mutates each light object in place and returns the same
objects, so the collection the vehicle update reads carries exactly the
states produced by this tick's updateTrafficLights call; the sequential
state-passing below is the faithful rendering of that aliasing.  Metric
aggregation, stuck-car removal and spawning, which do not read light state,
are outside this model. -/
def runSimulationTick (M : MathOracle) (now : ℤ) (oracles : ℕ → RandOracle)
    (isSmartControl : Bool) (streets : List Street) (locations : List Location)
    (lights : List TLight) (cars : List Car) (deltaTime : ℚ)
    (cache : RoutingCache) : List TLight × List Car × RoutingCache :=
  let updatedLights := if lights.isEmpty then lights
    else updateTrafficLights M now lights deltaTime isSmartControl cars streets locations
  let carsResult := if cars.isEmpty then (cars, cache)
    else simulateTraffic M now oracles cars streets locations updatedLights deltaTime cache
  (updatedLights, carsResult.1, carsResult.2)

/-! ### Concrete fixtures used by counterexamples and witnesses -/

/-- A concrete traffic light builder for fixtures. -/
def mkLight (id loc street : String) (st : LState) (timer : ℚ) (grp : Option String) :
    TLight :=
  ⟨id, loc, street, st, timer, 0, 0, grp, none, some 0⟩

/-- Fixture light for the smart-yellow-duration counterexample: a yellow
light 1 second into its phase. -/
def c4Light : TLight := mkLight "L1" "I" "S" .yellow 0 (some "g")

/-- Fixture lights for the C7 witness: a two-light all-red intersection with
timers beyond 2 seconds. -/
def c7Lights : List TLight :=
  [mkLight "A" "I" "S1" .red 3 (some "g1"), mkLight "B" "I" "S2" .red 4 (some "g2")]

/-- A fixture car used to populate CarData records. -/
def defaultCar : Car where
  id := "car-0"
  startLocationId := "P1"
  destinationId := "P2"
  currentStreetId := "S"
  direction := .forward
  progress := 1/2
  speed := 0
  maxSpeed := 1
  preferredSpeed := 1
  createdAt := 0
  reachedDestination := false
  counted := false
  stops := 0
  timeNotMoving := 0
  timeNotMovingStart := none
  path := []
  nextTurn := none
  waitingToTurnLeft := false
  streetsTraveled := 0
  totalTravelTime := 0
  currentStreetStartTime := some 0
  turnSignalStartTime := none
  lastStopTime := none
  totalDistance := 0
  locationsVisited := 0
  lastSpeed := 0
  originalId := none

/-- CarData fixture with arrival time n; the car with arrival time 100 is the
only one on street t, all others are on street s. -/
def c6Data (n : ℕ) : CarData where
  car := defaultCar
  streetId := if n = 100 then "t" else "s"
  speed := 1
  intendedDirection := .straight
  estimatedArrivalTime := some (n : ℚ)
  distanceToIntersection := 0
  slowingCars := []
  isStopped := false
  timeNotMoving := 0
  rank := 0

/-- A 101-car approaching set with pairwise-distinct arrival times. -/
def c6Input : List CarData := (List.range 101).map c6Data

/-- Fixture lights spanning the two streets used by the C6 fixtures. -/
def c6ScoreLights : List TLight :=
  [mkLight "A" "I" "s" .red 0 (some "g1"), mkLight "B" "I" "t" .red 0 (some "g2")]

/-- Fixture graph for C9: a three-way location C. -/
def c9Locs : List Location :=
  [⟨"C", 0, 0⟩, ⟨"X1", 100, 0⟩, ⟨"X2", 0, 100⟩, ⟨"X3", -100, 0⟩]

/-- Fixture streets for C9. -/
def c9Streets : List Street :=
  [⟨"s1", "C", "X1"⟩, ⟨"s2", "C", "X2"⟩, ⟨"s3", "C", "X3"⟩]

/-- Fixture for the C8 counterexample: a standard 4-way whose pairing renamed
every group to opposite-I-0 or opposite-I-1, all red for 4 seconds. -/
def c8Lights : List TLight :=
  [mkLight "A" "I" "S1" .red 4 (some "opposite-I-0"),
   mkLight "B" "I" "S2" .red 4 (some "opposite-I-0"),
   mkLight "C" "I" "S3" .red 4 (some "opposite-I-1"),
   mkLight "D" "I" "S4" .red 4 (some "opposite-I-1")]

/-- Fixture street for the C10 counterexample. -/
def c10Street : Street := ⟨"S", "A", "B"⟩

/-- Fixture locations for the C10 counterexample. -/
def c10Locs : List Location := [⟨"A", 0, 0⟩, ⟨"B", 100, 0⟩]

/-- Fixture car for the C10 counterexample: mid-street, rolling at half speed,
with 5 seconds of accumulated waiting time. -/
def c10Car : Car := { defaultCar with
  timeNotMoving := 5
  speed := 1/2 }

/-- Fixture locations for C2: a straight A-B-C corridor. -/
def c2Locs : List Location := [⟨"A", 0, 0⟩, ⟨"B", 100, 0⟩, ⟨"C", 200, 0⟩]

/-- Fixture streets for C2. -/
def c2Streets : List Street := [⟨"s1", "A", "B"⟩, ⟨"s2", "B", "C"⟩]

/-- C2 witness car: about to cross the end of s1 at full speed with a free
intersection ahead. -/
def c2wCar : Car := { defaultCar with
  currentStreetId := "s1"
  progress := 999/1000
  speed := 1 }

/-- C2 counterexample car: at 0.9999 progress at full speed, with a stopped
car immediately ahead. -/
def c2CarX : Car := { defaultCar with
  progress := 9999/10000
  speed := 1 }

/-- The stopped car ahead of the C2 counterexample car. -/
def c2CarY : Car := { defaultCar with
  id := "car-1"
  progress := 19999/20000 }

/-- C3 fixture light: green on s1 at B, 9.95 seconds into its green phase, so
the tick's light update flips it yellow. -/
def c3Light : TLight := mkLight "L" "B" "s1" .green (199/20) (some "g")

/-- C3 fixture car: approaching B on s1 inside the deceleration zone. -/
def c3Car : Car := { defaultCar with
  currentStreetId := "s1"
  progress := 3/4
  speed := 1 }

/-! ### Claim C1: invariant definitions -/

/-- Every light of the intersection loc belongs to one of the two phase
groups A and B (the pairing produced by assignTrafficLightGroups). -/
def GroupsIn (loc A B : String) (ls : List TLight) : Prop :=
  ∀ (j : ℕ) (m : TLight), ls[j]? = some m → m.locationId = loc →
    m.oppositeGroupId = some A ∨ m.oppositeGroupId = some B

/-- The light identifiers are pairwise distinct. -/
def NodupIds (ls : List TLight) : Prop :=
  (ls.map (fun l => l.id)).Nodup

/-- At most two lights of the intersection loc carry the group g (one per
opposite approach, as the pairing builds them). -/
def GroupLe2 (loc g : String) (ls : List TLight) : Prop :=
  (ls.filter fun l =>
    decide (l.locationId = loc ∧ l.oppositeGroupId = some g)).length ≤ 2

/-- One phase group g is in the uniform state s at the intersection loc and
every light of the other group shows red. -/
def OneActive (loc g : String) (s : LState) (ls : List TLight) : Prop :=
  ∀ (j : ℕ) (m : TLight), ls[j]? = some m → m.locationId = loc →
    m.state = (if m.oppositeGroupId = some g then s else LState.red)

/-- Structural part of the C1 invariant: the intersection's lights fall into
the two phase groups, ids are pairwise distinct, and each group has at most
two lights (one per opposite approach). -/
def C1Static (loc A B : String) (ls : List TLight) : Prop :=
  GroupsIn loc A B ls ∧ NodupIds ls ∧ GroupLe2 loc A ls ∧ GroupLe2 loc B ls

/-- The C1 safety invariant of an intersection: two distinct phase groups
covering its lights, pairwise-distinct ids, at most two lights per group,
and a single active group with every other light red. -/
def C1Inv (loc A B : String) (ls : List TLight) : Prop :=
  A ≠ B ∧ C1Static loc A B ls ∧
  ∃ g s, (g = A ∨ g = B) ∧ OneActive loc g s ls

/-- Light configurations reachable from an initial one by repeated batch
updates, with arbitrary oracle, wall clock, time step, control mode, car
population and graph at every step. -/
inductive ReachableTL : List TLight → List TLight → Prop
  | refl (ls : List TLight) : ReachableTL ls ls
  | step (ls₁ ls₂ : List TLight) (M : MathOracle) (now : ℤ) (dt : ℚ)
      (isSmartControl : Bool) (cars : List Car) (streets : List Street)
      (locations : List Location) :
      ReachableTL ls₁ ls₂ →
      ReachableTL ls₁
        (updateTrafficLights M now ls₂ dt isSmartControl cars streets locations)

/-- C1 witness fixture: a 4-light intersection, group gA green and group gB
red. -/
def c1Lights : List TLight :=
  [mkLight "A1" "I" "S1" .green 0 (some "gA"),
   mkLight "A2" "I" "S2" .green 0 (some "gA"),
   mkLight "B1" "I" "S3" .red 0 (some "gB"),
   mkLight "B2" "I" "S4" .red 0 (some "gB")]

/-! ### Helper lemmas on lists -/

theorem forall_getElem?_iff {α} {P : α → Prop} {ls : List α} :
    (∀ l ∈ ls, P l) ↔ ∀ (j : ℕ) (l : α), ls[j]? = some l → P l := by
  constructor
  · intro h j l hj
    exact h l (List.getElem?_mem hj)
  · intro h l hl
    obtain ⟨j, hj, rfl⟩ := List.getElem_of_mem hl
    exact h j _ (by simp [List.getElem?_eq_getElem hj])

theorem length_pos_of_getElem? {α} {ls : List α} {i : ℕ} {a : α}
    (h : ls[i]? = some a) : i < ls.length :=
  (List.getElem?_eq_some.mp h).1

/-! ### Claim C5: the traditional fixed-timer cycle -/

/-- Claim C5 (confirmed).  Under traditional (non-smart) control, a single
updateTrafficLight step on the light at index i behaves as the fixed-timer
cycle: green advances to yellow once the accumulated timer reaches 10
seconds, yellow advances to red at 2 seconds, waiting advances to green at
0.5 seconds, a red light never advances by its own timeout for any time
step, and on a yellow-to-red transition every red light of a different
oppositeGroupId at the same intersection is pushed to waiting. -/
theorem C5_fixed_timer_cycle (M : MathOracle) (now : ℤ) (dt : ℚ) (cars : List Car)
    (streets : List Street) (locations : List Location) (lights : List TLight)
    (i : ℕ) (l : TLight) (hi : lights[i]? = some l) (hg : l.oppositeGroupId.isSome) :
    ((l.state = .green → l.timer + dt ≥ 10 →
      (updateTrafficLight M now dt false cars streets locations lights i)[i]?.map
        TLight.state = some .yellow) ∧
     (l.state = .yellow → l.timer + dt ≥ 2 →
      (updateTrafficLight M now dt false cars streets locations lights i)[i]?.map
        TLight.state = some .red) ∧
     (l.state = .waiting → l.timer + dt ≥ 1/2 →
      (updateTrafficLight M now dt false cars streets locations lights i)[i]?.map
        TLight.state = some .green) ∧
     (l.state = .red →
      (updateTrafficLight M now dt false cars streets locations lights i)[i]?.map
        TLight.state = some .red) ∧
     (l.state = .yellow → l.timer + dt ≥ 2 →
      ∀ (j : ℕ) (m : TLight), lights[j]? = some m → m.locationId = l.locationId →
        m.oppositeGroupId ≠ l.oppositeGroupId → m.state = .red →
        (updateTrafficLight M now dt false cars streets locations lights i)[j]?.map
          TLight.state = some .waiting)) := by
  have hlen : i < lights.length := length_pos_of_getElem? hi
  have hg' : l.oppositeGroupId.isNone = false := by
    cases h : l.oppositeGroupId with
    | none => rw [h] at hg; simp at hg
    | some g => simp
  refine ⟨?_, ?_, ?_, ?_, ?_⟩
  · intro hst htm
    simp only [updateTrafficLight, smartGate, fallbackApply, hi, hg', Bool.false_eq_true, if_false, if_neg,
      ite_false, tlCycleStep, hst, cycleDuration, Bool.false_eq_true]
    rw [if_pos (by simpa using htm)]
    simp only [syncGroup, List.getElem?_map, List.set_set, List.getElem?_set, if_pos rfl,
      hlen, ite_true]
    simp
  · intro hst htm
    simp only [updateTrafficLight, smartGate, fallbackApply, hi, hg', Bool.false_eq_true, if_false, if_neg,
      ite_false, tlCycleStep, hst, cycleDuration, Bool.false_eq_true]
    rw [if_pos (by simpa using htm)]
    simp only [promotePerpendicular, syncGroup, List.getElem?_map, List.set_set,
      List.getElem?_set, if_pos rfl, hlen, ite_true]
    simp
  · intro hst htm
    simp only [updateTrafficLight, smartGate, fallbackApply, hi, hg', Bool.false_eq_true, if_false, if_neg,
      ite_false, tlCycleStep, hst, cycleDuration, Bool.false_eq_true]
    rw [if_pos (by simpa using htm)]
    simp only [syncGroup, List.getElem?_map, List.set_set, List.getElem?_set, if_pos rfl,
      hlen, ite_true]
    simp
  · intro hst
    simp only [updateTrafficLight, smartGate, fallbackApply, hi, hg', Bool.false_eq_true, if_false, if_neg,
      ite_false, tlCycleStep, hst, cycleDuration, Bool.false_eq_true]
    by_cases htm : l.timer + dt ≥ 12
    · rw [if_pos (by simpa using htm)]
      simp [List.getElem?_set, hlen]
    · rw [if_neg (by simpa using htm)]
      simp [List.getElem?_set, hlen]
  · intro hst htm j m hj hml hmg hmr
    have hji : j ≠ i := by
      rintro rfl
      rw [hi] at hj
      cases hj
      exact hmg rfl
    simp only [updateTrafficLight, smartGate, fallbackApply, hi, hg', Bool.false_eq_true, if_false, if_neg,
      ite_false, tlCycleStep, hst, cycleDuration, Bool.false_eq_true]
    rw [if_pos (by simpa using htm)]
    simp only [promotePerpendicular, syncGroup, List.getElem?_map, List.set_set,
      List.getElem?_set, if_neg (Ne.symm hji), hj]
    simp [hml, hmg, hmr]

/-- Witness for C5 at a concrete two-light intersection. -/
theorem C5_fixed_timer_cycle_witness :
    (mkLight "A" "I" "S1" .yellow (19/10) (some "g1")).state = .yellow ∧
    ((updateTrafficLight simpleOracle 0 (1/10) false [] [] []
      [mkLight "A" "I" "S1" .yellow (19/10) (some "g1"),
       mkLight "B" "I" "S2" .red 1 (some "g2")] 0)[1]?.map TLight.state =
      some .waiting) := by
  constructor
  · rfl
  · exact (C5_fixed_timer_cycle simpleOracle 0 (1/10) [] [] []
      [mkLight "A" "I" "S1" .yellow (19/10) (some "g1"),
       mkLight "B" "I" "S2" .red 1 (some "g2")] 0 _ rfl (by decide)).2.2.2.2
      (by decide) (by norm_num [mkLight]) 1 _ rfl (by decide) (by decide) (by decide)

/-! ### Claim C4: adaptive-control phase durations -/

/-- Counterexample to claim C4 as stated.  The claim asserts that under
adaptive (smart) control a yellow light transitions to red after the same
2-second yellow duration used by fixed-timer control.  In the code the smart
yellow duration is 0.5 seconds: one second into its yellow phase, the same
light has already turned red under smart control while fixed-timer control
still holds it yellow. -/
theorem C4_counterexample :
    ((updateTrafficLight simpleOracle 0 1 true [] [] [] [c4Light] 0)[0]?.map
      TLight.state = some .red) ∧
    ((updateTrafficLight simpleOracle 0 1 false [] [] [] [c4Light] 0)[0]?.map
      TLight.state = some .yellow) := by
  constructor <;>
    norm_num [updateTrafficLight, smartGate, fallbackApply, c4Light, mkLight, tlCycleStep, cycleDuration,
      syncGroup, promoteTargetGroup, promotePerpendicular, clearSwitchTargets,
      List.getElem?_set]

/-- Claim C4 (corrected).  Under adaptive (smart) control the per-light state
machine has the same transition graph as fixed-timer control, but the yellow
phase lasts 0.5 seconds (not the 2 seconds of fixed-timer control); waiting
lasts 0.5 seconds before green as in fixed-timer control; and green and red
persist indefinitely until a switch decision.  Stated for a step in which the
once-per-second smart evaluation gate is closed, so no switch decision
intervenes. -/
theorem C4_smart_durations (M : MathOracle) (now : ℤ) (dt : ℚ) (cars : List Car)
    (streets : List Street) (locations : List Location) (lights : List TLight)
    (i : ℕ) (l : TLight) (t : ℤ) (hi : lights[i]? = some l)
    (hg : l.oppositeGroupId.isSome) (hlast : l.lastSmartUpdate = some t)
    (hgate : now - t < 1000) :
    ((l.state = .yellow → l.smartSwitchTarget = none → l.timer + dt ≥ 1/2 →
      (updateTrafficLight M now dt true cars streets locations lights i)[i]?.map
        TLight.state = some .red) ∧
     (l.state = .waiting → l.timer + dt ≥ 1/2 →
      (updateTrafficLight M now dt true cars streets locations lights i)[i]?.map
        TLight.state = some .green) ∧
     (l.state = .green →
      (updateTrafficLight M now dt true cars streets locations lights i)[i]?.map
        TLight.state = some .green) ∧
     (l.state = .red →
      (updateTrafficLight M now dt true cars streets locations lights i)[i]?.map
        TLight.state = some .red)) := by
  have hlen : i < lights.length := length_pos_of_getElem? hi
  have hg' : l.oppositeGroupId.isNone = false := by
    cases h : l.oppositeGroupId with
    | none => rw [h] at hg; simp at hg
    | some g => simp
  have hgate' : (decide (now - t ≥ 1000)) = false := by
    simp only [decide_eq_false_iff_not]
    omega
  refine ⟨?_, ?_, ?_, ?_⟩
  · intro hst htg htm
    simp only [updateTrafficLight, smartGate, fallbackApply, hi, hg', Bool.false_eq_true, if_false, if_neg,
      ite_false, hlast, hgate', tlCycleStep, hst, cycleDuration, if_true]
    rw [if_pos (by simpa using htm)]
    simp only [htg, syncGroup, List.getElem?_map, List.set_set, List.getElem?_set,
      if_pos rfl, hlen, ite_true]
    simp
  · intro hst htm
    simp only [updateTrafficLight, smartGate, fallbackApply, hi, hg', Bool.false_eq_true, if_false, if_neg,
      ite_false, hlast, hgate', tlCycleStep, hst, cycleDuration, if_true]
    rw [if_pos (by simpa using htm)]
    simp only [syncGroup, List.getElem?_map, List.set_set, List.getElem?_set, if_pos rfl,
      hlen, ite_true]
    simp
  · intro hst
    simp only [updateTrafficLight, smartGate, fallbackApply, hi, hg', Bool.false_eq_true, if_false, if_neg,
      ite_false, hlast, hgate', tlCycleStep, hst, cycleDuration, if_true]
    simp [List.getElem?_set, hlen]
  · intro hst
    simp only [updateTrafficLight, smartGate, fallbackApply, hi, hg', Bool.false_eq_true, if_false, if_neg,
      ite_false, hlast, hgate', tlCycleStep, hst, cycleDuration, if_true]
    simp [List.getElem?_set, hlen]

/-- Witness for the corrected C4 at a concrete smart-mode light. -/
theorem C4_smart_durations_witness :
    c4Light.state = .yellow ∧
    ((updateTrafficLight simpleOracle 0 1 true [] [] [] [c4Light] 0)[0]?.map
      TLight.state = some .red) := by
  refine ⟨rfl, ?_⟩
  exact (C4_smart_durations simpleOracle 0 1 [] [] [] [c4Light] 0 c4Light 0 rfl
    (by decide) rfl (by norm_num)).1 rfl rfl (by norm_num [c4Light, mkLight])

/-! ### Claim C7: all-red deadlock escape of the smart decision -/

theorem le_foldl_max (xs : List ℚ) (a : ℚ) : a ≤ xs.foldl max a := by
  induction xs generalizing a with
  | nil => exact le_refl a
  | cons x xs ih => exact le_trans (le_max_left a x) (ih (max a x))

theorem mem_le_foldl_max {x : ℚ} {xs : List ℚ} (a : ℚ) (h : x ∈ xs) :
    x ≤ xs.foldl max a := by
  induction xs generalizing a with
  | nil => cases h
  | cons y ys ih =>
    rcases List.mem_cons.mp h with rfl | hmem
    · exact le_trans (le_max_right a x) (le_foldl_max ys (max a x))
    · exact ih (max a y) hmem

theorem mem_le_listMaxQ {x : ℚ} {xs : List ℚ} (h : x ∈ xs) : x ≤ listMaxQ xs := by
  cases xs with
  | nil => cases h
  | cons y ys =>
    rcases List.mem_cons.mp h with rfl | hmem
    · exact le_foldl_max ys x
    · exact mem_le_foldl_max y hmem

theorem scoreFold_spec (ps : PairScores) (acc : ℤ × Option String) :
    acc.1 ≤ (ps.foldl scoreFoldStep acc).1 ∧
    (∀ p ∈ ps, p.2 ≤ (ps.foldl scoreFoldStep acc).1) ∧
    ((ps.foldl scoreFoldStep acc) = acc ∨
      ∃ g, (ps.foldl scoreFoldStep acc).2 = some g ∧
        (g, (ps.foldl scoreFoldStep acc).1) ∈ ps ∧ acc.1 < (ps.foldl scoreFoldStep acc).1) := by
  induction ps generalizing acc with
  | nil => exact ⟨le_refl _, by simp, Or.inl rfl⟩
  | cons p rest ih =>
    obtain ⟨ih1, ih2, ih3⟩ := ih (scoreFoldStep acc p)
    have hstep : acc.1 ≤ (scoreFoldStep acc p).1 := by
      simp only [scoreFoldStep]
      split <;> simp_all [le_of_lt]
    refine ⟨le_trans hstep ih1, ?_, ?_⟩
    · intro q hq
      rcases List.mem_cons.mp hq with rfl | hmem
      · refine le_trans ?_ ih1
        simp only [scoreFoldStep]
        split <;> [exact le_refl _; linarith [not_lt.mp (by assumption)]]
      · exact ih2 q hmem
    · rcases ih3 with heq | ⟨g, hg, hmem, hlt⟩
      · rw [List.foldl_cons, heq]
        by_cases hcase : p.2 > acc.1
        · refine Or.inr ⟨p.1, ?_, ?_, ?_⟩ <;>
            simp [scoreFoldStep, hcase, List.mem_cons]
        · left
          simp [scoreFoldStep, hcase]
      · refine Or.inr ⟨g, hg, List.mem_cons_of_mem p hmem, lt_of_le_of_lt hstep hlt⟩

/-- Claim C7 (confirmed).  For a nonempty all-red intersection light set in
which every timer exceeds 2 seconds, the smart decision function returns a
SWITCH whose target is the highest-scoring group when some group has a
positive score, and otherwise the first light's group.  The group keys are
required to be nonempty strings (as every generated group id is), since a
JavaScript falsy key would bypass the branch. -/
theorem C7_all_red_deadlock_switch (pairScores : PairScores) (lights : List TLight)
    (l0 : TLight) (g0 : String) (hhead : lights.head? = some l0)
    (hg0 : l0.oppositeGroupId = some g0) (hg0ne : g0 ≠ "")
    (hred : ∀ l ∈ lights, l.state = .red)
    (htimer : ∀ l ∈ lights, l.timer > 2)
    (hkeys : ∀ p ∈ pairScores, p.1 ≠ "") :
    ∃ g, makeTrafficLightDecision pairScores lights =
        ⟨.SWITCH, some g, "DEADLOCK_PREVENTION_ALL_RED"⟩ ∧
      ((∀ p ∈ pairScores, p.2 ≤ 0) → g = g0) ∧
      ((∃ p ∈ pairScores, 0 < p.2) →
        ∃ s, (g, s) ∈ pairScores ∧ ∀ p ∈ pairScores, p.2 ≤ s) := by
  have hl0mem : l0 ∈ lights := by
    cases lights with
    | nil => simp at hhead
    | cons a rest => simp at hhead; simp [hhead]
  have hallred : (lights.all fun l => decide (l.state = LState.green)) = false := by
    cases lights with
    | nil => simp at hhead
    | cons a rest =>
      simp only [List.all_cons, Bool.and_eq_false_iff]
      left
      simp [hred a (List.mem_cons_self a rest)]
  have hallred2 : (lights.all fun l => decide (l.state = LState.red)) = true := by
    simp only [List.all_eq_true, decide_eq_true_eq]
    exact hred
  have hmax : listMaxQ (lights.map (·.timer)) > 2 := by
    have : l0.timer ∈ lights.map (·.timer) := List.mem_map_of_mem _ hl0mem
    exact lt_of_lt_of_le (htimer l0 hl0mem) (mem_le_listMaxQ this)
  obtain ⟨hinit, hub, hcases⟩ := scoreFold_spec pairScores (0, none)
  rcases hcases with heq | ⟨g, hg, hmem, hlt⟩
  · -- no positive score: fold returned the initial accumulator
    refine ⟨g0, ?_, fun _ => rfl, ?_⟩
    · simp only [makeTrafficLightDecision, scoreFoldStep] at *
      rw [heq]
      simp only [hallred2, if_true, hhead, hg0]
      rw [if_pos hmax]
      simp [strTruthy, hg0ne]
    · rintro ⟨p, hp, hppos⟩
      have := hub p hp
      rw [heq] at this
      exact absurd (lt_of_lt_of_le hppos this) (lt_irrefl 0)
  · -- some positive score: fold picked a maximal-score group
    refine ⟨g, ?_, ?_, ?_⟩
    · simp only [makeTrafficLightDecision, scoreFoldStep] at *
      rw [hg]
      simp only [hallred2, if_true]
      rw [if_pos hmax]
      simp [strTruthy, hkeys _ hmem]
    · intro hall
      exact absurd (lt_of_le_of_lt (hall _ hmem) hlt) (lt_irrefl _)
    · intro _
      exact ⟨_, hmem, hub⟩

/-- Witness for C7 at a concrete all-red intersection with scored groups. -/
theorem C7_all_red_deadlock_switch_witness :
    (makeTrafficLightDecision [("g1", 5), ("g2", 7)] c7Lights).action =
      DecisionAction.SWITCH ∧
    (makeTrafficLightDecision [("g1", 5), ("g2", 7)] c7Lights).reason =
      "DEADLOCK_PREVENTION_ALL_RED" := by
  obtain ⟨g, heq, -, -⟩ := C7_all_red_deadlock_switch [("g1", 5), ("g2", 7)] c7Lights
    (mkLight "A" "I" "S1" .red 3 (some "g1")) "g1" rfl rfl (by decide)
    (by intro l hl; fin_cases hl <;> rfl)
    (by intro l hl; fin_cases hl <;> norm_num [mkLight, c7Lights])
    (by decide)
  rw [heq]
  exact ⟨rfl, rfl⟩

/-! ### Claim C6: adaptive ranking and street scoring -/


theorem arrivalGT_self_false (a : Option ℚ) : arrivalGT a a = false := by
  cases a <;> simp [arrivalGT]

theorem arrivalLE_antisymm {a b : Option ℚ} (h1 : arrivalLE a b = true)
    (h2 : arrivalLE b a = true) : a = b := by
  cases a <;> cases b <;> simp_all [arrivalLE] <;> exact le_antisymm h1 h2

theorem arrivalLE_trans {a b c : Option ℚ} (h1 : arrivalLE a b = true)
    (h2 : arrivalLE b c = true) : arrivalLE a c = true := by
  cases a <;> cases b <;> cases c <;> simp_all [arrivalLE] <;> exact le_trans h1 h2

theorem arrivalLE_total (a b : Option ℚ) :
    (arrivalLE a b || arrivalLE b a) = true := by
  cases a <;> cases b <;> simp [arrivalLE] <;> exact le_total _ _

/-- Every element of the rank-assignment output is an input element with only
the rank replaced; in particular arrival times and street ids are preserved. -/
theorem mem_assignRanksAux {d : CarData} :
    ∀ {xs : List CarData} {p : Option ℚ} {r i : ℕ},
      d ∈ assignRanksAux xs p r i → ∃ e ∈ xs, d = { e with rank := d.rank }
  | [], _, _, _, h => by cases h
  | c :: rest, p, r, i, h => by
    rcases List.mem_cons.mp h with rfl | hmem
    · exact ⟨c, List.mem_cons_self c rest, rfl⟩
    · obtain ⟨e, he, heq⟩ := mem_assignRanksAux hmem
      exact ⟨e, List.mem_cons_of_mem c he, heq⟩

theorem assignRanksAux_rank_bounds :
    ∀ (xs : List CarData) (p : Option ℚ) (r i : ℕ), 1 ≤ r → r ≤ i →
      ∀ c ∈ assignRanksAux xs p r i, 1 ≤ c.rank ∧ c.rank ≤ i + xs.length
  | [], _, _, _, _, _, c, h => by cases h
  | x :: rest, p, r, i, h1, h2, c, h => by
    simp only [assignRanksAux] at h
    have hr1 : 1 ≤ (if arrivalGT x.estimatedArrivalTime p then i + 1 else r) := by
      split <;> omega
    have hr2 : (if arrivalGT x.estimatedArrivalTime p then i + 1 else r) ≤ i + 1 := by
      split <;> omega
    rcases List.mem_cons.mp h with rfl | hmem
    · refine ⟨hr1, ?_⟩
      simp only [List.length_cons]
      omega
    · have := assignRanksAux_rank_bounds rest x.estimatedArrivalTime _ (i + 1) hr1 hr2
        c hmem
      simp only [List.length_cons]
      omega

theorem assignRanksAux_ties :
    ∀ (xs : List CarData) (p : Option ℚ) (r i : ℕ),
      xs.Pairwise (fun a b =>
        arrivalLE a.estimatedArrivalTime b.estimatedArrivalTime = true) →
      (∀ c ∈ xs, arrivalLE p c.estimatedArrivalTime = true) →
      (∀ c ∈ assignRanksAux xs p r i, c.estimatedArrivalTime = p → c.rank = r) ∧
      (∀ c ∈ assignRanksAux xs p r i, ∀ d ∈ assignRanksAux xs p r i,
        c.estimatedArrivalTime = d.estimatedArrivalTime → c.rank = d.rank)
  | [], p, r, i, _, _ => by simp [assignRanksAux]
  | x :: rest, p, r, i, hsorted, hfirst => by
    have hx : arrivalLE p x.estimatedArrivalTime = true :=
      hfirst x (List.mem_cons_self x rest)
    have hrest : ∀ c ∈ rest,
        arrivalLE x.estimatedArrivalTime c.estimatedArrivalTime = true :=
      fun c hc => (List.pairwise_cons.mp hsorted).1 c hc
    obtain ⟨ihA, ihB⟩ := assignRanksAux_ties rest x.estimatedArrivalTime
      (if arrivalGT x.estimatedArrivalTime p then i + 1 else r) (i + 1)
      (List.pairwise_cons.mp hsorted).2 hrest
    have hestAux : ∀ d ∈ assignRanksAux rest x.estimatedArrivalTime
        (if arrivalGT x.estimatedArrivalTime p then i + 1 else r) (i + 1),
        arrivalLE x.estimatedArrivalTime d.estimatedArrivalTime = true := by
      intro d hd
      obtain ⟨e, he, heq⟩ := mem_assignRanksAux hd
      have : d.estimatedArrivalTime = e.estimatedArrivalTime := by rw [heq]
      rw [this]
      exact hrest e he
    constructor
    · intro c hc hcp
      simp only [assignRanksAux] at hc
      rcases List.mem_cons.mp hc with rfl | hmem
      · simp only at hcp
        rw [hcp, arrivalGT_self_false]
        simp
      · have hle := hestAux c hmem
        rw [hcp] at hle
        have hxp : x.estimatedArrivalTime = p := arrivalLE_antisymm hle hx
        have := ihA c hmem (by rw [hcp, ← hxp])
        rw [this, hxp, arrivalGT_self_false]
        simp
    · intro c hc d hd hcd
      simp only [assignRanksAux] at hc hd
      rcases List.mem_cons.mp hc with rfl | hcmem <;>
        rcases List.mem_cons.mp hd with rfl | hdmem
      · rfl
      · exact (ihA d hdmem (by simp only at hcd ⊢; rw [← hcd])).symm
      · exact ihA c hcmem (by simp only at hcd ⊢; rw [hcd])
      · exact ihB c hcmem d hdmem hcd

/-- Rank-assignment over a run of strictly increasing arrival times gives
rank equal to position plus one. -/
theorem assignRanksAux_strict :
    ∀ (xs : List CarData) (p : Option ℚ) (r i : ℕ),
      (∀ c, xs.head? = some c → arrivalGT c.estimatedArrivalTime p = true) →
      xs.Chain' (fun a b =>
        arrivalGT b.estimatedArrivalTime a.estimatedArrivalTime = true) →
      ∀ k : ℕ, (assignRanksAux xs p r i)[k]? =
        xs[k]?.map (fun c => { c with rank := i + k + 1 })
  | [], _, _, _, _, _, k => by simp [assignRanksAux]
  | x :: rest, p, r, i, hhead, hchain, k => by
    have hgt : arrivalGT x.estimatedArrivalTime p = true := hhead x rfl
    match k with
    | 0 => simp [assignRanksAux, hgt]
    | k + 1 =>
      simp only [assignRanksAux, hgt, if_true, List.getElem?_cons_succ]
      have ih := assignRanksAux_strict rest x.estimatedArrivalTime (i + 1) (i + 1)
        (fun c hc => by
          cases rest with
          | nil => simp at hc
          | cons y ys =>
            cases hc
            exact (List.chain'_cons.mp hchain).1)
        (List.Chain'.tail hchain) k
      rw [ih]
      have : i + 1 + k + 1 = i + (k + 1) + 1 := by omega
      rw [this]

theorem find?_map_keyfix (m : List (String × ℤ)) (k : String) (v : ℤ) (s : String)
    (hsk : s ≠ k) :
    (List.map (fun p => if p.1 = k then (k, v) else p) m).find?
        (fun p => decide (p.1 = s)) =
      m.find? (fun p => decide (p.1 = s)) := by
  induction m with
  | nil => rfl
  | cons a m ih =>
    simp only [List.map_cons, List.find?_cons]
    by_cases hak : a.1 = k
    · have h1 : (decide ((if a.1 = k then (k, v) else a).1 = s)) = false := by
        rw [if_pos hak]
        simp
        intro h
        exact hsk h.symm
      have h2 : (decide (a.1 = s)) = false := by
        rw [hak]
        simp
        intro h
        exact hsk h.symm
      rw [h1, h2]
      exact ih
    · rw [if_neg hak]
      by_cases has : a.1 = s
      · simp [has]
      · have : (decide (a.1 = s)) = false := by simpa using has
        rw [this]
        exact ih

theorem find?_map_keyfix_self (m : List (String × ℤ)) (k : String) (v : ℤ)
    (hq : (m.find? (fun p => decide (p.1 = k))).isSome) :
    (List.map (fun p => if p.1 = k then (k, v) else p) m).find?
        (fun p => decide (p.1 = k)) = some (k, v) := by
  induction m with
  | nil => simp at hq
  | cons a m ih =>
    simp only [List.map_cons, List.find?_cons]
    by_cases hak : a.1 = k
    · simp [if_pos hak]
    · rw [if_neg hak]
      have h2 : (decide (a.1 = k)) = false := by simpa using hak
      rw [h2]
      refine ih ?_
      rw [List.find?_cons, h2] at hq
      exact hq

/-- Object-key read after an update-or-insert. -/
theorem scoreGet_scoreSet (m : StreetScores) (k : String) (v : ℤ) (s : String) :
    scoreGet (scoreSet m k v) s = if s = k then some v else scoreGet m s := by
  unfold scoreSet
  cases hf : m.find? (fun p => decide (p.1 = k)) with
  | none =>
    simp only [scoreGet]
    rw [List.find?_append]
    by_cases hsk : s = k
    · subst hsk
      rw [hf]
      simp [List.find?]
    · cases hfs : m.find? (fun p => decide (p.1 = s)) with
      | some q => simp [hfs, if_neg hsk]
      | none =>
        have : (decide ((k, v).1 = s)) = false := by
          simp
          intro h
          exact hsk h.symm
        simp [hfs, List.find?, this, if_neg hsk]
  | some q =>
    simp only [scoreGet]
    by_cases hsk : s = k
    · subst hsk
      rw [find?_map_keyfix_self m s v (by rw [hf]; rfl)]
      simp
    · rw [find?_map_keyfix m k v s hsk, if_neg hsk]

theorem find?_map_addv (m : List (String × ℤ)) (k : String) (v : ℤ) (s : String)
    (hsk : s ≠ k) :
    (List.map (fun p => if p.1 = k then (p.1, p.2 + v) else p) m).find?
        (fun p => decide (p.1 = s)) =
      m.find? (fun p => decide (p.1 = s)) := by
  induction m with
  | nil => rfl
  | cons a m ih =>
    simp only [List.map_cons, List.find?_cons]
    by_cases hak : a.1 = k
    · have h1 : (decide ((if a.1 = k then (a.1, a.2 + v) else a).1 = s)) = false := by
        rw [if_pos hak, hak]
        simp
        intro h
        exact hsk h.symm
      have h2 : (decide (a.1 = s)) = false := by
        rw [hak]
        simp
        intro h
        exact hsk h.symm
      rw [h1, h2]
      exact ih
    · rw [if_neg hak]
      by_cases has : a.1 = s
      · simp [has]
      · have : (decide (a.1 = s)) = false := by simpa using has
        rw [this]
        exact ih

theorem find?_map_addv_self (m : List (String × ℤ)) (k : String) (v : ℤ) :
    (List.map (fun p => if p.1 = k then (p.1, p.2 + v) else p) m).find?
        (fun p => decide (p.1 = k)) =
      (m.find? (fun p => decide (p.1 = k))).map (fun p => (p.1, p.2 + v)) := by
  induction m with
  | nil => rfl
  | cons a m ih =>
    simp only [List.map_cons, List.find?_cons]
    by_cases hak : a.1 = k
    · have h1 : (decide ((if a.1 = k then (a.1, a.2 + v) else a).1 = k)) = true := by
        rw [if_pos hak]
        simpa using hak
      have h2 : (decide (a.1 = k)) = true := by simpa using hak
      rw [h1, h2]
      simp [if_pos hak]
    · have h2 : (decide (a.1 = k)) = false := by simpa using hak
      rw [if_neg hak, h2]
      exact ih

/-- Object-key read after an in-place addition. -/
theorem scoreGet_scoreAdd (m : StreetScores) (k : String) (v : ℤ) (s : String) :
    scoreGet (scoreAdd m k v) s =
      if s = k then (scoreGet m k).map (· + v) else scoreGet m s := by
  unfold scoreAdd scoreGet
  by_cases hsk : s = k
  · subst hsk
    rw [find?_map_addv_self m s v]
    cases m.find? (fun p => decide (p.1 = s)) <;> simp
  · rw [find?_map_addv m k v s hsk, if_neg hsk]

theorem scoresInit_get (lights : List TLight) (m : StreetScores) (s : String) :
    scoreGet (lights.foldl (fun m light => scoreSet m light.streetId 0) m) s =
      if ∃ l ∈ lights, l.streetId = s then some 0 else scoreGet m s := by
  induction lights generalizing m with
  | nil => simp
  | cons a rest ih =>
    simp only [List.foldl_cons]
    rw [ih]
    by_cases hmem : ∃ l ∈ rest, l.streetId = s
    · obtain ⟨l, hl, hls⟩ := hmem
      rw [if_pos ⟨l, hl, hls⟩, if_pos ⟨l, List.mem_cons_of_mem a hl, hls⟩]
    · rw [if_neg hmem, scoreGet_scoreSet]
      by_cases hsa : s = a.streetId
      · rw [if_pos hsa, if_pos ⟨a, List.mem_cons_self a rest, hsa.symm⟩]
      · rw [if_neg hsa, if_neg (by
          rintro ⟨l, hl, hls⟩
          rcases List.mem_cons.mp hl with rfl | hlrest
          · exact hsa hls.symm
          · exact hmem ⟨l, hlrest, hls⟩)]

theorem scoresAdd_fold_get (cars : List CarData) (m : StreetScores) (s : String) :
    scoreGet (cars.foldl
        (fun m carData => scoreAdd m carData.streetId (100 - (carData.rank : ℤ))) m) s =
      (scoreGet m s).map
        (· + ((cars.filter fun c => decide (c.streetId = s)).map
          (fun c => (100 : ℤ) - (c.rank : ℤ))).sum) := by
  induction cars generalizing m with
  | nil =>
    simp only [List.foldl_nil, List.filter_nil, List.map_nil, List.sum_nil]
    cases scoreGet m s <;> simp
  | cons c rest ih =>
    simp only [List.foldl_cons]
    rw [ih, scoreGet_scoreAdd]
    by_cases hcs : s = c.streetId
    · rw [if_pos hcs]
      have : (decide (c.streetId = s)) = true := by simp [hcs]
      simp only [List.filter_cons, this, List.map_cons, List.sum_cons]
      rw [← hcs]
      cases scoreGet m s <;> simp [add_assoc]
    · rw [if_neg hcs]
      have : (decide (c.streetId = s)) = false := by
        simp
        intro h
        exact hcs h.symm
      simp [List.filter_cons, this]

/-- Final street score: the initial zero plus the sum of the per-car
contributions of 100 minus rank. -/
theorem calculateStreetScores_get (ranked : List CarData) (lights : List TLight)
    (s : String) (hs : ∃ l ∈ lights, l.streetId = s) :
    scoreGet (calculateStreetScores ranked lights) s =
      some (((ranked.filter fun c => decide (c.streetId = s)).map
        (fun c => (100 : ℤ) - (c.rank : ℤ))).sum) := by
  unfold calculateStreetScores
  rw [scoresAdd_fold_get, scoresInit_get, if_pos hs]
  simp

theorem rankCars_sorted_pairwise (input : List CarData) :
    (input.mergeSort carDataLE).Pairwise (fun a b => carDataLE a b = true) := by
  apply List.sorted_mergeSort
  · intro a b c h1 h2
    exact arrivalLE_trans h1 h2
  · intro a b
    exact arrivalLE_total a.estimatedArrivalTime b.estimatedArrivalTime

/-- Claim C6 (corrected).  Ranking and scoring behave as claimed except for
nonnegativity: every assigned rank lies between 1 and the number of ranked
vehicles, vehicles with equal arrival times share a rank, and a street's
final score is the sum over its vehicles of exactly 100 minus rank; the
per-vehicle contribution 100 minus rank is nonnegative only when at most 100
vehicles are ranked (the claim's unconditional never-negative assertion fails
beyond 100 vehicles). -/
theorem C6_ranking_scoring (input : List CarData) (lights : List TLight) :
    (∀ c ∈ rankCarsByArrivalTime input, 1 ≤ c.rank ∧ c.rank ≤ input.length) ∧
    (∀ c ∈ rankCarsByArrivalTime input, ∀ d ∈ rankCarsByArrivalTime input,
      c.estimatedArrivalTime = d.estimatedArrivalTime → c.rank = d.rank) ∧
    (∀ s : String, (∃ l ∈ lights, l.streetId = s) →
      scoreGet (calculateStreetScores (rankCarsByArrivalTime input) lights) s =
        some ((((rankCarsByArrivalTime input).filter fun c =>
          decide (c.streetId = s)).map fun c => (100 : ℤ) - (c.rank : ℤ)).sum)) ∧
    (input.length ≤ 100 →
      ∀ c ∈ rankCarsByArrivalTime input, 0 ≤ (100 : ℤ) - (c.rank : ℤ)) := by
  have hlen : (input.mergeSort carDataLE).length = input.length :=
    List.length_mergeSort input
  have hpair := rankCars_sorted_pairwise input
  have hbounds : ∀ c ∈ rankCarsByArrivalTime input, 1 ≤ c.rank ∧ c.rank ≤ input.length := by
    unfold rankCarsByArrivalTime
    cases hms : input.mergeSort carDataLE with
    | nil => simp
    | cons c0 rest =>
      rw [hms] at hlen
      intro d hd
      rcases List.mem_cons.mp hd with rfl | hmem
      · constructor
        · exact le_refl 1
        · rw [← hlen]
          simp
      · obtain ⟨hb1, hb2⟩ := assignRanksAux_rank_bounds rest c0.estimatedArrivalTime 1 1
          (le_refl 1) (le_refl 1) d hmem
        rw [← hlen]
        exact ⟨hb1, by simp only [List.length_cons]; omega⟩
  refine ⟨hbounds, ?_, ?_, ?_⟩
  · unfold rankCarsByArrivalTime
    cases hms : input.mergeSort carDataLE with
    | nil => simp
    | cons c0 rest =>
      rw [hms] at hpair
      have hfirst : ∀ c ∈ rest,
          arrivalLE c0.estimatedArrivalTime c.estimatedArrivalTime = true :=
        fun c hc => (List.pairwise_cons.mp hpair).1 c hc
      obtain ⟨ihA, ihB⟩ := assignRanksAux_ties rest c0.estimatedArrivalTime 1 1
        ((List.pairwise_cons.mp hpair).2) hfirst
      intro c hc d hd hcd
      rcases List.mem_cons.mp hc with rfl | hcmem <;>
        rcases List.mem_cons.mp hd with rfl | hdmem
      · rfl
      · exact (ihA d hdmem (by simp only at hcd ⊢; rw [← hcd])).symm
      · exact ihA c hcmem (by simp only at hcd ⊢; rw [hcd])
      · exact ihB c hcmem d hdmem hcd
  · intro s hs
    exact calculateStreetScores_get (rankCarsByArrivalTime input) lights s hs
  · intro h100 c hc
    have := (hbounds c hc).2
    have : (c.rank : ℤ) ≤ 100 := by
      exact_mod_cast le_trans this h100
    omega

/-- Counterexample to claim C6 as stated: with 101 ranked vehicles (pairwise
distinct arrival times 0 to 100), the vehicle arriving last receives rank
101 and contributes 100 minus 101, a negative score, to its street t. -/
theorem C6_counterexample :
    ((rankCarsByArrivalTime c6Input)[100]?.map
      (fun c => ((100 : ℤ) - (c.rank : ℤ), c.streetId))) = some (-1, "t") := by
  have hest : ∀ n : ℕ, (c6Data n).estimatedArrivalTime = some (n : ℚ) := fun n => rfl
  have hpairLE : c6Input.Pairwise (fun a b => carDataLE a b = true) := by
    refine List.Pairwise.map c6Data ?_ ((List.pairwise_lt_range 101))
    intro a b hab
    simp only [carDataLE, hest, arrivalLE, decide_eq_true_eq]
    exact_mod_cast le_of_lt hab
  have hms : c6Input.mergeSort carDataLE = c6Input :=
    List.mergeSort_of_sorted hpairLE
  have hsplit : c6Input = c6Data 0 :: (List.range 100).map (fun j => c6Data (j + 1)) := by
    unfold c6Input
    rw [List.range_succ_eq_map]
    simp [List.map_map]
  have htailpair : ((List.range 100).map (fun j => c6Data (j + 1))).Chain'
      (fun a b => arrivalGT b.estimatedArrivalTime a.estimatedArrivalTime = true) := by
    refine List.Pairwise.chain' ?_
    refine List.Pairwise.map _ ?_ ((List.pairwise_lt_range 100))
    intro a b hab
    simp only [hest, arrivalGT, gt_iff_lt, decide_eq_true_eq]
    exact_mod_cast Nat.succ_lt_succ hab
  have hhead : ∀ c, ((List.range 100).map (fun j => c6Data (j + 1))).head? = some c →
      arrivalGT c.estimatedArrivalTime (c6Data 0).estimatedArrivalTime = true := by
    intro c hc
    rw [List.head?_map] at hc
    have : (List.range 100).head? = some 0 := by
      rw [List.range_succ_eq_map]
      rfl
    rw [this] at hc
    cases hc
    simp only [hest, arrivalGT, gt_iff_lt, decide_eq_true_eq]
    exact_mod_cast Nat.zero_lt_one
  have hstrict := assignRanksAux_strict ((List.range 100).map (fun j => c6Data (j + 1)))
    (c6Data 0).estimatedArrivalTime 1 1 hhead htailpair 99
  have htail99 : ((List.range 100).map (fun j => c6Data (j + 1)))[99]? =
      some (c6Data 100) := by
    rw [List.getElem?_map]
    simp [List.getElem?_range]
  unfold rankCarsByArrivalTime
  rw [hms, hsplit]
  simp only [List.getElem?_cons_succ]
  rw [hstrict, htail99]
  simp only [Option.map_map, Option.map_some]
  norm_num
  rfl


/-- Witness for the corrected C6 at a one-car input: street s scores
100 minus rank 1. -/
theorem C6_ranking_scoring_witness :
    scoreGet (calculateStreetScores (rankCarsByArrivalTime [c6Data 0]) c6ScoreLights)
      "s" = some 99 := by
  have h := (C6_ranking_scoring [c6Data 0] c6ScoreLights).2.2.1 "s"
    ⟨mkLight "A" "I" "s" .red 0 (some "g1"), List.mem_cons_self _ _, rfl⟩
  rw [h]
  have : rankCarsByArrivalTime [c6Data 0] = [{ c6Data 0 with rank := 1 }] := by
    simp [rankCarsByArrivalTime, List.mergeSort_singleton, assignRanksAux]
  rw [this]
  norm_num [c6Data]

/-! ### Claim C9: routing determinism through the twin cache -/

theorem jsFloorNat_lt {n : ℕ} (hn : 0 < n) {r : ℚ} (h0 : 0 ≤ r) (h1 : r < 1) :
    jsFloorNat (r * n) < n := by
  have hfl : ⌊r * (n : ℚ)⌋ < (n : ℤ) := by
    apply Int.floor_lt.mpr
    push_cast
    have hn' : (0 : ℚ) < n := by exact_mod_cast hn
    nlinarith
  unfold jsFloorNat
  omega

theorem cacheLookup_cacheInsert (c : RoutingCache) (k : String) (d : RoutingDecision) :
    cacheLookup (cacheInsert c k d) k = some d := by
  simp [cacheLookup, cacheInsert, List.find?_cons]

/-- A fresh routing computation yields no decision exactly when the location
has no connected street, independently of the random sample (required to lie
in the unit interval, as a Math-random result does). -/
theorem computeRoutingDecision_none_iff (M : MathOracle) (routeRand : ℚ)
    (currentLocationId previousStreetId : String) (streets : List Street)
    (locations : List Location) (h0 : 0 ≤ routeRand) (h1 : routeRand < 1) :
    computeRoutingDecision M routeRand currentLocationId previousStreetId streets
        locations = none ↔
      streets.filter (fun s =>
        decide (s.fromId = currentLocationId ∨ s.toId = currentLocationId)) = [] := by
  unfold computeRoutingDecision
  set conn := streets.filter fun s =>
    decide (s.fromId = currentLocationId ∨ s.toId = currentLocationId) with hconn
  set connEx := streets.filter fun s =>
    decide ((s.fromId = currentLocationId ∨ s.toId = currentLocationId) ∧
      s.id ≠ previousStreetId) with hconnEx
  by_cases hl1 : conn.length = 1
  · cases hhd : conn.head? with
    | none => rw [List.head?_eq_none_iff] at hhd; simp [hhd] at hl1
    | some street =>
      simp only [hl1, if_true, hhd]
      constructor
      · intro h; cases h
      · intro h; rw [h] at hhd; cases hhd
  · by_cases hl2 : conn.length = 2
    · simp only [hl1, if_false, hl2, if_true]
      cases hhdEx : connEx.head? with
      | some exitStreet =>
        constructor
        · intro h; cases h
        · intro h
          rw [h] at hl2
          cases hl2
      | none =>
        cases hhd : conn.head? with
        | none => rw [List.head?_eq_none_iff] at hhd; simp [hhd] at hl2
        | some street =>
          constructor
          · intro h; cases h
          · intro h; rw [h] at hhd; cases hhd
    · by_cases hl3 : conn.length ≥ 3
      · simp only [hl1, if_false, hl2, hl3, if_true]
        by_cases hcx : connEx.length > 0
        · simp only [hcx, if_true]
          have hidx : jsFloorNat (routeRand * connEx.length) < connEx.length :=
            jsFloorNat_lt hcx h0 h1
          cases hget : connEx[jsFloorNat (routeRand * connEx.length)]? with
          | none =>
            rw [List.getElem?_eq_none_iff] at hget
            omega
          | some selectedStreet =>
            constructor
            · intro h; cases h
            · intro h
              rw [h] at hl3
              simp at hl3
        · simp only [hcx, if_false]
          cases hhd : conn.head? with
          | none =>
            rw [List.head?_eq_none_iff] at hhd
            rw [hhd] at hl3
            simp at hl3
          | some street =>
            constructor
            · intro h; cases h
            · intro h; rw [h] at hhd; cases hhd
      · simp only [hl1, if_false, hl2, hl3, if_false]
        have hl0 : conn.length = 0 := by omega
        rw [List.length_eq_zero] at hl0
        rw [hl0]
        simp

/-- Claim C9 (corrected).  For a truthy (non-null, nonempty) vehicle-group
identifier, two successive findBestNextStreet calls with the same
(groupId, locationId, previousStreetId) and unchanged graph return the same
decision: the second call replays the first call's cached random choice.
The claim as stated also admits the empty string, which is non-null but
falsy in JavaScript and bypasses the cache entirely (see the
counterexample). -/
theorem C9_routing_determinism (M : MathOracle) (r1 r2 : ℚ)
    (loc d1 d2 prev : String) (streets : List Street) (locations : List Location)
    (gid : String) (cache : RoutingCache) (hg : gid ≠ "")
    (h01 : 0 ≤ r1) (h11 : r1 < 1) (h02 : 0 ≤ r2) (h12 : r2 < 1) :
    (findBestNextStreet M r2 loc d2 prev streets locations (some gid)
      (findBestNextStreet M r1 loc d1 prev streets locations (some gid) cache).2).1 =
    (findBestNextStreet M r1 loc d1 prev streets locations (some gid) cache).1 := by
  have hst : strTruthy (some gid) = true := by simp [strTruthy, hg]
  simp only [findBestNextStreet, hst, if_true, jsStr]
  cases hc : cacheLookup cache (gid ++ "-" ++ loc ++ "-" ++ prev) with
  | some cachedDecision => simp [hc]
  | none =>
    simp only [hc]
    cases hrd : computeRoutingDecision M r1 loc prev streets locations with
    | some d =>
      simp only [hst, if_true]
      rw [cacheLookup_cacheInsert]
    | none =>
      simp only [hc]
      have hempty := (computeRoutingDecision_none_iff M r1 loc prev streets locations
        h01 h11).mp hrd
      have hrd2 : computeRoutingDecision M r2 loc prev streets locations = none :=
        (computeRoutingDecision_none_iff M r2 loc prev streets locations h02 h12).mpr
          hempty
      rw [hrd2]

/-- Counterexample to claim C9 as stated: the empty string is a non-null
vehicle-group identifier, but it is falsy in JavaScript, so the cache is
bypassed and two calls with different random samples pick different exit
streets at a three-way location. -/
theorem C9_counterexample :
    (findBestNextStreet simpleOracle (1/2) "C" "D" "s1" c9Streets c9Locs (some "")
      (findBestNextStreet simpleOracle 0 "C" "D" "s1" c9Streets c9Locs (some "") []).2).1 ≠
    (findBestNextStreet simpleOracle 0 "C" "D" "s1" c9Streets c9Locs (some "") []).1 := by
  simp +decide only [findBestNextStreet, computeRoutingDecision, c9Streets, c9Locs,
    strTruthy, jsStr, cacheLookup, jsFloorNat, calculateTurnType, normalizeAnglePi,
    simpleOracle, List.filter, List.find?, List.length_cons, List.length_nil]
  norm_num
  intro h
  exact absurd h (by decide)

/-- Witness for the corrected C9 at the same three-way location with a truthy
group id: the second call replays the first. -/
theorem C9_routing_determinism_witness :
    (findBestNextStreet simpleOracle (1/2) "C" "D" "s1" c9Streets c9Locs (some "car-1")
      (findBestNextStreet simpleOracle 0 "C" "D" "s1" c9Streets c9Locs (some "car-1") []).2).1 =
    (findBestNextStreet simpleOracle 0 "C" "D" "s1" c9Streets c9Locs (some "car-1") []).1 :=
  C9_routing_determinism simpleOracle 0 (1/2) "C" "D" "D" "s1" c9Streets c9Locs
    "car-1" [] (by decide) (by norm_num) (by norm_num) (by norm_num) (by norm_num)

/-! ### Claim C8: safety-validator liveness bound -/

theorem lt_foldl_min {c : ℚ} (xs : List ℚ) (a : ℚ) (ha : c < a)
    (h : ∀ x ∈ xs, c < x) : c < xs.foldl min a := by
  induction xs generalizing a with
  | nil => exact ha
  | cons y ys ih =>
    exact ih (min a y) (lt_min ha (h y (List.mem_cons_self y ys)))
      (fun x hx => h x (List.mem_cons_of_mem y hx))

theorem lt_listMinQ {c : ℚ} {xs : List ℚ} (hne : xs ≠ []) (h : ∀ x ∈ xs, c < x) :
    c < listMinQ xs := by
  cases xs with
  | nil => exact absurd rfl hne
  | cons y ys =>
    exact lt_foldl_min ys y (h y (List.mem_cons_self y ys))
      (fun x hx => h x (List.mem_cons_of_mem y hx))

theorem validateLight_locationId (mid : List TLight) (l : TLight) :
    (validateLight mid l).locationId = l.locationId := by
  simp only [validateLight]
  split
  · rfl
  split
  · rfl
  split
  · rfl
  · rfl

theorem validateLight_group (mid : List TLight) (l : TLight) :
    (validateLight mid l).oppositeGroupId = l.oppositeGroupId := by
  simp only [validateLight]
  split
  · rfl
  split
  · rfl
  split
  · rfl
  · rfl

theorem validateLight_id_or_timer0 (mid : List TLight) (l : TLight) :
    validateLight mid l = l ∨ (validateLight mid l).timer = 0 := by
  simp only [validateLight]
  split
  · exact Or.inl rfl
  split
  · exact Or.inr rfl
  split
  · exact Or.inr rfl
  · exact Or.inl rfl

theorem validateLight_forced_green (mid : List TLight) (l : TLight)
    (h4 : ¬ (mid.filter fun o => decide (o.locationId = l.locationId)).length < 4)
    (hg : ¬ ((mid.filter fun o => decide (o.locationId = l.locationId)).filter
        fun o => decide (o.state = LState.green)).length > 2)
    (hr : ((mid.filter fun o => decide (o.locationId = l.locationId)).filter
        fun o => decide (o.state = LState.red)).length =
      (mid.filter fun o => decide (o.locationId = l.locationId)).length)
    (hmin : listMinQ ((mid.filter fun o => decide (o.locationId = l.locationId)).map
        (·.timer)) > 3)
    (hns : l.oppositeGroupId = some "north-south") :
    (validateLight mid l).state = .green := by
  simp only [validateLight]
  rw [if_neg h4, if_neg (fun hc => hg hc.1), if_pos ⟨hr, hmin, hns⟩]

/-- Claim C8 (corrected).  After a batch update, an intersection can remain
with every light red and every timer above 3 seconds; what the validator does
guarantee is that such a persistent all-red intersection with at least 4
lights carries no light grouped north-south — the forcing applies only to
lights whose oppositeGroupId is literally the fallback string north-south,
and whenever one is present the all-red state is broken. -/
theorem C8_validator_limits (M : MathOracle) (now : ℤ) (lights : List TLight)
    (dt : ℚ) (isSmartControl : Bool) (cars : List Car) (streets : List Street)
    (locations : List Location) (loc : String)
    (hlen : 4 ≤ ((updateTrafficLights M now lights dt isSmartControl cars streets
      locations).filter fun l => decide (l.locationId = loc)).length)
    (hred : ∀ l ∈ (updateTrafficLights M now lights dt isSmartControl cars streets
      locations).filter fun l => decide (l.locationId = loc), l.state = .red)
    (htimer : ∀ l ∈ (updateTrafficLights M now lights dt isSmartControl cars streets
      locations).filter fun l => decide (l.locationId = loc), l.timer > 3) :
    ∀ l ∈ (updateTrafficLights M now lights dt isSmartControl cars streets
      locations).filter fun l => decide (l.locationId = loc),
      l.oppositeGroupId ≠ some "north-south" := by
  intro l hl hns
  revert hlen hred htimer hl
  unfold updateTrafficLights
  set mid := (List.range lights.length).foldl
    (fun ls i => updateTrafficLight M now dt isSmartControl cars streets locations ls i)
    lights with hmid
  unfold validateIntersectionSafety
  have hcomm : ∀ (p : TLight → Bool), (∀ x, p (validateLight mid x) = p x) →
      (mid.map (validateLight mid)).filter p = (mid.filter p).map (validateLight mid) := by
    intro p hp
    rw [List.filter_map]
    congr 1
    apply List.filter_congr
    intro x _
    exact hp x
  have hploc : ∀ x : TLight,
      (decide ((validateLight mid x).locationId = loc)) = decide (x.locationId = loc) := by
    intro x
    rw [validateLight_locationId]
  rw [hcomm _ hploc]
  set mates := mid.filter (fun l => decide (l.locationId = loc)) with hmates
  intro hlen hred htimer hl
  rw [List.length_map] at hlen
  -- the intersection filter seen by validateLight at any member of mates is mates itself
  have hmloc : ∀ m ∈ mates, m.locationId = loc := by
    intro m hm
    have := List.of_mem_filter hm
    simpa using this
  have hfilter_eq : ∀ m ∈ mates,
      (mid.filter fun o => decide (o.locationId = m.locationId)) = mates := by
    intro m hm
    rw [hmates]
    apply List.filter_congr
    intro x _
    rw [hmloc m hm]
  -- every member of mates was already red with timer above 3 before validation
  have hpre : ∀ m ∈ mates, m.state = .red ∧ m.timer > 3 := by
    intro m hm
    have hout := List.mem_map_of_mem (validateLight mid) hm
    have houtred := hred _ hout
    have houttimer := htimer _ hout
    rcases validateLight_id_or_timer0 mid m with he | ht
    · rw [he] at houtred houttimer
      exact ⟨houtred, houttimer⟩
    · rw [ht] at houttimer
      exact absurd houttimer (by norm_num)
  -- hence the all-red branch would force the north-south member green
  obtain ⟨m, hmm, hfm⟩ := List.mem_map.mp hl
  have hmns : m.oppositeGroupId = some "north-south" := by
    have := validateLight_group mid m
    rw [hfm] at this
    rw [← this, hns]
  have hforced : (validateLight mid m).state = .green := by
    apply validateLight_forced_green
    · rw [hfilter_eq m hmm]
      omega
    · rw [hfilter_eq m hmm]
      have hgreens : mates.filter (fun o => decide (o.state = LState.green)) = [] := by
        rw [List.filter_eq_nil]
        intro a ha
        simp [(hpre a ha).1]
      rw [hgreens]
      simp
    · rw [hfilter_eq m hmm]
      congr 1
      exact List.filter_eq_self.mpr (fun a ha => by simp [(hpre a ha).1])
    · rw [hfilter_eq m hmm]
      apply lt_listMinQ
      · intro hnil
        rw [List.map_eq_nil] at hnil
        rw [hnil] at hlen
        simp at hlen
      · intro x hx
        obtain ⟨a, ha, rfl⟩ := List.mem_map.mp hx
        exact (hpre a ha).2
    · exact hmns
  rw [hfm] at hforced
  have hredl := hred _ hl
  rw [hforced] at hredl
  exact absurd hredl (by decide)


/-- Counterexample to claim C8 as stated: after a batch update under
fixed-timer control, the 4-light intersection I remains with every light red
and every timer above 3 seconds — the validator's north-south forcing found
no light to force. -/
theorem C8_counterexample :
    ((updateTrafficLights simpleOracle 0 c8Lights (1/10) false [] [] []).all
      fun l => decide (l.state = .red)) = true ∧
    ((updateTrafficLights simpleOracle 0 c8Lights (1/10) false [] [] []).all
      fun l => decide (l.timer > 3)) = true ∧
    ((updateTrafficLights simpleOracle 0 c8Lights (1/10) false [] [] []).all
      fun l => decide (l.locationId = "I")) = true ∧
    (updateTrafficLights simpleOracle 0 c8Lights (1/10) false [] [] []).length = 4 := by
  norm_num +decide [updateTrafficLights, updateTrafficLight, smartGate, fallbackApply, tlCycleStep, cycleDuration,
    validateIntersectionSafety, validateLight, c8Lights, mkLight, listMinQ,
    List.range_succ, List.foldl_append, List.foldl_cons, List.foldl_nil,
    List.getElem?_cons_zero, List.getElem?_cons_succ, List.set_cons_zero,
    List.set_cons_succ, List.filter, List.all, List.map, Option.isNone]

/-- Witness instantiating C8_validator_limits at the persistent all-red 4-way
fixture: its lights indeed carry no north-south group. -/
theorem C8_validator_limits_witness :
    (((updateTrafficLights simpleOracle 0 c8Lights (1/10) false [] [] []).filter
      fun l => decide (l.locationId = "I")).all
      fun l => decide (l.oppositeGroupId ≠ some "north-south")) = true := by
  rw [List.all_eq_true]
  intro l hl
  rw [decide_eq_true_eq]
  refine C8_validator_limits simpleOracle 0 c8Lights (1/10) false [] [] [] "I"
    ?_ ?_ ?_ l hl
  · norm_num +decide [updateTrafficLights, updateTrafficLight, smartGate, fallbackApply, tlCycleStep, cycleDuration,
      validateIntersectionSafety, validateLight, c8Lights, mkLight, listMinQ,
      List.range_succ, List.foldl_append, List.foldl_cons, List.foldl_nil,
      List.getElem?_cons_zero, List.getElem?_cons_succ, List.set_cons_zero,
      List.set_cons_succ, List.filter, List.all, List.map, Option.isNone]
  · norm_num +decide [updateTrafficLights, updateTrafficLight, smartGate, fallbackApply, tlCycleStep, cycleDuration,
      validateIntersectionSafety, validateLight, c8Lights, mkLight, listMinQ,
      List.range_succ, List.foldl_append, List.foldl_cons, List.foldl_nil,
      List.getElem?_cons_zero, List.getElem?_cons_succ, List.set_cons_zero,
      List.set_cons_succ, List.filter, List.all, List.map, Option.isNone,
      List.forall_mem_cons]
  · norm_num +decide [updateTrafficLights, updateTrafficLight, smartGate, fallbackApply, tlCycleStep, cycleDuration,
      validateIntersectionSafety, validateLight, c8Lights, mkLight, listMinQ,
      List.range_succ, List.foldl_append, List.foldl_cons, List.foldl_nil,
      List.getElem?_cons_zero, List.getElem?_cons_succ, List.set_cons_zero,
      List.set_cons_succ, List.filter, List.all, List.map, Option.isNone,
      List.forall_mem_cons]

/-! ### Claim C10: monotonicity of the cumulative vehicle metrics -/

theorem travelTimeDelta_nonneg (now : ℤ) (start : Option ℤ)
    (h : start.getD now ≤ now) : 0 ≤ travelTimeDelta now start := by
  unfold travelTimeDelta
  apply div_nonneg _ (by norm_num)
  have h0 : (0:ℤ) ≤ now - start.getD now := by omega
  exact_mod_cast h0

/-- The asymmetric acceleration update of updateCar never produces a negative
speed from a nonnegative one when the time step is nonnegative, whatever the
target speed and deceleration rate. -/
theorem jsNewSpeed_nonneg (s t dec dt : ℚ) (hs : 0 ≤ s) (hdt : 0 ≤ dt) :
    0 ≤ if s < t then min (s + 12/10 * dt) t
      else if s > t then max (s - dec * dt) (max 0 t) else s := by
  split
  · rename_i h
    exact le_min (by nlinarith) (le_of_lt (lt_of_le_of_lt hs h))
  · split
    · exact le_trans (le_max_left 0 t) (le_max_right _ _)
    · exact hs

/-- Every branch of the end-of-street resolution preserves stops,
timeNotMoving and totalDistance, and only ever adds to streetsTraveled and
(when the street start time is not in the future) totalTravelTime. -/
theorem resolveEndOfStreet_metrics (M : MathOracle) (now : ℤ) (R : RandOracle)
    (uc : Car) (cs : Street) (streets : List Street) (locations : List Location)
    (cache : RoutingCache)
    (h : 0 ≤ travelTimeDelta now uc.currentStreetStartTime) :
    uc.stops ≤ (resolveEndOfStreet M now R uc cs streets locations cache).1.stops ∧
    uc.timeNotMoving ≤
      (resolveEndOfStreet M now R uc cs streets locations cache).1.timeNotMoving ∧
    uc.totalDistance ≤
      (resolveEndOfStreet M now R uc cs streets locations cache).1.totalDistance ∧
    uc.streetsTraveled ≤
      (resolveEndOfStreet M now R uc cs streets locations cache).1.streetsTraveled ∧
    uc.totalTravelTime ≤
      (resolveEndOfStreet M now R uc cs streets locations cache).1.totalTravelTime := by
  refine ⟨?_, ?_, ?_, ?_, ?_⟩
  all_goals simp only [resolveEndOfStreet]
  all_goals repeat' split
  all_goals first
    | exact le_refl _
    | exact Nat.le_add_right _ _
    | simp [h]

/-- The motion-integration phase only ever adds to stops, timeNotMoving and
totalDistance (for a nonnegative time step and speed) and leaves
streetsTraveled, totalTravelTime and the street start time untouched. -/
theorem updateCarIntegrate_metrics (now : ℤ) (car : Car) (t : ℚ) (ss wtl : Bool)
    (dt : ℚ) (hdt : 0 ≤ dt) (hs : 0 ≤ car.speed) :
    car.stops ≤ (updateCarIntegrate now car t ss wtl dt).stops ∧
    car.timeNotMoving ≤ (updateCarIntegrate now car t ss wtl dt).timeNotMoving ∧
    car.totalDistance ≤ (updateCarIntegrate now car t ss wtl dt).totalDistance ∧
    (updateCarIntegrate now car t ss wtl dt).streetsTraveled = car.streetsTraveled ∧
    (updateCarIntegrate now car t ss wtl dt).totalTravelTime = car.totalTravelTime ∧
    (updateCarIntegrate now car t ss wtl dt).currentStreetStartTime =
      car.currentStreetStartTime := by
  refine ⟨?_, ?_, ?_, ?_, ?_, ?_⟩
  all_goals simp only [updateCarIntegrate]
  · repeat' split
    all_goals first
      | exact Nat.le_add_right _ _
      | exact le_refl _
  · repeat' split
    all_goals first
      | exact le_add_of_nonneg_right hdt
      | exact le_refl _
  · exact le_add_of_nonneg_right (mul_nonneg (jsNewSpeed_nonneg _ _ _ _ hs hdt) hdt)

/-- The final branch of updateCar (hand off to the end-of-street resolution
or keep the integrated car) preserves any metric bounds established for the
integrated car. -/
theorem updateCarFinal_metrics (M : MathOracle) (now : ℤ) (R : RandOracle)
    (car uc : Car) (cs : Street) (streets : List Street) (locations : List Location)
    (cache : RoutingCache) (cond : Prop) [inst : Decidable cond]
    (h1 : car.stops ≤ uc.stops) (h2 : car.timeNotMoving ≤ uc.timeNotMoving)
    (h3 : car.totalDistance ≤ uc.totalDistance)
    (h4 : car.streetsTraveled ≤ uc.streetsTraveled)
    (h5 : car.totalTravelTime ≤ uc.totalTravelTime)
    (h6 : 0 ≤ travelTimeDelta now uc.currentStreetStartTime) :
    car.stops ≤ (if cond then resolveEndOfStreet M now R uc cs streets locations cache
      else (uc, cache)).1.stops ∧
    car.timeNotMoving ≤ (if cond then
      resolveEndOfStreet M now R uc cs streets locations cache
      else (uc, cache)).1.timeNotMoving ∧
    car.totalDistance ≤ (if cond then
      resolveEndOfStreet M now R uc cs streets locations cache
      else (uc, cache)).1.totalDistance ∧
    car.streetsTraveled ≤ (if cond then
      resolveEndOfStreet M now R uc cs streets locations cache
      else (uc, cache)).1.streetsTraveled ∧
    car.totalTravelTime ≤ (if cond then
      resolveEndOfStreet M now R uc cs streets locations cache
      else (uc, cache)).1.totalTravelTime := by
  split
  · have hres := resolveEndOfStreet_metrics M now R uc cs streets locations cache h6
    exact ⟨le_trans h1 hres.1, le_trans h2 hres.2.1, le_trans h3 hres.2.2.1,
      le_trans h4 hres.2.2.2.1, le_trans h5 hres.2.2.2.2⟩
  · exact ⟨h1, h2, h3, h4, h5⟩

/-- Claim C10 (corrected).  For a nonnegative time step, a car whose speed is
nonnegative and whose street start time is not in the future never sees its
cumulative metrics (stops, timeNotMoving, totalDistance, streetsTraveled,
totalTravelTime) decrease across one updateCar step; the claim's assertion
for arbitrary delta time is false, since a negative delta time decreases
timeNotMoving (and totalDistance) through the `+= deltaTime` accumulations. -/
theorem C10_metrics_monotone (M : MathOracle) (now : ℤ) (R : RandOracle)
    (car : Car) (streets : List Street) (locations : List Location)
    (lights : List TLight) (dt : ℚ) (allCars : List Car) (cache : RoutingCache)
    (hdt : 0 ≤ dt) (hs : 0 ≤ car.speed)
    (hstart : car.currentStreetStartTime.getD now ≤ now) :
    car.stops ≤ (updateCar M now R car streets locations lights dt allCars
      cache).1.stops ∧
    car.timeNotMoving ≤ (updateCar M now R car streets locations lights dt allCars
      cache).1.timeNotMoving ∧
    car.totalDistance ≤ (updateCar M now R car streets locations lights dt allCars
      cache).1.totalDistance ∧
    car.streetsTraveled ≤ (updateCar M now R car streets locations lights dt allCars
      cache).1.streetsTraveled ∧
    car.totalTravelTime ≤ (updateCar M now R car streets locations lights dt allCars
      cache).1.totalTravelTime := by
  have key : ∀ out : Car × RoutingCache,
      out = updateCar M now R car streets locations lights dt allCars cache →
      car.stops ≤ out.1.stops ∧ car.timeNotMoving ≤ out.1.timeNotMoving ∧
      car.totalDistance ≤ out.1.totalDistance ∧
      car.streetsTraveled ≤ out.1.streetsTraveled ∧
      car.totalTravelTime ≤ out.1.totalTravelTime := by
    intro out hout
    simp only [updateCar] at hout
    split at hout
    · subst hout
      exact ⟨le_refl _, le_refl _, le_refl _, le_refl _, le_refl _⟩
    split at hout
    · subst hout
      exact ⟨le_refl _, le_refl _, le_refl _, le_refl _, le_refl _⟩
    split at hout
    case _ =>
      rw [hout]
      apply updateCarFinal_metrics
      · exact (updateCarIntegrate_metrics now car _ _ _ dt hdt hs).1
      · exact (updateCarIntegrate_metrics now car _ _ _ dt hdt hs).2.1
      · exact (updateCarIntegrate_metrics now car _ _ _ dt hdt hs).2.2.1
      · exact le_of_eq (updateCarIntegrate_metrics now car _ _ _ dt hdt hs).2.2.2.1.symm
      · exact le_of_eq
          (updateCarIntegrate_metrics now car _ _ _ dt hdt hs).2.2.2.2.1.symm
      · rw [(updateCarIntegrate_metrics now car _ _ _ dt hdt hs).2.2.2.2.2]
        exact travelTimeDelta_nonneg now car.currentStreetStartTime hstart
    case _ =>
      subst hout
      exact ⟨le_refl _, le_refl _, le_refl _, le_refl _, le_refl _⟩
  exact key _ rfl

/-- Witness instantiating the corrected C10 monotonicity at a concrete car
and a positive time step. -/
theorem C10_metrics_monotone_witness :
    defaultCar.stops ≤ (updateCar simpleOracle 0 zeroRand defaultCar [c10Street]
      c10Locs [] (1/10) [] []).1.stops ∧
    defaultCar.timeNotMoving ≤ (updateCar simpleOracle 0 zeroRand defaultCar
      [c10Street] c10Locs [] (1/10) [] []).1.timeNotMoving ∧
    defaultCar.totalDistance ≤ (updateCar simpleOracle 0 zeroRand defaultCar
      [c10Street] c10Locs [] (1/10) [] []).1.totalDistance ∧
    defaultCar.streetsTraveled ≤ (updateCar simpleOracle 0 zeroRand defaultCar
      [c10Street] c10Locs [] (1/10) [] []).1.streetsTraveled ∧
    defaultCar.totalTravelTime ≤ (updateCar simpleOracle 0 zeroRand defaultCar
      [c10Street] c10Locs [] (1/10) [] []).1.totalTravelTime :=
  C10_metrics_monotone simpleOracle 0 zeroRand defaultCar [c10Street] c10Locs []
    (1/10) [] [] (by norm_num) (by norm_num [defaultCar]) (by simp [defaultCar])

/-- Counterexample to claim C10 as stated: with delta time -1 (the claim
quantifies over any delta time), a car rolling at speed 1/2 with 5 seconds of
accumulated timeNotMoving is decelerated below the stopped threshold and its
timeNotMoving accumulator decreases from 5 to 4. -/
theorem C10_counterexample :
    (updateCar simpleOracle 0 zeroRand c10Car [c10Street] c10Locs [] (-1) []
      []).1.timeNotMoving = 4 ∧ c10Car.timeNotMoving = 5 := by
  constructor
  · norm_num +decide [updateCar, updateCarSpeedPlan, updateCarIntegrate, c10Car,
      c10Street, c10Locs, defaultCar, findCarAhead, findCrossTrafficCar,
      stopForLightScan, simpleOracle, zeroRand, List.find?, List.filter]
  · norm_num [c10Car, defaultCar]

/-! ### Claim C2: vehicle progress bounds -/

/-- Every branch of the end-of-street resolution that moves the car to a
different street resets its progress to exactly 5/100 or 95/100. -/
theorem resolveEndOfStreet_transition (M : MathOracle) (now : ℤ) (R : RandOracle)
    (uc : Car) (cs : Street) (streets : List Street) (locations : List Location)
    (cache : RoutingCache)
    (hne : (resolveEndOfStreet M now R uc cs streets locations cache).1.currentStreetId ≠
      uc.currentStreetId) :
    ((resolveEndOfStreet M now R uc cs streets locations cache).1.progress = 5/100 ∨
     (resolveEndOfStreet M now R uc cs streets locations cache).1.progress = 95/100) ∧
    0 < (resolveEndOfStreet M now R uc cs streets locations cache).1.progress ∧
    (resolveEndOfStreet M now R uc cs streets locations cache).1.progress < 1 := by
  revert hne
  simp only [resolveEndOfStreet]
  repeat' split
  all_goals intro hne
  all_goals first
    | exact absurd rfl hne
    | exact ⟨Or.inl rfl, by norm_num, by norm_num⟩
    | exact ⟨Or.inr rfl, by norm_num, by norm_num⟩

/-- Claim C2 (corrected).  Every street-to-street transition resets progress
to exactly 5/100 (entering at the from-end) or 95/100 (entering at the
to-end) — never exactly 0 or 1.  The claim's stronger assertion that after
every updateCar step an active vehicle's progress lies strictly inside (0,1)
is false: the end-of-street branch is skipped when the car is stopped for a
collision (or barely moving), so a car that integrates past an end while
stopped for a car ahead keeps progress at or beyond that end on the same
street with reachedDestination still false. -/
theorem C2_progress_bounds (M : MathOracle) (now : ℤ) (R : RandOracle)
    (car : Car) (streets : List Street) (locations : List Location)
    (lights : List TLight) (dt : ℚ) (allCars : List Car) (cache : RoutingCache)
    (hne : (updateCar M now R car streets locations lights dt allCars
      cache).1.currentStreetId ≠ car.currentStreetId) :
    ((updateCar M now R car streets locations lights dt allCars cache).1.progress
        = 5/100 ∨
     (updateCar M now R car streets locations lights dt allCars cache).1.progress
        = 95/100) ∧
    0 < (updateCar M now R car streets locations lights dt allCars cache).1.progress ∧
    (updateCar M now R car streets locations lights dt allCars cache).1.progress < 1 := by
  have key : ∀ out : Car × RoutingCache,
      out = updateCar M now R car streets locations lights dt allCars cache →
      out.1.currentStreetId ≠ car.currentStreetId →
      (out.1.progress = 5/100 ∨ out.1.progress = 95/100) ∧
      0 < out.1.progress ∧ out.1.progress < 1 := by
    intro out hout
    simp only [updateCar] at hout
    split at hout
    · subst hout
      intro hne2
      exact absurd rfl hne2
    split at hout
    · subst hout
      intro hne2
      exact absurd rfl hne2
    split at hout
    case _ =>
      split at hout
      · subst hout
        intro hne2
        exact resolveEndOfStreet_transition M now R _ _ streets locations cache hne2
      · subst hout
        intro hne2
        exact absurd rfl hne2
    case _ =>
      subst hout
      intro hne2
      exact absurd rfl hne2
  exact key _ rfl hne

/-- Witness instantiating the corrected C2 at a concrete transition: the car
crosses from s1 onto s2 and restarts at progress 5/100. -/
theorem C2_progress_bounds_witness :
    ((updateCar simpleOracle 0 zeroRand c2wCar c2Streets c2Locs [] (1/10) []
        []).1.progress = 5/100 ∨
     (updateCar simpleOracle 0 zeroRand c2wCar c2Streets c2Locs [] (1/10) []
        []).1.progress = 95/100) ∧
    0 < (updateCar simpleOracle 0 zeroRand c2wCar c2Streets c2Locs [] (1/10) []
        []).1.progress ∧
    (updateCar simpleOracle 0 zeroRand c2wCar c2Streets c2Locs [] (1/10) []
        []).1.progress < 1 :=
  C2_progress_bounds simpleOracle 0 zeroRand c2wCar c2Streets c2Locs [] (1/10) [] []
    (by norm_num +decide [updateCar, updateCarSpeedPlan, updateCarIntegrate,
      resolveEndOfStreet, findBestNextStreet, computeRoutingDecision, findCarAhead,
      findCrossTrafficCar, stopForLightScan, carRoutingId, strTruthy, jsStr,
      cacheLookup, cacheInsert, c2wCar, c2Streets, c2Locs, defaultCar, simpleOracle,
      zeroRand, List.find?, List.filter])

/-- Counterexample to claim C2 as stated: the car integrates past the end of
its street (progress 1.0039 ≥ 1) but is held there because it is stopped for
the car ahead, remaining active on the same street beyond the end. -/
theorem C2_counterexample :
    1 ≤ (updateCar simpleOracle 0 zeroRand c2CarX [c10Street] c10Locs [] (1/10)
      [c2CarY] []).1.progress ∧
    (updateCar simpleOracle 0 zeroRand c2CarX [c10Street] c10Locs [] (1/10)
      [c2CarY] []).1.reachedDestination = false ∧
    (updateCar simpleOracle 0 zeroRand c2CarX [c10Street] c10Locs [] (1/10)
      [c2CarY] []).1.currentStreetId = c2CarX.currentStreetId := by
  norm_num +decide [updateCar, updateCarSpeedPlan, updateCarIntegrate, c2CarX,
    c2CarY, c10Street, c10Locs, defaultCar, findCarAhead, findCrossTrafficCar,
    analyzeCarCollision, calculateCarPosition, getCarBounds, checkBoundsCollision,
    isCarMovingTowardPoint, detectAndResolveDeadlock, stopForLightScan, listMinQ,
    listMaxQ, simpleOracle, zeroRand, List.find?, List.filter, min_def, max_def,
    abs_of_pos]

/-! ### Claim C3: lights update before vehicles within a tick -/

/-- Claim C3 (confirmed).  In one animation tick the light collection is
updated first and the vehicle update consumes exactly the light collection
produced by that same tick's updateTrafficLights call (the source mutates
the light objects of the closure-captured array in place, so the array the
vehicle update reads carries this tick's states; the sequential state
passing of runSimulationTick renders that aliasing).  The second conjunct
shows the ordering is observable: against this tick's lights (green flipped
to yellow) the fixture car brakes to progress 0.754, while against the
previous tick's still-green light it would have cruised to 0.758. -/
theorem C3_lights_update_first :
    (∀ (M : MathOracle) (now : ℤ) (oracles : ℕ → RandOracle) (isSmart : Bool)
       (streets : List Street) (locations : List Location) (lights : List TLight)
       (cars : List Car) (dt : ℚ) (cache : RoutingCache),
      lights ≠ [] → cars ≠ [] →
      (runSimulationTick M now oracles isSmart streets locations lights cars dt
          cache).1
        = updateTrafficLights M now lights dt isSmart cars streets locations ∧
      (runSimulationTick M now oracles isSmart streets locations lights cars dt
          cache).2.1
        = (simulateTraffic M now oracles cars streets locations
            (updateTrafficLights M now lights dt isSmart cars streets locations)
            dt cache).1) ∧
    ((simulateTraffic simpleOracle 0 (fun _ => zeroRand) [c3Car] c2Streets c2Locs
        (updateTrafficLights simpleOracle 0 [c3Light] (1/10) false [c3Car]
          c2Streets c2Locs) (1/10) []).1.map Car.progress = [754/1000] ∧
     (simulateTraffic simpleOracle 0 (fun _ => zeroRand) [c3Car] c2Streets c2Locs
        [c3Light] (1/10) []).1.map Car.progress = [758/1000]) := by
  constructor
  · intro M now oracles isSmart streets locations lights cars dt cache hl hc
    cases lights with
    | nil => exact absurd rfl hl
    | cons l ls =>
      cases cars with
      | nil => exact absurd rfl hc
      | cons c cs => exact ⟨rfl, rfl⟩
  constructor
  · norm_num +decide [simulateTraffic, simulateCars, updateCar, updateCarSpeedPlan,
      updateCarIntegrate, updateTrafficLights, updateTrafficLight, smartGate, fallbackApply, tlCycleStep,
      cycleDuration, syncGroup, validateIntersectionSafety, validateLight,
      findCarAhead, findCrossTrafficCar, stopForLightScan, c3Car, c3Light,
      c2Streets, c2Locs, defaultCar, mkLight, simpleOracle, zeroRand, listMinQ,
      List.range_succ, List.foldl_append, List.foldl_cons, List.foldl_nil,
      List.getElem?_cons_zero, List.getElem?_cons_succ, List.set_cons_zero,
      List.set_cons_succ, List.find?, List.filter, min_def, max_def, abs_of_pos]
  · norm_num +decide [simulateTraffic, simulateCars, updateCar, updateCarSpeedPlan,
      updateCarIntegrate, findCarAhead, findCrossTrafficCar, stopForLightScan,
      c3Car, c3Light, c2Streets, c2Locs, defaultCar, mkLight, simpleOracle,
      zeroRand, List.find?, List.filter, min_def, max_def, abs_of_pos]

/-- Witness instantiating the universal part of C3 at the fixture tick. -/
theorem C3_lights_update_first_witness :
    (runSimulationTick simpleOracle 0 (fun _ => zeroRand) false c2Streets c2Locs
        [c3Light] [c3Car] (1/10) []).2.1
      = (simulateTraffic simpleOracle 0 (fun _ => zeroRand) [c3Car] c2Streets
          c2Locs (updateTrafficLights simpleOracle 0 [c3Light] (1/10) false
            [c3Car] c2Streets c2Locs) (1/10) []).1 :=
  (C3_lights_update_first.1 simpleOracle 0 (fun _ => zeroRand) false c2Streets
    c2Locs [c3Light] [c3Car] (1/10) [] (List.cons_ne_nil _ _)
    (List.cons_ne_nil _ _)).2

/-! ### Claim C1: list helpers for the invariant development -/

theorem set_getElem?_self {α} : ∀ (xs : List α) (i : ℕ) (x : α),
    xs[i]? = some x → xs.set i x = xs := by
  intro xs
  induction xs with
  | nil =>
    intro i x h
    simp at h
  | cons y ys ih =>
    intro i x h
    cases i with
    | zero =>
      simp only [List.getElem?_cons_zero, Option.some.injEq] at h
      subst h
      rfl
    | succ n =>
      simp only [List.getElem?_cons_succ] at h
      simp [List.set, ih n x h]

theorem filter_length_set (p : TLight → Bool) :
    ∀ (ls : List TLight) (i : ℕ) (v w : TLight), ls[i]? = some w → p v = p w →
    ((ls.set i v).filter p).length = (ls.filter p).length := by
  intro ls
  induction ls with
  | nil =>
    intro i v w h _
    simp at h
  | cons x xs ih =>
    intro i v w h hp
    cases i with
    | zero =>
      simp only [List.getElem?_cons_zero, Option.some.injEq] at h
      subst h
      show ((v :: xs).filter p).length = ((x :: xs).filter p).length
      rw [List.filter_cons, List.filter_cons, hp]
      cases hx : p x <;> simp [hx]
    | succ n =>
      simp only [List.getElem?_cons_succ] at h
      show ((x :: xs.set n v).filter p).length = ((x :: xs).filter p).length
      rw [List.filter_cons, List.filter_cons]
      cases hx : p x <;> simp [ih n v w h hp]

theorem filter_length_mono (p q : TLight → Bool) :
    ∀ (ls : List TLight), (∀ a ∈ ls, p a = true → q a = true) →
    (ls.filter p).length ≤ (ls.filter q).length := by
  intro ls
  induction ls with
  | nil =>
    intro _
    simp
  | cons x xs ih =>
    intro h
    have ht := ih (fun a ha hpa => h a (List.mem_cons_of_mem x ha) hpa)
    rw [List.filter_cons, List.filter_cons]
    cases hpx : p x
    · cases hqx : q x
      all_goals simp only [hpx, hqx, Bool.false_eq_true, if_false, if_true,
        List.length_cons]
      · exact ht
      · exact Nat.le_succ_of_le ht
    · have hq := h x (List.mem_cons_self x xs) hpx
      simp only [hpx, hq, if_true, List.length_cons]
      exact Nat.succ_le_succ ht

theorem filter_length_eq_all (p : TLight → Bool) :
    ∀ (ls : List TLight), (ls.filter p).length = ls.length →
    ∀ a ∈ ls, p a = true := by
  intro ls
  induction ls with
  | nil =>
    intro _ a ha
    cases ha
  | cons x xs ih =>
    intro h a ha
    rw [List.filter_cons] at h
    cases hpx : p x
    · simp only [hpx, Bool.false_eq_true, if_false, List.length_cons] at h
      have := List.length_filter_le p xs
      omega
    · simp only [hpx, if_true, List.length_cons, Nat.succ.injEq] at h
      rcases List.mem_cons.mp ha with rfl | ha'
      · exact hpx
      · exact ih h a ha'

theorem nodupIds_getElem?_ne (ls : List TLight) (h : NodupIds ls) (i j : ℕ)
    (m n : TLight) (hi : ls[i]? = some m) (hj : ls[j]? = some n) (hij : i ≠ j) :
    m.id ≠ n.id := by
  intro he
  apply hij
  apply @List.getElem?_inj String i j (ls.map fun l => l.id)
  · rw [List.length_map]
    exact (List.getElem?_eq_some.mp hi).1
  · exact h
  · rw [List.getElem?_map, List.getElem?_map, hi, hj]
    simp [he]

theorem getElem?_set_self (ls : List TLight) (i : ℕ) (v : TLight)
    (h : i < ls.length) : (ls.set i v)[i]? = some v := by
  rw [List.getElem?_set]
  simp [h]

/-! ### Claim C1: transport of the invariant through the primitive operations -/

theorem GroupsIn_map (loc A B : String) (f : TLight → TLight) (ls : List TLight)
    (hloc : ∀ x, (f x).locationId = x.locationId)
    (hgrp : ∀ x, (f x).oppositeGroupId = x.oppositeGroupId)
    (h : GroupsIn loc A B ls) : GroupsIn loc A B (ls.map f) := by
  intro j m hj hm
  rw [List.getElem?_map] at hj
  cases hx : ls[j]? with
  | none =>
    rw [hx] at hj
    cases hj
  | some n =>
    rw [hx] at hj
    simp only [Option.map_some', Option.some.injEq] at hj
    subst hj
    rw [hgrp n]
    exact h j n hx (by rw [← hloc n]; exact hm)

theorem NodupIds_map (f : TLight → TLight) (ls : List TLight)
    (hid : ∀ x, (f x).id = x.id) (h : NodupIds ls) : NodupIds (ls.map f) := by
  unfold NodupIds at h ⊢
  rw [List.map_map]
  have : ls.map ((fun l => l.id) ∘ f) = ls.map fun l => l.id :=
    List.map_congr_left (fun a _ => hid a)
  rw [this]
  exact h

theorem GroupLe2_map (loc g : String) (f : TLight → TLight) (ls : List TLight)
    (hloc : ∀ x, (f x).locationId = x.locationId)
    (hgrp : ∀ x, (f x).oppositeGroupId = x.oppositeGroupId)
    (h : GroupLe2 loc g ls) : GroupLe2 loc g (ls.map f) := by
  unfold GroupLe2 at h ⊢
  rw [List.filter_map, List.length_map]
  have : ls.filter ((fun l =>
      decide (l.locationId = loc ∧ l.oppositeGroupId = some g)) ∘ f) =
      ls.filter fun l => decide (l.locationId = loc ∧ l.oppositeGroupId = some g) := by
    apply List.filter_congr
    intro x _
    simp only [Function.comp_apply, hloc x, hgrp x]
  rw [this]
  exact h

theorem C1Static_map (loc A B : String) (f : TLight → TLight) (ls : List TLight)
    (hid : ∀ x, (f x).id = x.id)
    (hloc : ∀ x, (f x).locationId = x.locationId)
    (hgrp : ∀ x, (f x).oppositeGroupId = x.oppositeGroupId)
    (h : C1Static loc A B ls) : C1Static loc A B (ls.map f) :=
  ⟨GroupsIn_map loc A B f ls hloc hgrp h.1, NodupIds_map f ls hid h.2.1,
   GroupLe2_map loc A f ls hloc hgrp h.2.2.1, GroupLe2_map loc B f ls hloc hgrp h.2.2.2⟩

theorem GroupsIn_set (loc A B : String) (ls : List TLight) (i : ℕ) (v w : TLight)
    (hw : ls[i]? = some w) (hloc : v.locationId = w.locationId)
    (hgrp : w.locationId = loc → v.oppositeGroupId = w.oppositeGroupId)
    (h : GroupsIn loc A B ls) : GroupsIn loc A B (ls.set i v) := by
  intro j m hj hm
  rw [List.getElem?_set] at hj
  by_cases hij : i = j
  · rw [if_pos hij, if_pos (hij ▸ (List.getElem?_eq_some.mp hw).1)] at hj
    cases hj
    have hwloc : w.locationId = loc := by rw [← hloc]; exact hm
    rw [hgrp hwloc]
    exact h i w hw hwloc
  · rw [if_neg hij] at hj
    exact h j m hj hm

theorem NodupIds_set (ls : List TLight) (i : ℕ) (v w : TLight)
    (hw : ls[i]? = some w) (hid : v.id = w.id) (h : NodupIds ls) :
    NodupIds (ls.set i v) := by
  unfold NodupIds at h ⊢
  rw [List.map_set, hid, set_getElem?_self]
  · exact h
  · rw [List.getElem?_map, hw]
    rfl

theorem GroupLe2_set (loc g : String) (ls : List TLight) (i : ℕ) (v w : TLight)
    (hw : ls[i]? = some w) (hloc : v.locationId = w.locationId)
    (hgrp : w.locationId = loc → v.oppositeGroupId = w.oppositeGroupId)
    (h : GroupLe2 loc g ls) : GroupLe2 loc g (ls.set i v) := by
  unfold GroupLe2 at h ⊢
  rw [filter_length_set _ ls i v w hw]
  · exact h
  · by_cases hwloc : w.locationId = loc
    · simp only [hloc, hgrp hwloc]
    · have hvloc : ¬v.locationId = loc := by rw [hloc]; exact hwloc
      simp only [decide_eq_decide]
      constructor
      · intro hx
        exact absurd hx.1 hvloc
      · intro hx
        exact absurd hx.1 hwloc

theorem C1Static_set (loc A B : String) (ls : List TLight) (i : ℕ) (v w : TLight)
    (hw : ls[i]? = some w) (hid : v.id = w.id) (hloc : v.locationId = w.locationId)
    (hgrp : w.locationId = loc → v.oppositeGroupId = w.oppositeGroupId)
    (h : C1Static loc A B ls) : C1Static loc A B (ls.set i v) :=
  ⟨GroupsIn_set loc A B ls i v w hw hloc hgrp h.1, NodupIds_set ls i v w hw hid h.2.1,
   GroupLe2_set loc A ls i v w hw hloc hgrp h.2.2.1,
   GroupLe2_set loc B ls i v w hw hloc hgrp h.2.2.2⟩

theorem OneActive_set_frozen (loc g : String) (s : LState) (ls : List TLight)
    (i : ℕ) (v w : TLight) (hw : ls[i]? = some w)
    (hloc : v.locationId = w.locationId)
    (hgrp : w.locationId = loc → v.oppositeGroupId = w.oppositeGroupId)
    (hst : w.locationId = loc → v.state = w.state)
    (h : OneActive loc g s ls) : OneActive loc g s (ls.set i v) := by
  intro j m hj hm
  rw [List.getElem?_set] at hj
  by_cases hij : i = j
  · rw [if_pos hij, if_pos (hij ▸ (List.getElem?_eq_some.mp hw).1)] at hj
    cases hj
    have hwloc : w.locationId = loc := by rw [← hloc]; exact hm
    rw [hst hwloc, hgrp hwloc]
    exact h i w hw hwloc
  · rw [if_neg hij] at hj
    exact h j m hj hm

theorem OneActive_map_stateFn (loc g : String) (s : LState) (φ : LState → LState)
    (f : TLight → TLight) (ls : List TLight) (hφred : φ .red = .red)
    (hloc : ∀ x, (f x).locationId = x.locationId)
    (hgrp : ∀ x, (f x).oppositeGroupId = x.oppositeGroupId)
    (hst : ∀ x, x.locationId = loc → (f x).state = φ x.state)
    (h : OneActive loc g s ls) : OneActive loc g (φ s) (ls.map f) := by
  intro j m hj hm
  rw [List.getElem?_map] at hj
  cases hx : ls[j]? with
  | none =>
    rw [hx] at hj
    cases hj
  | some n =>
    rw [hx] at hj
    simp only [Option.map_some', Option.some.injEq] at hj
    subst hj
    have hnloc : n.locationId = loc := by rw [← hloc n]; exact hm
    rw [hst n hnloc, h j n hx hnloc, hgrp n]
    by_cases hng : n.oppositeGroupId = some g
    · rw [if_pos hng, if_pos hng]
    · rw [if_neg hng, if_neg hng, hφred]

theorem ite_field_eq {α} {c : Prop} [inst : Decidable c] (a b : TLight)
    (f : TLight → α) (r : α) (ha : f a = r) (hb : f b = r) :
    f (if c then a else b) = r := by
  split
  · exact ha
  · exact hb

/-- C1Inv transport through an arbitrary map that freezes the state of the
lights of loc. -/
theorem C1Inv_map_frozen (loc A B : String) (f : TLight → TLight) (ls : List TLight)
    (hid : ∀ x, (f x).id = x.id) (hloc : ∀ x, (f x).locationId = x.locationId)
    (hgrp : ∀ x, (f x).oppositeGroupId = x.oppositeGroupId)
    (hst : ∀ x, x.locationId = loc → (f x).state = x.state)
    (hinv : C1Inv loc A B ls) : C1Inv loc A B (ls.map f) := by
  obtain ⟨hAB, hstat, g, s, hgAB, hone⟩ := hinv
  exact ⟨hAB, C1Static_map loc A B f ls hid hloc hgrp hstat, g, s, hgAB,
    OneActive_map_stateFn loc g s (fun st => st) f ls rfl hloc hgrp hst hone⟩

/-- C1Inv transport through a set that freezes the state of a light of loc. -/
theorem C1Inv_set_frozen (loc A B : String) (ls : List TLight) (i : ℕ) (v w : TLight)
    (hw : ls[i]? = some w) (hid : v.id = w.id) (hloc : v.locationId = w.locationId)
    (hgrp : w.locationId = loc → v.oppositeGroupId = w.oppositeGroupId)
    (hst : w.locationId = loc → v.state = w.state)
    (hinv : C1Inv loc A B ls) : C1Inv loc A B (ls.set i v) := by
  obtain ⟨hAB, hstat, g, s, hgAB, hone⟩ := hinv
  exact ⟨hAB, C1Static_set loc A B ls i v w hw hid hloc hgrp hstat, g, s, hgAB,
    OneActive_set_frozen loc g s ls i v w hw hloc hgrp hst hone⟩

/-- The group-synchronized phase transition: the fired light at index i and
every same-group light at its intersection still in the source state move to
the target state; the active group moves as one block. -/
theorem syncStep_preserves (loc g : String) (now : ℤ) (src tgt : LState)
    (hsrc : src ≠ .red) (l : TLight) (ls : List TLight) (i : ℕ)
    (hli : ls[i]? = some l) (hlloc : l.locationId = loc)
    (hlg : l.oppositeGroupId = some g) (hnd : NodupIds ls)
    (hone : OneActive loc g src ls) :
    OneActive loc g tgt (syncGroup now l src tgt
      (ls.set i { l with timer := 0, lastStateChange := now, state := tgt })) := by
  intro j m hj hm
  have hilen : i < ls.length := (List.getElem?_eq_some.mp hli).1
  unfold syncGroup at hj
  rw [List.getElem?_map] at hj
  cases hsj : (ls.set i { l with timer := 0, lastStateChange := now, state := tgt })[j]? with
  | none =>
    rw [hsj] at hj
    cases hj
  | some n =>
    rw [hsj] at hj
    simp only [Option.map_some', Option.some.injEq] at hj
    subst hj
    rw [List.getElem?_set] at hsj
    by_cases hij : i = j
    · rw [if_pos hij, if_pos (hij ▸ hilen)] at hsj
      cases hsj
      rw [if_neg (fun hc => hc.2.2.1 rfl)]
      simp [hlg]
    · rw [if_neg hij] at hsj
      have hidne : n.id ≠ l.id :=
        nodupIds_getElem?_ne ls hnd j i n l hsj hli (fun he => hij he.symm)
      by_cases hc : n.locationId = l.locationId ∧
          n.oppositeGroupId = l.oppositeGroupId ∧ n.id ≠ l.id ∧ n.state = src
      · rw [if_pos hc] at hm ⊢
        have hng : n.oppositeGroupId = some g := by rw [hc.2.1, hlg]
        simp [hng]
      · rw [if_neg hc] at hm ⊢
        have hn := hone j n hsj hm
        by_cases hng : n.oppositeGroupId = some g
        · rw [if_pos hng] at hn
          exact absurd ⟨by rw [hm, hlloc], by rw [hng, hlg], hidne, hn⟩ hc
        · rw [if_neg hng] at hn
          rw [hn, if_neg hng]

/-- A full synchronized-transition branch of tlCycleStep preserves the C1
invariant (the fired light may also sit at another intersection, in which
case the lights of loc are untouched). -/
theorem syncBranch_preserves (loc A B : String) (now : ℤ) (src tgt : LState)
    (hsrc : src ≠ .red) (l : TLight) (ls : List TLight) (i : ℕ)
    (hli : ls[i]? = some l) (hlst : l.state = src) (hinv : C1Inv loc A B ls) :
    C1Inv loc A B (syncGroup now l src tgt
      (ls.set i { l with timer := 0, lastStateChange := now, state := tgt })) := by
  obtain ⟨hAB, hstat, g, s, hgAB, hone⟩ := hinv
  refine ⟨hAB, ?_, ?_⟩
  · have h1 := C1Static_set loc A B ls i
      { l with timer := 0, lastStateChange := now, state := tgt } l hli rfl rfl
      (fun _ => rfl) hstat
    unfold syncGroup
    exact C1Static_map loc A B _ _
      (fun x => ite_field_eq _ _ (fun o => o.id) _ rfl rfl)
      (fun x => ite_field_eq _ _ (fun o => o.locationId) _ rfl rfl)
      (fun x => ite_field_eq _ _ (fun o => o.oppositeGroupId) _ rfl rfl) h1
  · by_cases hlloc : l.locationId = loc
    · have hl := hone i l hli hlloc
      by_cases hlg : l.oppositeGroupId = some g
      · rw [if_pos hlg] at hl
        have hs : s = src := by rw [← hl, hlst]
        rw [hs] at hone
        exact ⟨g, tgt, hgAB,
          syncStep_preserves loc g now src tgt hsrc l ls i hli hlloc hlg hstat.2.1 hone⟩
      · rw [if_neg hlg] at hl
        rw [hlst] at hl
        exact absurd hl hsrc
    · refine ⟨g, s, hgAB, ?_⟩
      have h1 : OneActive loc g s (ls.set i
          { l with timer := 0, lastStateChange := now, state := tgt }) :=
        OneActive_set_frozen loc g s ls i _ l hli rfl (fun hc => absurd hc hlloc)
          (fun hc => absurd hc hlloc) hone
      unfold syncGroup
      exact OneActive_map_stateFn loc g s (fun st => st) _ _ rfl
        (fun x => ite_field_eq _ _ (fun o => o.locationId) _ rfl rfl)
        (fun x => ite_field_eq _ _ (fun o => o.oppositeGroupId) _ rfl rfl)
        (fun x hx => congrArg TLight.state
          (if_neg (fun hc => hlloc (by rw [← hc.1]; exact hx)))) h1

/-- After a yellow-to-red transition under traditional control, promoting the
other group's red lights to waiting restores the invariant with the other
group active in the waiting state. -/
theorem promotePerp_preserves (loc A B g h : String) (hAB : A ≠ B)
    (hgh : (g = A ∧ h = B) ∨ (g = B ∧ h = A)) (now : ℤ) (l : TLight)
    (ls : List TLight) (hlloc : l.locationId = loc)
    (hlg : l.oppositeGroupId = some g) (hgrps : GroupsIn loc A B ls)
    (hone : OneActive loc g .red ls) :
    OneActive loc h .waiting (promotePerpendicular now l ls) := by
  have hgh' : g ≠ h := by
    rcases hgh with ⟨rfl, rfl⟩ | ⟨rfl, rfl⟩
    · exact hAB
    · exact fun he => hAB he.symm
  intro j m hj hm
  unfold promotePerpendicular at hj
  rw [List.getElem?_map] at hj
  cases hx : ls[j]? with
  | none =>
    rw [hx] at hj
    cases hj
  | some n =>
    rw [hx] at hj
    simp only [Option.map_some', Option.some.injEq] at hj
    subst hj
    by_cases hc : n.locationId = l.locationId ∧
        n.oppositeGroupId ≠ l.oppositeGroupId ∧ n.state = .red
    · rw [if_pos hc] at hm ⊢
      have hnloc : n.locationId = loc := hm
      have hgrpn := hgrps j n hx hnloc
      have hnh : n.oppositeGroupId = some h := by
        rcases hgh with ⟨rfl, rfl⟩ | ⟨rfl, rfl⟩
        · rcases hgrpn with hA | hB
          · exact absurd (by rw [hA, hlg]) hc.2.1
          · exact hB
        · rcases hgrpn with hA | hB
          · exact hA
          · exact absurd (by rw [hB, hlg]) hc.2.1
      simp [hnh]
    · rw [if_neg hc] at hm ⊢
      have hn := hone j n hx hm
      rw [ite_self] at hn
      by_cases hnh : n.oppositeGroupId = some h
      · exact absurd ⟨by rw [hm, hlloc],
          by rw [hnh, hlg]; intro he; exact hgh' (Option.some.inj he).symm, hn⟩ hc
      · rw [hn, if_neg hnh]

/-- Smart-control promotion of the pending target group from an all-red
intersection: the target group (any string) comes up waiting, or nothing
changes when no light carries that group. -/
theorem promoteTarget_fires (loc t : String) (now : ℤ) (g : String)
    (ls : List TLight) (hone : OneActive loc g .red ls) :
    OneActive loc t .waiting (promoteTargetGroup now loc t ls) := by
  intro j m hj hm
  unfold promoteTargetGroup at hj
  rw [List.getElem?_map] at hj
  cases hx : ls[j]? with
  | none =>
    rw [hx] at hj
    cases hj
  | some n =>
    rw [hx] at hj
    simp only [Option.map_some', Option.some.injEq] at hj
    subst hj
    by_cases hc : n.locationId = loc ∧ n.oppositeGroupId = some t ∧ n.state = .red
    · rw [if_pos hc] at hm ⊢
      simp [hc.2.1]
    · rw [if_neg hc] at hm ⊢
      have hn := hone j n hx hm
      rw [ite_self] at hn
      by_cases hnt : n.oppositeGroupId = some t
      · exact absurd ⟨hm, hnt, hn⟩ hc
      · rw [hn, if_neg hnt]

theorem promoteTarget_preserves (loc A B g : String) (hgAB : g = A ∨ g = B)
    (now : ℤ) (tgt : String) (ls : List TLight) (hgrps : GroupsIn loc A B ls)
    (hone : OneActive loc g .red ls) :
    ∃ g' s', (g' = A ∨ g' = B) ∧
      OneActive loc g' s' (promoteTargetGroup now loc tgt ls) := by
  by_cases htA : tgt = A
  · exact ⟨tgt, .waiting, Or.inl htA, promoteTarget_fires loc tgt now g ls hone⟩
  by_cases htB : tgt = B
  · exact ⟨tgt, .waiting, Or.inr htB, promoteTarget_fires loc tgt now g ls hone⟩
  refine ⟨g, .red, hgAB, ?_⟩
  intro j m hj hm
  unfold promoteTargetGroup at hj
  rw [List.getElem?_map] at hj
  cases hx : ls[j]? with
  | none =>
    rw [hx] at hj
    cases hj
  | some n =>
    rw [hx] at hj
    simp only [Option.map_some', Option.some.injEq] at hj
    subst hj
    by_cases hc : n.locationId = loc ∧ n.oppositeGroupId = some tgt ∧ n.state = .red
    · exfalso
      rcases hgrps j n hx hc.1 with hgA | hgB
      · exact htA (Option.some.inj (hgA.symm.trans hc.2.1)).symm
      · exact htB (Option.some.inj (hgB.symm.trans hc.2.1)).symm
    · rw [if_neg hc] at hm ⊢
      have hn := hone j n hx hm
      rw [ite_self] at hn
      rw [hn, ite_self]

/-! ### Claim C1: per-operation corollaries -/

theorem C1Static_syncGroup (loc A B : String) (now : ℤ) (self : TLight)
    (src tgt : LState) (ls : List TLight) (h : C1Static loc A B ls) :
    C1Static loc A B (syncGroup now self src tgt ls) := by
  unfold syncGroup
  exact C1Static_map loc A B _ _
    (fun x => ite_field_eq _ _ (fun o => o.id) _ rfl rfl)
    (fun x => ite_field_eq _ _ (fun o => o.locationId) _ rfl rfl)
    (fun x => ite_field_eq _ _ (fun o => o.oppositeGroupId) _ rfl rfl) h

theorem C1Static_promotePerp (loc A B : String) (now : ℤ) (self : TLight)
    (ls : List TLight) (h : C1Static loc A B ls) :
    C1Static loc A B (promotePerpendicular now self ls) := by
  unfold promotePerpendicular
  exact C1Static_map loc A B _ _
    (fun x => ite_field_eq _ _ (fun o => o.id) _ rfl rfl)
    (fun x => ite_field_eq _ _ (fun o => o.locationId) _ rfl rfl)
    (fun x => ite_field_eq _ _ (fun o => o.oppositeGroupId) _ rfl rfl) h

theorem C1Static_promoteTarget (loc A B : String) (now : ℤ) (loc2 tgt : String)
    (ls : List TLight) (h : C1Static loc A B ls) :
    C1Static loc A B (promoteTargetGroup now loc2 tgt ls) := by
  unfold promoteTargetGroup
  exact C1Static_map loc A B _ _
    (fun x => ite_field_eq _ _ (fun o => o.id) _ rfl rfl)
    (fun x => ite_field_eq _ _ (fun o => o.locationId) _ rfl rfl)
    (fun x => ite_field_eq _ _ (fun o => o.oppositeGroupId) _ rfl rfl) h

theorem C1Static_clear (loc A B : String) (loc2 : String) (ls : List TLight)
    (h : C1Static loc A B ls) : C1Static loc A B (clearSwitchTargets loc2 ls) := by
  unfold clearSwitchTargets
  exact C1Static_map loc A B _ _
    (fun x => ite_field_eq _ _ (fun o => o.id) _ rfl rfl)
    (fun x => ite_field_eq _ _ (fun o => o.locationId) _ rfl rfl)
    (fun x => ite_field_eq _ _ (fun o => o.oppositeGroupId) _ rfl rfl) h

theorem OneActive_syncGroup_off (loc g : String) (s : LState) (now : ℤ)
    (self : TLight) (src tgt : LState) (ls : List TLight)
    (hoff : self.locationId ≠ loc) (h : OneActive loc g s ls) :
    OneActive loc g s (syncGroup now self src tgt ls) := by
  unfold syncGroup
  exact OneActive_map_stateFn loc g s (fun st => st) _ _ rfl
    (fun x => ite_field_eq _ _ (fun o => o.locationId) _ rfl rfl)
    (fun x => ite_field_eq _ _ (fun o => o.oppositeGroupId) _ rfl rfl)
    (fun x hx => congrArg TLight.state
      (if_neg (fun hc => hoff (by rw [← hc.1]; exact hx)))) h

theorem OneActive_promotePerp_off (loc g : String) (s : LState) (now : ℤ)
    (self : TLight) (ls : List TLight) (hoff : self.locationId ≠ loc)
    (h : OneActive loc g s ls) :
    OneActive loc g s (promotePerpendicular now self ls) := by
  unfold promotePerpendicular
  exact OneActive_map_stateFn loc g s (fun st => st) _ _ rfl
    (fun x => ite_field_eq _ _ (fun o => o.locationId) _ rfl rfl)
    (fun x => ite_field_eq _ _ (fun o => o.oppositeGroupId) _ rfl rfl)
    (fun x hx => congrArg TLight.state
      (if_neg (fun hc => hoff (by rw [← hc.1]; exact hx)))) h

theorem OneActive_promoteTarget_off (loc g : String) (s : LState) (now : ℤ)
    (loc2 tgt : String) (ls : List TLight) (hoff : loc2 ≠ loc)
    (h : OneActive loc g s ls) :
    OneActive loc g s (promoteTargetGroup now loc2 tgt ls) := by
  unfold promoteTargetGroup
  exact OneActive_map_stateFn loc g s (fun st => st) _ _ rfl
    (fun x => ite_field_eq _ _ (fun o => o.locationId) _ rfl rfl)
    (fun x => ite_field_eq _ _ (fun o => o.oppositeGroupId) _ rfl rfl)
    (fun x hx => congrArg TLight.state
      (if_neg (fun hc => hoff (by rw [← hc.1]; exact hx)))) h

theorem OneActive_clear (loc g : String) (s : LState) (loc2 : String)
    (ls : List TLight) (h : OneActive loc g s ls) :
    OneActive loc g s (clearSwitchTargets loc2 ls) := by
  unfold clearSwitchTargets
  exact OneActive_map_stateFn loc g s (fun st => st) _ _ rfl
    (fun x => ite_field_eq _ _ (fun o => o.locationId) _ rfl rfl)
    (fun x => ite_field_eq _ _ (fun o => o.oppositeGroupId) _ rfl rfl)
    (fun x _ => ite_field_eq _ _ (fun o => o.state) _ rfl rfl) h

/-! ### Claim C1: preservation through the timer-driven transition -/

theorem tlCycleStep_preserves (loc A B : String) (now : ℤ) (smart : Bool)
    (l : TLight) (ls : List TLight) (i : ℕ) (hli : ls[i]? = some l)
    (hinv : C1Inv loc A B ls) :
    C1Inv loc A B (tlCycleStep now smart l ls i) := by
  cases smart with
  | false =>
    cases hst : l.state with
    | green =>
      simp only [tlCycleStep, cycleDuration, hst, Bool.false_eq_true, if_false,
        ite_false]
      split
      · exact syncBranch_preserves loc A B now .green .yellow (by decide) l ls i
          hli hst hinv
      · exact hinv
    | waiting =>
      simp only [tlCycleStep, cycleDuration, hst, Bool.false_eq_true, if_false,
        ite_false]
      split
      · exact syncBranch_preserves loc A B now .waiting .green (by decide) l ls i
          hli hst hinv
      · exact hinv
    | red =>
      simp only [tlCycleStep, cycleDuration, hst, Bool.false_eq_true, if_false,
        ite_false]
      split
      · obtain ⟨hAB, hstat, g, s, hgAB, hone⟩ := hinv
        exact ⟨hAB, C1Static_set loc A B ls i _ l hli rfl rfl (fun _ => rfl) hstat,
          g, s, hgAB,
          OneActive_set_frozen loc g s ls i _ l hli rfl (fun _ => rfl)
            (fun _ => hst.symm) hone⟩
      · exact hinv
    | yellow =>
      simp only [tlCycleStep, cycleDuration, hst, Bool.false_eq_true, if_false,
        ite_false]
      split
      · by_cases hlloc : l.locationId = loc
        · obtain ⟨hAB, hstat, g, s, hgAB, hone⟩ := hinv
          have hstat2 : C1Static loc A B (syncGroup now l .yellow .red (ls.set i
              { l with timer := 0, lastStateChange := now, state := .red })) :=
            C1Static_syncGroup loc A B now l .yellow .red _
              (C1Static_set loc A B ls i _ l hli rfl rfl (fun _ => rfl) hstat)
          refine ⟨hAB, C1Static_promotePerp loc A B now l _ hstat2, ?_⟩
          have hl := hone i l hli hlloc
          by_cases hlg : l.oppositeGroupId = some g
          · rw [if_pos hlg] at hl
            have hs : s = .yellow := by rw [← hl, hst]
            rw [hs] at hone
            have hone2 : OneActive loc g .red (syncGroup now l .yellow .red
                (ls.set i { l with timer := 0, lastStateChange := now, state := .red })) :=
              syncStep_preserves loc g now .yellow .red (by decide) l ls i hli
                hlloc hlg hstat.2.1 hone
            rcases hgAB with hgA | hgB
            · exact ⟨B, .waiting, Or.inr rfl,
                promotePerp_preserves loc A B g B hAB (Or.inl ⟨hgA, rfl⟩) now l _
                  hlloc hlg hstat2.1 hone2⟩
            · exact ⟨A, .waiting, Or.inl rfl,
                promotePerp_preserves loc A B g A hAB (Or.inr ⟨hgB, rfl⟩) now l _
                  hlloc hlg hstat2.1 hone2⟩
          · rw [if_neg hlg] at hl
            rw [hst] at hl
            exact absurd hl (by decide)
        · obtain ⟨hAB, hstat2, g2, s2, hg2, hone2⟩ :=
            syncBranch_preserves loc A B now .yellow .red (by decide) l ls i hli
              hst hinv
          exact ⟨hAB, C1Static_promotePerp loc A B now l _ hstat2, g2, s2, hg2,
            OneActive_promotePerp_off loc g2 s2 now l _ hlloc hone2⟩
      · exact hinv
  | true =>
    cases hst : l.state with
    | green =>
      simp only [tlCycleStep, cycleDuration, hst, eq_self_iff_true, if_true,
        ite_true]
      exact hinv
    | red =>
      simp only [tlCycleStep, cycleDuration, hst, eq_self_iff_true, if_true,
        ite_true]
      exact hinv
    | waiting =>
      simp only [tlCycleStep, cycleDuration, hst, eq_self_iff_true, if_true,
        ite_true]
      split
      · exact syncBranch_preserves loc A B now .waiting .green (by decide) l ls i
          hli hst hinv
      · exact hinv
    | yellow =>
      simp only [tlCycleStep, cycleDuration, hst, eq_self_iff_true, if_true,
        ite_true]
      split
      · split
        case _ tgt htgt =>
          by_cases htne : tgt ≠ ""
          · rw [if_pos htne]
            by_cases hlloc : l.locationId = loc
            · rw [hlloc]
              obtain ⟨hAB, hstat, g, s, hgAB, hone⟩ := hinv
              have hstat2 : C1Static loc A B (syncGroup now l .yellow .red
                  (ls.set i { l with timer := 0, lastStateChange := now, state := .red })) :=
                C1Static_syncGroup loc A B now l .yellow .red _
                  (C1Static_set loc A B ls i _ l hli rfl rfl (fun _ => rfl) hstat)
              rw [hlloc] at hstat2
              have hstat3 := C1Static_promoteTarget loc A B now loc tgt _ hstat2
              have hl := hone i l hli hlloc
              by_cases hlg : l.oppositeGroupId = some g
              · rw [if_pos hlg] at hl
                have hs : s = .yellow := by rw [← hl, hst]
                rw [hs] at hone
                have hone2 : OneActive loc g .red (syncGroup now l .yellow .red
                    (ls.set i { l with timer := 0, lastStateChange := now, state := .red })) :=
                  syncStep_preserves loc g now .yellow .red (by decide) l ls i hli
                    hlloc hlg hstat.2.1 hone
                rw [hlloc] at hone2
                obtain ⟨g3, s3, hg3, hone3⟩ :=
                  promoteTarget_preserves loc A B g hgAB now tgt _ hstat2.1 hone2
                split
                · exact ⟨hAB, C1Static_clear loc A B loc _ hstat3, g3, s3, hg3,
                    OneActive_clear loc g3 s3 loc _ hone3⟩
                · exact ⟨hAB, hstat3, g3, s3, hg3, hone3⟩
              · rw [if_neg hlg] at hl
                rw [hst] at hl
                exact absurd hl (by decide)
            · obtain ⟨hAB, hstat2, g2, s2, hg2, hone2⟩ :=
                syncBranch_preserves loc A B now .yellow .red (by decide) l ls i
                  hli hst hinv
              have hstat3 :=
                C1Static_promoteTarget loc A B now l.locationId tgt _ hstat2
              have hone3 := OneActive_promoteTarget_off loc g2 s2 now l.locationId
                tgt _ hlloc hone2
              split
              · exact ⟨hAB, C1Static_clear loc A B l.locationId _ hstat3, g2, s2,
                  hg2, OneActive_clear loc g2 s2 l.locationId _ hone3⟩
              · exact ⟨hAB, hstat3, g2, s2, hg2, hone3⟩
          · rw [if_neg htne]
            exact syncBranch_preserves loc A B now .yellow .red (by decide) l ls i
              hli hst hinv
        case _ htgt =>
          exact syncBranch_preserves loc A B now .yellow .red (by decide) l ls i
            hli hst hinv
      · exact hinv

/-! ### Claim C1: preservation through the smart-analysis stage -/

theorem ite_field_cond {α} {c : Prop} [inst : Decidable c] (a b : TLight)
    (f : TLight → α) (r : α) (ha : c → f a = r) (hb : ¬c → f b = r) :
    f (if c then a else b) = r := by
  split
  · exact ha (by assumption)
  · exact hb (by assumption)

theorem applySmart_preserves (loc A B : String) (now : ℤ) (dec : Decision)
    (loc2 : String) (ls : List TLight) (hinv : C1Inv loc A B ls) :
    C1Inv loc A B (applySmartDecision now dec loc2 ls) := by
  obtain ⟨hAB, hstat, g, s, hgAB, hone⟩ := hinv
  simp only [applySmartDecision]
  split
  · by_cases hl2 : loc2 = loc
    · rw [hl2]
      refine ⟨hAB, ?_, g, if s = .green then .yellow else s, hgAB, ?_⟩
      · exact C1Static_map loc A B _ _
          (fun x => ite_field_eq _ _ (fun o => o.id) _
            (ite_field_eq _ _ (fun o => o.id) _ rfl rfl) rfl)
          (fun x => ite_field_eq _ _ (fun o => o.locationId) _
            (ite_field_eq _ _ (fun o => o.locationId) _ rfl rfl) rfl)
          (fun x => ite_field_eq _ _ (fun o => o.oppositeGroupId) _
            (ite_field_eq _ _ (fun o => o.oppositeGroupId) _ rfl rfl) rfl) hstat
      · refine OneActive_map_stateFn loc g s
          (fun st => if st = .green then .yellow else st) _ _ rfl
          (fun x => ite_field_eq _ _ (fun o => o.locationId) _
            (ite_field_eq _ _ (fun o => o.locationId) _ rfl rfl) rfl)
          (fun x => ite_field_eq _ _ (fun o => o.oppositeGroupId) _
            (ite_field_eq _ _ (fun o => o.oppositeGroupId) _ rfl rfl) rfl)
          ?_ hone
        intro x hx
        refine ite_field_cond _ _ (fun o => o.state) _ ?_ (fun hno => absurd hx hno)
        intro _
        refine ite_field_cond _ _ (fun o => o.state) _ ?_ ?_
        · intro hxg
          simp [hxg]
        · intro hxg
          simp [hxg]
    · refine ⟨hAB, ?_, g, s, hgAB, ?_⟩
      · exact C1Static_map loc A B _ _
          (fun x => ite_field_eq _ _ (fun o => o.id) _
            (ite_field_eq _ _ (fun o => o.id) _ rfl rfl) rfl)
          (fun x => ite_field_eq _ _ (fun o => o.locationId) _
            (ite_field_eq _ _ (fun o => o.locationId) _ rfl rfl) rfl)
          (fun x => ite_field_eq _ _ (fun o => o.oppositeGroupId) _
            (ite_field_eq _ _ (fun o => o.oppositeGroupId) _ rfl rfl) rfl) hstat
      · refine OneActive_map_stateFn loc g s (fun st => st) _ _ rfl
          (fun x => ite_field_eq _ _ (fun o => o.locationId) _
            (ite_field_eq _ _ (fun o => o.locationId) _ rfl rfl) rfl)
          (fun x => ite_field_eq _ _ (fun o => o.oppositeGroupId) _
            (ite_field_eq _ _ (fun o => o.oppositeGroupId) _ rfl rfl) rfl)
          ?_ hone
        intro x hx
        exact ite_field_cond _ _ (fun o => o.state) _
          (fun hc => absurd (by rw [← hc]; exact hx) hl2) (fun _ => rfl)
  · split
    · refine ⟨hAB, ?_, g, s, hgAB, ?_⟩
      · exact C1Static_map loc A B _ _
          (fun x => ite_field_eq _ _ (fun o => o.id) _ rfl rfl)
          (fun x => ite_field_eq _ _ (fun o => o.locationId) _ rfl rfl)
          (fun x => ite_field_eq _ _ (fun o => o.oppositeGroupId) _ rfl rfl) hstat
      · exact OneActive_map_stateFn loc g s (fun st => st) _ _ rfl
          (fun x => ite_field_eq _ _ (fun o => o.locationId) _ rfl rfl)
          (fun x => ite_field_eq _ _ (fun o => o.oppositeGroupId) _ rfl rfl)
          (fun x _ => ite_field_eq _ _ (fun o => o.state) _ rfl rfl) hone
    · exact ⟨hAB, hstat, g, s, hgAB, hone⟩

theorem applySmart_length (now : ℤ) (dec : Decision) (loc2 : String)
    (ls : List TLight) : (applySmartDecision now dec loc2 ls).length = ls.length := by
  simp only [applySmartDecision]
  split
  · rw [List.length_map]
  split
  · rw [List.length_map]
  · rfl

theorem smartGate_preserves (loc A B : String) (M : MathOracle) (now : ℤ)
    (smart : Bool) (cars : List Car) (streets : List Street)
    (locations : List Location) (l2 : TLight) (lights2 : List TLight) (i : ℕ)
    (hli2 : lights2[i]? = some l2) (hinv2 : C1Inv loc A B lights2) :
    (smartGate M now smart cars streets locations l2 lights2 i).2[i]? =
      some (smartGate M now smart cars streets locations l2 lights2 i).1 ∧
    C1Inv loc A B (smartGate M now smart cars streets locations l2 lights2 i).2 := by
  have hilen : i < lights2.length := (List.getElem?_eq_some.mp hli2).1
  simp only [smartGate]
  split
  · split
    · have hinvA : C1Inv loc A B (lights2.map fun l =>
          if l.locationId = l2.locationId then { l with lastSmartUpdate := some now }
          else l) :=
        C1Inv_map_frozen loc A B _ _
          (fun x => ite_field_eq _ _ (fun o => o.id) _ rfl rfl)
          (fun x => ite_field_eq _ _ (fun o => o.locationId) _ rfl rfl)
          (fun x => ite_field_eq _ _ (fun o => o.oppositeGroupId) _ rfl rfl)
          (fun x _ => ite_field_eq _ _ (fun o => o.state) _ rfl rfl) hinv2
      have hinvB := applySmart_preserves loc A B now
        (analyzeAndDecideSmartTraffic M l2.locationId cars streets locations
          ((lights2.map fun l => if l.locationId = l2.locationId then
            { l with lastSmartUpdate := some now } else l).filter fun l =>
            decide (l.locationId = l2.locationId)))
        l2.locationId
        (lights2.map fun l => if l.locationId = l2.locationId then
          { l with lastSmartUpdate := some now } else l) hinvA
      have hlenB : i < (applySmartDecision now
          (analyzeAndDecideSmartTraffic M l2.locationId cars streets locations
            ((lights2.map fun l => if l.locationId = l2.locationId then
              { l with lastSmartUpdate := some now } else l).filter fun l =>
              decide (l.locationId = l2.locationId)))
          l2.locationId
          (lights2.map fun l => if l.locationId = l2.locationId then
            { l with lastSmartUpdate := some now } else l)).length := by
        rw [applySmart_length, List.length_map]
        exact hilen
      cases hB : (applySmartDecision now
          (analyzeAndDecideSmartTraffic M l2.locationId cars streets locations
            ((lights2.map fun l => if l.locationId = l2.locationId then
              { l with lastSmartUpdate := some now } else l).filter fun l =>
              decide (l.locationId = l2.locationId)))
          l2.locationId
          (lights2.map fun l => if l.locationId = l2.locationId then
            { l with lastSmartUpdate := some now } else l))[i]? with
      | none =>
        have := List.getElem?_eq_getElem hlenB
        rw [hB] at this
        cases this
      | some lB =>
        constructor
        · simp only [hB, Option.getD_some]
        · exact hinvB
    · exact ⟨hli2, hinv2⟩
  · exact ⟨hli2, hinv2⟩

/-! ### Claim C1: preservation through the full per-light update -/

theorem updateTrafficLight_preserves (loc A B : String) (M : MathOracle)
    (now : ℤ) (dt : ℚ) (smart : Bool) (cars : List Car) (streets : List Street)
    (locations : List Location) (ls : List TLight) (i : ℕ)
    (hinv : C1Inv loc A B ls) :
    C1Inv loc A B (updateTrafficLight M now dt smart cars streets locations ls i) := by
  simp only [updateTrafficLight]
  split
  · exact hinv
  case _ l0 hl0 =>
    have hilen : i < ls.length := (List.getElem?_eq_some.mp hl0).1
    have hinv1 : C1Inv loc A B (ls.set i { l0 with timer := l0.timer + dt }) :=
      C1Inv_set_frozen loc A B ls i _ l0 hl0 rfl rfl (fun _ => rfl) (fun _ => rfl)
        hinv
    have h1i : (ls.set i { l0 with timer := l0.timer + dt })[i]? =
        some { l0 with timer := l0.timer + dt } :=
      getElem?_set_self ls i _ hilen
    have hinv2 : C1Inv loc A B ((ls.set i { l0 with timer := l0.timer + dt }).set i
        (fallbackApply { l0 with timer := l0.timer + dt })) := by
      refine C1Inv_set_frozen loc A B _ i _ _ h1i ?_ ?_ ?_ ?_ hinv1
      · unfold fallbackApply
        split
        · rfl
        · rfl
      · unfold fallbackApply
        split
        · rfl
        · rfl
      · intro hc
        unfold fallbackApply
        split
        case _ hn =>
          rcases hinv1.2.1.1 i _ h1i hc with hA | hB
          · rw [hA] at hn
            simp at hn
          · rw [hB] at hn
            simp at hn
        case _ hn => rfl
      · intro _
        unfold fallbackApply
        split
        · rfl
        · rfl
    have hli2 : ((ls.set i { l0 with timer := l0.timer + dt }).set i
        (fallbackApply { l0 with timer := l0.timer + dt }))[i]? =
        some (fallbackApply { l0 with timer := l0.timer + dt }) :=
      getElem?_set_self _ i _ (by rw [List.length_set]; exact hilen)
    have h := smartGate_preserves loc A B M now smart cars streets locations _ _ i
      hli2 hinv2
    exact tlCycleStep_preserves loc A B now smart _ _ i h.1 h.2

/-! ### Claim C1: preservation through the safety validator -/

theorem validateLight_id (mid : List TLight) (l : TLight) :
    (validateLight mid l).id = l.id := by
  simp only [validateLight]
  split
  · rfl
  split
  · rfl
  split
  · rfl
  · rfl

theorem filter_filter_len (p q r : TLight → Bool) :
    ∀ (ls : List TLight), (∀ a ∈ ls, p a = true → q a = true → r a = true) →
    ((ls.filter p).filter q).length ≤ (ls.filter r).length := by
  intro ls
  induction ls with
  | nil =>
    intro _
    simp
  | cons x xs ih =>
    intro h
    have ihx := ih (fun a ha hp hq => h a (List.mem_cons_of_mem x ha) hp hq)
    rw [List.filter_cons, List.filter_cons]
    cases hp : p x
    · simp only [hp, Bool.false_eq_true, if_false]
      cases hr : r x
      · simp only [hr, Bool.false_eq_true, if_false]
        exact ihx
      · simp only [hr, if_true, List.length_cons]
        exact Nat.le_succ_of_le ihx
    · simp only [hp, if_true]
      rw [List.filter_cons]
      cases hq : q x
      · simp only [hq, Bool.false_eq_true, if_false]
        cases hr : r x
        · simp only [hr, Bool.false_eq_true, if_false]
          exact ihx
        · simp only [hr, if_true, List.length_cons]
          exact Nat.le_succ_of_le ihx
      · simp only [hq, if_true]
        have hr : r x = true := h x (List.mem_cons_self x xs) hp hq
        simp only [hr, if_true, List.length_cons]
        exact Nat.succ_le_succ ihx

theorem validate_preserves (loc A B : String) (ls : List TLight)
    (hinv : C1Inv loc A B ls) : C1Inv loc A B (validateIntersectionSafety ls) := by
  obtain ⟨hAB, hstat, g, s, hgAB, hone⟩ := hinv
  have honeM : ∀ l ∈ ls, l.locationId = loc →
      l.state = (if l.oppositeGroupId = some g then s else LState.red) :=
    forall_getElem?_iff.mpr hone
  have mates_eq : ∀ (n : TLight), n.locationId = loc →
      (ls.filter fun o => decide (o.locationId = n.locationId)) =
      ls.filter fun o => decide (o.locationId = loc) := by
    intro n hn
    apply List.filter_congr
    intro x _
    rw [hn]
  unfold validateIntersectionSafety
  refine ⟨hAB, C1Static_map loc A B _ _ (fun x => validateLight_id ls x)
    (fun x => validateLight_locationId ls x) (fun x => validateLight_group ls x)
    hstat, ?_⟩
  have transport : ∀ (g' : String) (s' : LState),
      (∀ (j : ℕ) (n : TLight), ls[j]? = some n → n.locationId = loc →
        (validateLight ls n).state =
          (if n.oppositeGroupId = some g' then s' else LState.red)) →
      OneActive loc g' s' (ls.map (validateLight ls)) := by
    intro g' s' hval j m hj hm
    rw [List.getElem?_map] at hj
    cases hx : ls[j]? with
    | none =>
      rw [hx] at hj
      cases hj
    | some n =>
      rw [hx] at hj
      simp only [Option.map_some', Option.some.injEq] at hj
      subst hj
      have hnloc : n.locationId = loc := by
        rw [← validateLight_locationId ls n]
        exact hm
      rw [validateLight_group]
      exact hval j n hx hnloc
  by_cases h4 : (ls.filter fun o => decide (o.locationId = loc)).length < 4
  · refine ⟨g, s, hgAB, transport g s ?_⟩
    intro j n hj hnloc
    have hid : validateLight ls n = n := by
      simp only [validateLight]
      rw [mates_eq n hnloc, if_pos h4]
    rw [hid]
    exact hone j n hj hnloc
  · have hgreens_le : ((ls.filter fun o => decide (o.locationId = loc)).filter
        fun o => decide (o.state = LState.green)).length ≤ 2 := by
      have key : ∀ (g' : String), g = g' →
          ∀ a ∈ ls, decide (a.locationId = loc) = true →
          decide (a.state = LState.green) = true →
          decide (a.locationId = loc ∧ a.oppositeGroupId = some g') = true := by
        intro g' hgg a ha hp hq
        have haloc : a.locationId = loc := by simpa using hp
        have hagreen : a.state = .green := by simpa using hq
        have hst := honeM a ha haloc
        rw [hagreen] at hst
        by_cases hag : a.oppositeGroupId = some g
        · rw [hgg] at hag
          simp [haloc, hag]
        · rw [if_neg hag] at hst
          exact absurd hst (by decide)
      rcases hgAB with hgA | hgB
      · exact le_trans (filter_filter_len _ _ _ ls (key A hgA)) hstat.2.2.1
      · exact le_trans (filter_filter_len _ _ _ ls (key B hgB)) hstat.2.2.2
    by_cases hC : ((ls.filter fun o => decide (o.locationId = loc)).filter
        fun o => decide (o.state = LState.red)).length =
        (ls.filter fun o => decide (o.locationId = loc)).length ∧
        listMinQ ((ls.filter fun o => decide (o.locationId = loc)).map
          (·.timer)) > 3
    · have hallred : ∀ a ∈ ls.filter (fun o => decide (o.locationId = loc)),
          a.state = .red := by
        intro a ha
        have := filter_length_eq_all _ _ hC.1 a ha
        simpa using this
      have hgr_nil : (ls.filter fun o => decide (o.locationId = loc)).filter
          (fun o => decide (o.state = LState.green)) = [] := by
        rw [List.filter_eq_nil]
        intro a ha
        simp [hallred a ha]
      have hmem : ∀ (j : ℕ) (n : TLight), ls[j]? = some n → n.locationId = loc →
          n ∈ ls.filter fun o => decide (o.locationId = loc) := by
        intro j n hj hn
        exact List.mem_filter.mpr ⟨List.getElem?_mem hj, by simpa using hn⟩
      by_cases hNSA : A = "north-south"
      · refine ⟨A, .green, Or.inl rfl, transport A .green ?_⟩
        intro j n hj hnloc
        have hgrpn := hstat.1 j n hj hnloc
        have hnred : n.state = .red := hallred n (hmem j n hj hnloc)
        simp only [validateLight]
        rw [mates_eq n hnloc, if_neg h4, hgr_nil,
          if_neg (fun hcg => absurd hcg.1 (by simp))]
        rcases hgrpn with hA | hB
        · rw [if_pos ⟨hC.1, hC.2, by rw [hA, hNSA]⟩]
          simp [hA]
        · have hc3 : ¬(((ls.filter fun o => decide (o.locationId = loc)).filter
              fun o => decide (o.state = LState.red)).length =
              (ls.filter fun o => decide (o.locationId = loc)).length ∧
              listMinQ ((ls.filter fun o => decide (o.locationId = loc)).map
                (·.timer)) > 3 ∧
              n.oppositeGroupId = some "north-south") := by
            intro hc3
            have hBNS : B = "north-south" := Option.some.inj (hB.symm.trans hc3.2.2)
            exact hAB (hNSA.trans hBNS.symm)
          rw [if_neg hc3, hnred,
            if_neg (by rw [hB]; intro he; exact hAB (Option.some.inj he).symm)]
      · by_cases hNSB : B = "north-south"
        · refine ⟨B, .green, Or.inr rfl, transport B .green ?_⟩
          intro j n hj hnloc
          have hgrpn := hstat.1 j n hj hnloc
          have hnred : n.state = .red := hallred n (hmem j n hj hnloc)
          simp only [validateLight]
          rw [mates_eq n hnloc, if_neg h4, hgr_nil,
            if_neg (fun hcg => absurd hcg.1 (by simp))]
          rcases hgrpn with hA | hB
          · have hc3 : ¬(((ls.filter fun o => decide (o.locationId = loc)).filter
                fun o => decide (o.state = LState.red)).length =
                (ls.filter fun o => decide (o.locationId = loc)).length ∧
                listMinQ ((ls.filter fun o => decide (o.locationId = loc)).map
                  (·.timer)) > 3 ∧
                n.oppositeGroupId = some "north-south") := by
              intro hc3
              have hANS : A = "north-south" := Option.some.inj (hA.symm.trans hc3.2.2)
              exact hNSA hANS
            rw [if_neg hc3, hnred,
              if_neg (by rw [hA]; intro he; exact hAB (Option.some.inj he))]
          · rw [if_pos ⟨hC.1, hC.2, by rw [hB, hNSB]⟩]
            simp [hB]
        · refine ⟨A, .red, Or.inl rfl, transport A .red ?_⟩
          intro j n hj hnloc
          have hgrpn := hstat.1 j n hj hnloc
          have hnred : n.state = .red := hallred n (hmem j n hj hnloc)
          simp only [validateLight]
          rw [mates_eq n hnloc, if_neg h4, hgr_nil,
            if_neg (fun hcg => absurd hcg.1 (by simp))]
          have hc3 : ¬(((ls.filter fun o => decide (o.locationId = loc)).filter
              fun o => decide (o.state = LState.red)).length =
              (ls.filter fun o => decide (o.locationId = loc)).length ∧
              listMinQ ((ls.filter fun o => decide (o.locationId = loc)).map
                (·.timer)) > 3 ∧
              n.oppositeGroupId = some "north-south") := by
            intro hc3
            rcases hgrpn with hA | hB
            · exact hNSA (Option.some.inj (hA.symm.trans hc3.2.2))
            · exact hNSB (Option.some.inj (hB.symm.trans hc3.2.2))
          rw [if_neg hc3, hnred, ite_self]
    · refine ⟨g, s, hgAB, transport g s ?_⟩
      intro j n hj hnloc
      simp only [validateLight]
      rw [mates_eq n hnloc, if_neg h4,
        if_neg (fun hcg => absurd hcg.1 (by omega)),
        if_neg (fun hc3 => hC ⟨hc3.1, hc3.2.1⟩)]
      exact hone j n hj hnloc

/-! ### Claim C1: preservation through the batch update and reachability -/

theorem updateTrafficLights_preserves (loc A B : String) (M : MathOracle)
    (now : ℤ) (dt : ℚ) (smart : Bool) (cars : List Car) (streets : List Street)
    (locations : List Location) (ls : List TLight) (hinv : C1Inv loc A B ls) :
    C1Inv loc A B (updateTrafficLights M now ls dt smart cars streets locations) := by
  unfold updateTrafficLights
  apply validate_preserves
  have key : ∀ (ns : List ℕ) (cur : List TLight), C1Inv loc A B cur →
      C1Inv loc A B (ns.foldl (fun a i =>
        updateTrafficLight M now dt smart cars streets locations a i) cur) := by
    intro ns
    induction ns with
    | nil =>
      intro cur h
      exact h
    | cons n ns ih =>
      intro cur h
      exact ih _ (updateTrafficLight_preserves loc A B M now dt smart cars streets
        locations cur n h)
  exact key _ ls hinv

theorem reach_preserves (loc A B : String) (init cur : List TLight)
    (hinv : C1Inv loc A B init) (h : ReachableTL init cur) :
    C1Inv loc A B cur := by
  induction h with
  | refl => exact hinv
  | step ls₂ M now dt smart cars streets locations hr ih =>
    exact updateTrafficLights_preserves loc A B M now dt smart cars streets
      locations ls₂ ih

/-- Claim C1 (confirmed).  For every light configuration reachable by
repeated batch updates (any control mode, oracle, clock, time step, car
population and graph at each step) from an initial intersection light set
satisfying the structural invariant C1Inv — its lights at loc split into two
distinct opposite groups of at most two lights each, with distinct ids and a
single active group (every other light red), as assignTrafficLightGroups
builds them — no two lights of the intersection belonging to different
oppositeGroupId groups are simultaneously green or yellow. -/
theorem C1_phase_mutual_exclusion (loc A B : String) (init cur : List TLight)
    (hinv : C1Inv loc A B init) (hreach : ReachableTL init cur)
    (hthree : 3 ≤ (cur.filter fun l => decide (l.locationId = loc)).length)
    (l₁ l₂ : TLight) (h₁ : l₁ ∈ cur) (h₂ : l₂ ∈ cur)
    (hl₁ : l₁.locationId = loc) (hl₂ : l₂.locationId = loc)
    (ha₁ : l₁.state = .green ∨ l₁.state = .yellow)
    (ha₂ : l₂.state = .green ∨ l₂.state = .yellow) :
    l₁.oppositeGroupId = l₂.oppositeGroupId := by
  obtain ⟨hAB, hstat, g, s, hgAB, hone⟩ :=
    reach_preserves loc A B init cur hinv hreach
  have honeM : ∀ l ∈ cur, l.locationId = loc →
      l.state = (if l.oppositeGroupId = some g then s else LState.red) :=
    forall_getElem?_iff.mpr hone
  have e₁ := honeM l₁ h₁ hl₁
  have e₂ := honeM l₂ h₂ hl₂
  have hg₁ : l₁.oppositeGroupId = some g := by
    by_contra hng
    rw [if_neg hng] at e₁
    rcases ha₁ with h | h
    · rw [h] at e₁
      exact absurd e₁ (by decide)
    · rw [h] at e₁
      exact absurd e₁ (by decide)
  have hg₂ : l₂.oppositeGroupId = some g := by
    by_contra hng
    rw [if_neg hng] at e₂
    rcases ha₂ with h | h
    · rw [h] at e₂
      exact absurd e₂ (by decide)
    · rw [h] at e₂
      exact absurd e₂ (by decide)
  rw [hg₁, hg₂]

/-- Witness instantiating C1 at a concrete 4-light two-group intersection
(the initial configuration itself, via reflexive reachability): its two green
lights indeed share a group. -/
theorem C1_phase_mutual_exclusion_witness :
    (mkLight "A1" "I" "S1" .green 0 (some "gA")).oppositeGroupId =
      (mkLight "A2" "I" "S2" .green 0 (some "gA")).oppositeGroupId := by
  apply C1_phase_mutual_exclusion "I" "gA" "gB" c1Lights c1Lights ?_
    (ReachableTL.refl c1Lights) ?_ _ _ ?_ ?_ rfl rfl (Or.inl rfl) (Or.inl rfl)
  · refine ⟨by decide, ⟨?_, by unfold NodupIds; decide,
      by unfold GroupLe2; decide, by unfold GroupLe2; decide⟩, "gA", .green,
      Or.inl rfl, ?_⟩
    · exact forall_getElem?_iff.mp (by decide)
    · exact forall_getElem?_iff.mp (by decide)
  · decide
  · exact List.mem_cons_self _ _
  · exact List.mem_cons_of_mem _ (List.mem_cons_self _ _)

end TrafficSim
